import Mathlib

/-!
# UAF client dispatch layer: service invocations and the subscription factory

A shallow embedding of `uaf::BaseServiceInvocation`
(`src/uaf/client/invocations/baseserviceinvocation.h`) with the properties of its
`addTarget`, `invoke` and `copyToResult` members, of `uaf::SubscriptionFactory`
(`src/uaf/client/subscriptions/subscriptionfactory.h`) with the properties of its
`invokeService`, and of `uaf::SessionSettings` (`src/uaf/client/settings/sessionsettings.cpp`).

Conventions of the embedding:
* `std::vector` is a `List`; `v[i] = x` is `List.set`, an update of one member of `v[i]` is
  `List.modify`.
* `std::size_t` and the integer handle types are `Nat`; no arithmetic is performed on them in the
  embedded code apart from the loop counter, which is bounded by a vector size.
* A vector access outside the vector (undefined behaviour in C++) makes the embedded function
  return `none`.
* A `double` is an IEEE 754 binary64 value; products are rounded to the nearest double, and the
  conversion to `int` is undefined (`none`) when the truncated value is not an `int` of 32 bits.
* Calls to the logger are left out.
-/

namespace uaf

/-! ## Handles, statuses and targets -/

abbrev ClientConnectionId := Nat
abbrev ClientSubscriptionHandle := Nat
abbrev RequestHandle := Nat
abbrev TransactionId := Nat

/-- The level at which a service should be invoked (`enum InvocationLevel`). -/
inductive InvocationLevel where
  | SessionLevel
  | SubscriptionLevel
  deriving DecidableEq, Repr

/-- The texts given to `uaf::UnexpectedError` in `baseserviceinvocation.h`, with the numbers that
`uaf::format` prints into them. -/
inductive Description where
  /-- The text "Bug in BaseServiceInvocation: number of result targets (%d) != number of ranks (%d)". -/
  | numberOfResultTargets (resultTargets ranks : Nat)
  /-- The text "Bug in BaseServiceInvocation: rank (%d) > targets.size() (%d)". -/
  | rankOutOfRange (rank size : Nat)
  /-- The text "Bug in BaseServiceInvocation: Ranks do not match the received result targets". -/
  | ranksDoNotMatch
  /-- The text "Method is not supposed to be called!". -/
  | notSupposedToBeCalled
  /-- Modelled from the spec: the text of the error that `releaseSubscription` reports for a
  subscription that is already fully released (subscriptionfactory.cpp is outside the given
  sources). -/
  | alreadyReleased
  deriving DecidableEq, Repr

/-- Modelled from the spec: `uaf::Status` (uaf/util/status.h) is declared outside the given
sources. A status is Good, Uncertain, or one of the errors; the errors named here are the ones the
embedded code constructs and the NotFoundError of the spec, `other` stands for every further
error a service or the transport may report. -/
inductive Status where
  | Good
  | Uncertain
  | UnexpectedError (description : Description)
  | SyncInvocationNotSupportedError
  | AsyncInvocationNotSupportedError
  | SubscriptionNotCreatedError
  | NotFoundError
  | other (code : Nat)
  deriving DecidableEq, Repr

/-- The test `ret.isGood()`. -/
def Status.isGood : Status → Bool
  | Status.Good => true
  | _ => false

/-- The status is an `uaf::UnexpectedError`, whatever its text. -/
def Status.isUnexpectedError : Status → Bool
  | Status.UnexpectedError _ => true
  | _ => false

/-- Modelled from the spec: `uaf::SessionInformation` is declared outside the given sources; the
member read by `copyToResult` is kept. -/
structure SessionInformation where
  clientConnectionId : ClientConnectionId
  deriving DecidableEq, Repr

/-- Modelled from the spec: `uaf::SubscriptionInformation` is declared outside the given sources;
the member read by `copyToResult` is kept. -/
structure SubscriptionInformation where
  clientSubscriptionHandle : ClientSubscriptionHandle
  deriving DecidableEq, Repr

/-- Modelled from the spec: a result target of a session-level service (a `_ResultTarget` with the
member `clientConnectionId` that the session-level `copyToResult` assigns); `rest` holds the
status and the service specific members. -/
structure BaseSessionResultTarget (β : Type) where
  clientConnectionId : ClientConnectionId
  rest : β
  deriving DecidableEq, Repr

/-- Modelled from the spec: a result target of a subscription-level service
(`uaf::BaseSubscriptionResultTarget`, e.g. `CreateMonitoredEventsResultTarget`), with the two
members that the subscription-level `copyToResult` assigns; `rest` holds the status and the
service specific members. -/
structure BaseSubscriptionResultTarget (β : Type) where
  clientConnectionId : ClientConnectionId
  clientSubscriptionHandle : ClientSubscriptionHandle
  rest : β
  deriving DecidableEq, Repr

/-- Modelled from the spec: `uaf::AsyncResultTarget`, the placeholder result of an asynchronous
request, is declared outside the given sources. It carries the identity of the owning connection
and of the owning subscription, and a status. -/
structure AsyncResultTarget where
  clientConnectionId : ClientConnectionId
  clientSubscriptionHandle : ClientSubscriptionHandle
  status : Status
  deriving DecidableEq, Repr

/-- Modelled from the spec: the result objects `BaseSessionResult` and `BaseSubscriptionResult`
are declared outside the given sources; `copyToResult` reads and writes their `targets`. -/
structure BaseResult (T : Type) where
  targets : List T
  deriving DecidableEq, Repr

/-! ## The service invocation -/

/-- The data members of `BaseServiceInvocation<_ServiceSettings, _RequestTarget, _ResultTarget>`. -/
structure BaseServiceInvocation (S Q R : Type) where
  asynchronous_ : Bool
  transactionId_ : TransactionId
  requestTargets_ : List Q
  ranks_ : List Nat
  serviceSettings_ : S
  resultTargets_ : List R
  asyncResultTargets_ : List AsyncResultTarget
  requestHandle_ : RequestHandle
  sessionInformation_ : SessionInformation
  subscriptionInformation_ : SubscriptionInformation
  invocationLevel_ : InvocationLevel
  deriving DecidableEq, Repr

namespace BaseServiceInvocation

variable {S Q R β : Type}

/-- The constructor `BaseServiceInvocation(async, requestHandle)`. The three members of class type
are default constructed in C++; their default values are given here as arguments. -/
def create (async : Bool) (requestHandle : RequestHandle) (serviceSettings : S)
    (sessionInformation : SessionInformation)
    (subscriptionInformation : SubscriptionInformation) : BaseServiceInvocation S Q R :=
  { asynchronous_ := async
    transactionId_ := 0
    requestTargets_ := []
    ranks_ := []
    serviceSettings_ := serviceSettings
    resultTargets_ := []
    asyncResultTargets_ := []
    requestHandle_ := requestHandle
    sessionInformation_ := sessionInformation
    subscriptionInformation_ := subscriptionInformation
    invocationLevel_ := InvocationLevel.SessionLevel }

/-- The accessor `transactionId()`. -/
def transactionId (inv : BaseServiceInvocation S Q R) : TransactionId := inv.transactionId_

/-- The accessor `asynchronous()`. -/
def asynchronous (inv : BaseServiceInvocation S Q R) : Bool := inv.asynchronous_

/-- The accessor `requestHandle()`. -/
def requestHandle (inv : BaseServiceInvocation S Q R) : RequestHandle := inv.requestHandle_

/-- The accessor `invocationLevel()`. -/
def invocationLevel (inv : BaseServiceInvocation S Q R) : InvocationLevel := inv.invocationLevel_

/-- The overload `addTarget(rank, requestTarget, resultTarget)`. -/
def addTarget (inv : BaseServiceInvocation S Q R) (rank : Nat) (requestTarget : Q)
    (resultTarget : R) : BaseServiceInvocation S Q R :=
  { inv with
    ranks_ := inv.ranks_ ++ [rank]
    requestTargets_ := inv.requestTargets_ ++ [requestTarget]
    resultTargets_ := inv.resultTargets_ ++ [resultTarget] }

/-- The overload `addTarget(rank, requestTarget, asyncResultTarget)`. -/
def addTargetAsync (inv : BaseServiceInvocation S Q R) (rank : Nat) (requestTarget : Q)
    (asyncResultTarget : AsyncResultTarget) : BaseServiceInvocation S Q R :=
  { inv with
    ranks_ := inv.ranks_ ++ [rank]
    requestTargets_ := inv.requestTargets_ ++ [requestTarget]
    asyncResultTargets_ := inv.asyncResultTargets_ ++ [asyncResultTarget] }

def setAsynchronous (inv : BaseServiceInvocation S Q R) (async : Bool) :
    BaseServiceInvocation S Q R :=
  { inv with asynchronous_ := async }

def setRequestHandle (inv : BaseServiceInvocation S Q R) (requestHandle : RequestHandle) :
    BaseServiceInvocation S Q R :=
  { inv with requestHandle_ := requestHandle }

def setTransactionId (inv : BaseServiceInvocation S Q R) (transactionId : TransactionId) :
    BaseServiceInvocation S Q R :=
  { inv with transactionId_ := transactionId }

def setSessionInformation (inv : BaseServiceInvocation S Q R)
    (sessionInformation : SessionInformation) : BaseServiceInvocation S Q R :=
  { inv with sessionInformation_ := sessionInformation }

def setSubscriptionInformation (inv : BaseServiceInvocation S Q R)
    (subscriptionInformation : SubscriptionInformation) : BaseServiceInvocation S Q R :=
  { inv with subscriptionInformation_ := subscriptionInformation }

def setServiceSettings (inv : BaseServiceInvocation S Q R) (serviceSettings : S) :
    BaseServiceInvocation S Q R :=
  { inv with serviceSettings_ := serviceSettings }

/-! ### copyToResult -/

/-- The loop `for (i = 0; i < items.size() && ret.isGood(); i++)` shared by the four overloads of
`copyToResult`, started at index `i` with `items` the elements from index `i` on. Each round reads
`ranks_[i]`; for a rank below `targets.size()` it runs `body` (the assignments to
`result.targets[rank]`) with the element at index `i`, otherwise it sets `ret` to an
`UnexpectedError`. -/
def copyLoop {E T : Type} (ranks : List Nat) (body : E → Nat → List T → List T) :
    List E → Nat → Status → List T → Option (Status × List T)
  | [], _, ret, targets => some (ret, targets)
  | item :: items, i, ret, targets =>
    if ret.isGood then
      match ranks[i]? with
      | none => none
      | some rank =>
        if rank < targets.length then
          copyLoop ranks body items (i + 1) ret (body item rank targets)
        else
          copyLoop ranks body items (i + 1)
            (Status.UnexpectedError (Description.rankOutOfRange rank targets.length)) targets
    else
      some (ret, targets)

/-- The body of the loop of `copyToResult(SessionResultType&)` for a rank in range:
`result.targets[rank] = resultTargets_[i]` and then
`result.targets[rank].clientConnectionId = sessionInformation_.clientConnectionId`. -/
def assignSession (inv : BaseServiceInvocation S Q (BaseSessionResultTarget β))
    (resultTarget : BaseSessionResultTarget β) (rank : Nat)
    (targets : List (BaseSessionResultTarget β)) : List (BaseSessionResultTarget β) :=
  List.modify
    (fun t => { t with clientConnectionId := inv.sessionInformation_.clientConnectionId })
    rank (targets.set rank resultTarget)

/-- The overload `copyToResult(SessionResultType& result)`: the returned status and the result
object after the call. -/
def copyToResultSession (inv : BaseServiceInvocation S Q (BaseSessionResultTarget β))
    (result : BaseResult (BaseSessionResultTarget β)) :
    Option (Status × BaseResult (BaseSessionResultTarget β)) :=
  let ret :=
    if inv.resultTargets_.length ≠ inv.ranks_.length then
      Status.UnexpectedError
        (Description.numberOfResultTargets inv.resultTargets_.length inv.ranks_.length)
    else Status.Good
  (copyLoop inv.ranks_ (assignSession inv) inv.resultTargets_ 0 ret result.targets).map
    (fun out => (out.1, { result with targets := out.2 }))

/-- The body of the loop of `copyToResult(SubscriptionResultType&)` for a rank in range:
`result.targets[rank] = resultTargets_[i]`, then
`result.targets[rank].clientConnectionId = sessionInformation_.clientConnectionId`, then
`result.targets[rank].clientSubscriptionHandle = subscriptionInformation_.clientSubscriptionHandle`. -/
def assignSubscription (inv : BaseServiceInvocation S Q (BaseSubscriptionResultTarget β))
    (resultTarget : BaseSubscriptionResultTarget β) (rank : Nat)
    (targets : List (BaseSubscriptionResultTarget β)) : List (BaseSubscriptionResultTarget β) :=
  List.modify
    (fun t => { t with
      clientSubscriptionHandle := inv.subscriptionInformation_.clientSubscriptionHandle })
    rank
    (List.modify
      (fun t => { t with clientConnectionId := inv.sessionInformation_.clientConnectionId })
      rank (targets.set rank resultTarget))

/-- The overload `copyToResult(SubscriptionResultType& result)`. -/
def copyToResultSubscription (inv : BaseServiceInvocation S Q (BaseSubscriptionResultTarget β))
    (result : BaseResult (BaseSubscriptionResultTarget β)) :
    Option (Status × BaseResult (BaseSubscriptionResultTarget β)) :=
  let ret :=
    if inv.resultTargets_.length ≠ inv.ranks_.length then
      Status.UnexpectedError
        (Description.numberOfResultTargets inv.resultTargets_.length inv.ranks_.length)
    else Status.Good
  (copyLoop inv.ranks_ (assignSubscription inv) inv.resultTargets_ 0 ret result.targets).map
    (fun out => (out.1, { result with targets := out.2 }))

/-- The body of the loop of `copyToResult(AsyncSessionResultType&)` for a rank in range: the one
assignment `result.targets[rank].clientConnectionId = sessionInformation_.clientConnectionId`;
`asyncResultTargets_[i]` is not read. -/
def assignAsyncSession (inv : BaseServiceInvocation S Q R) (_asyncResultTarget : AsyncResultTarget)
    (rank : Nat) (targets : List AsyncResultTarget) : List AsyncResultTarget :=
  List.modify
    (fun t => { t with clientConnectionId := inv.sessionInformation_.clientConnectionId })
    rank targets

/-- The overload `copyToResult(AsyncSessionResultType& result)`. -/
def copyToResultAsyncSession (inv : BaseServiceInvocation S Q R)
    (result : BaseResult AsyncResultTarget) : Option (Status × BaseResult AsyncResultTarget) :=
  if inv.ranks_.length = inv.asyncResultTargets_.length then
    (copyLoop inv.ranks_ (assignAsyncSession inv) inv.asyncResultTargets_ 0 Status.Good
      result.targets).map
      (fun out => (out.1, { result with targets := out.2 }))
  else
    some (Status.UnexpectedError Description.ranksDoNotMatch, result)

/-- The body of the loop of `copyToResult(AsyncSubscriptionResultType&)` for a rank in range:
`result.targets[rank] = asyncResultTargets_[i]` and then
`result.targets[rank].clientConnectionId = sessionInformation_.clientConnectionId`. The two lines
assigning `clientSubscriptionHandle` are commented out in the source. -/
def assignAsyncSubscription (inv : BaseServiceInvocation S Q R)
    (asyncResultTarget : AsyncResultTarget) (rank : Nat) (targets : List AsyncResultTarget) :
    List AsyncResultTarget :=
  List.modify
    (fun t => { t with clientConnectionId := inv.sessionInformation_.clientConnectionId })
    rank (targets.set rank asyncResultTarget)

/-- The overload `copyToResult(AsyncSubscriptionResultType& result)`. -/
def copyToResultAsyncSubscription (inv : BaseServiceInvocation S Q R)
    (result : BaseResult AsyncResultTarget) : Option (Status × BaseResult AsyncResultTarget) :=
  if inv.ranks_.length = inv.asyncResultTargets_.length then
    (copyLoop inv.ranks_ (assignAsyncSubscription inv) inv.asyncResultTargets_ 0 Status.Good
      result.targets).map
      (fun out => (out.1, { result with targets := out.2 }))
  else
    some (Status.UnexpectedError Description.ranksDoNotMatch, result)

/-! ### The extension points and invoke -/

/-- The calls that `invoke` makes to the virtual member functions, in the order made. The two
`invokeAsyncSdkService` overloads are recorded with the transaction id they are given. -/
inductive Call where
  | fromSyncUafToSdk
  | fromAsyncUafToSdk
  | invokeSyncSdkService_UaSession
  | invokeAsyncSdkService_UaSession (transactionId : TransactionId)
  | invokeSyncSdkService_UaSubscription
  | invokeAsyncSdkService_UaSubscription (transactionId : TransactionId)
  | fromSyncSdkToUaf
  deriving DecidableEq, Repr

/-- The seven virtual member functions of `BaseServiceInvocation`, as a concrete service supplies
them. `σ` is the state of the concrete service and of the SDK objects it talks to, `Ses` and `Sub`
stand for `UaClientSdk::UaSession*` and `UaClientSdk::UaSubscription*`, `NA` and `SA` for
`uaf::NamespaceArray` and `uaf::ServerArray`. Each function sees the invocation (`this`) and the
arguments of the C++ signature; it returns its status and the new state, `fromSyncSdkToUaf` also
the `targets` vector it was given by reference. -/
structure ExtensionPoints (σ S Q R Ses Sub NA SA : Type) where
  fromSyncUafToSdk : BaseServiceInvocation S Q R → σ → List Q → S → NA → SA → Status × σ
  fromAsyncUafToSdk : BaseServiceInvocation S Q R → σ → List Q → S → NA → SA → Status × σ
  invokeSyncSdkService_UaSession : BaseServiceInvocation S Q R → σ → Ses → Status × σ
  invokeAsyncSdkService_UaSession :
    BaseServiceInvocation S Q R → σ → Ses → TransactionId → Status × σ
  invokeSyncSdkService_UaSubscription : BaseServiceInvocation S Q R → σ → Sub → Status × σ
  invokeAsyncSdkService_UaSubscription :
    BaseServiceInvocation S Q R → σ → Sub → TransactionId → Status × σ
  fromSyncSdkToUaf : BaseServiceInvocation S Q R → σ → NA → SA → List R → Status × σ × List R

variable {σ Ses Sub NA SA : Type}

/-- The body of `fromSyncUafToSdk` in the base class. -/
def fromSyncUafToSdk (inv : BaseServiceInvocation S Q R) : Status :=
  if inv.asynchronous_ then Status.UnexpectedError Description.notSupposedToBeCalled
  else Status.SyncInvocationNotSupportedError

/-- The body of `fromAsyncUafToSdk` in the base class. -/
def fromAsyncUafToSdk (inv : BaseServiceInvocation S Q R) : Status :=
  if !inv.asynchronous_ then Status.UnexpectedError Description.notSupposedToBeCalled
  else Status.AsyncInvocationNotSupportedError

/-- The body of `invokeSyncSdkService(UaSession*)` in the base class. -/
def invokeSyncSdkService_UaSession (inv : BaseServiceInvocation S Q R) : Status :=
  if inv.asynchronous_ || inv.invocationLevel_ != InvocationLevel.SessionLevel then
    Status.UnexpectedError Description.notSupposedToBeCalled
  else Status.SyncInvocationNotSupportedError

/-- The body of `invokeAsyncSdkService(UaSession*, TransactionId)` in the base class. -/
def invokeAsyncSdkService_UaSession (inv : BaseServiceInvocation S Q R) : Status :=
  if !inv.asynchronous_ || inv.invocationLevel_ != InvocationLevel.SessionLevel then
    Status.UnexpectedError Description.notSupposedToBeCalled
  else Status.AsyncInvocationNotSupportedError

/-- The body of `invokeSyncSdkService(UaSubscription*)` in the base class. -/
def invokeSyncSdkService_UaSubscription (inv : BaseServiceInvocation S Q R) : Status :=
  if inv.asynchronous_ || inv.invocationLevel_ != InvocationLevel.SubscriptionLevel then
    Status.UnexpectedError Description.notSupposedToBeCalled
  else Status.SyncInvocationNotSupportedError

/-- The body of `invokeAsyncSdkService(UaSubscription*, TransactionId)` in the base class. -/
def invokeAsyncSdkService_UaSubscription (inv : BaseServiceInvocation S Q R) : Status :=
  if !inv.asynchronous_ || inv.invocationLevel_ != InvocationLevel.SubscriptionLevel then
    Status.UnexpectedError Description.notSupposedToBeCalled
  else Status.AsyncInvocationNotSupportedError

/-- The body of `fromSyncSdkToUaf` in the base class. -/
def fromSyncSdkToUaf (inv : BaseServiceInvocation S Q R) : Status :=
  if inv.asynchronous_ then Status.UnexpectedError Description.notSupposedToBeCalled
  else Status.SyncInvocationNotSupportedError

/-- A service that overrides none of the virtual member functions: every extension point is the
one of the base class, which touches neither the state nor the targets. -/
def baseExtensionPoints : ExtensionPoints σ S Q R Ses Sub NA SA :=
  { fromSyncUafToSdk := fun inv sdk _ _ _ _ => (fromSyncUafToSdk inv, sdk)
    fromAsyncUafToSdk := fun inv sdk _ _ _ _ => (fromAsyncUafToSdk inv, sdk)
    invokeSyncSdkService_UaSession := fun inv sdk _ => (invokeSyncSdkService_UaSession inv, sdk)
    invokeAsyncSdkService_UaSession :=
      fun inv sdk _ _ => (invokeAsyncSdkService_UaSession inv, sdk)
    invokeSyncSdkService_UaSubscription :=
      fun inv sdk _ => (invokeSyncSdkService_UaSubscription inv, sdk)
    invokeAsyncSdkService_UaSubscription :=
      fun inv sdk _ _ => (invokeAsyncSdkService_UaSubscription inv, sdk)
    fromSyncSdkToUaf := fun inv sdk _ _ targets => (fromSyncSdkToUaf inv, sdk, targets) }

/-- What a call of `invoke` leaves behind: the returned status, the invocation and the service
state after the call, and the calls made to the extension points. -/
structure Invoked (σ S Q R : Type) where
  ret : Status
  invocation : BaseServiceInvocation S Q R
  sdk : σ
  calls : List Call

/-- The member `invoke(UaSession*, nameSpaceArray, serverArray, logger)`. -/
def invoke (ext : ExtensionPoints σ S Q R Ses Sub NA SA) (inv : BaseServiceInvocation S Q R)
    (sdk : σ) (uaSession : Ses) (nameSpaceArray : NA) (serverArray : SA) : Invoked σ S Q R :=
  if inv.asynchronous_ then
    let r1 := ext.fromAsyncUafToSdk inv sdk inv.requestTargets_ inv.serviceSettings_
      nameSpaceArray serverArray
    if r1.1.isGood then
      let r2 := ext.invokeAsyncSdkService_UaSession inv r1.2 uaSession inv.transactionId_
      { ret := r2.1, invocation := inv, sdk := r2.2
        calls := [Call.fromAsyncUafToSdk, Call.invokeAsyncSdkService_UaSession inv.transactionId_] }
    else
      { ret := r1.1, invocation := inv, sdk := r1.2, calls := [Call.fromAsyncUafToSdk] }
  else
    let r1 := ext.fromSyncUafToSdk inv sdk inv.requestTargets_ inv.serviceSettings_
      nameSpaceArray serverArray
    let s1 : Invoked σ S Q R :=
      { ret := r1.1, invocation := inv, sdk := r1.2, calls := [Call.fromSyncUafToSdk] }
    let s2 : Invoked σ S Q R :=
      if s1.ret.isGood then
        let r2 := ext.invokeSyncSdkService_UaSession inv s1.sdk uaSession
        { s1 with ret := r2.1, sdk := r2.2
                  calls := s1.calls ++ [Call.invokeSyncSdkService_UaSession] }
      else s1
    if s2.ret.isGood then
      let r3 := ext.fromSyncSdkToUaf inv s2.sdk nameSpaceArray serverArray inv.resultTargets_
      { ret := r3.1, invocation := { inv with resultTargets_ := r3.2.2 }, sdk := r3.2.1
        calls := s2.calls ++ [Call.fromSyncSdkToUaf] }
    else s2

/-- The member `invoke(UaSubscription*, nameSpaceArray, serverArray, logger)`. -/
def invokeSubscription (ext : ExtensionPoints σ S Q R Ses Sub NA SA)
    (inv : BaseServiceInvocation S Q R) (sdk : σ) (uaSubscription : Sub) (nameSpaceArray : NA)
    (serverArray : SA) : Invoked σ S Q R :=
  if inv.asynchronous then
    let r1 := ext.fromAsyncUafToSdk inv sdk inv.requestTargets_ inv.serviceSettings_
      nameSpaceArray serverArray
    if r1.1.isGood then
      let r2 := ext.invokeAsyncSdkService_UaSubscription inv r1.2 uaSubscription inv.transactionId
      { ret := r2.1, invocation := inv, sdk := r2.2
        calls :=
          [Call.fromAsyncUafToSdk, Call.invokeAsyncSdkService_UaSubscription inv.transactionId] }
    else
      { ret := r1.1, invocation := inv, sdk := r1.2, calls := [Call.fromAsyncUafToSdk] }
  else
    let r1 := ext.fromSyncUafToSdk inv sdk inv.requestTargets_ inv.serviceSettings_
      nameSpaceArray serverArray
    let s1 : Invoked σ S Q R :=
      { ret := r1.1, invocation := inv, sdk := r1.2, calls := [Call.fromSyncUafToSdk] }
    let s2 : Invoked σ S Q R :=
      if s1.ret.isGood then
        let r2 := ext.invokeSyncSdkService_UaSubscription inv s1.sdk uaSubscription
        { s1 with ret := r2.1, sdk := r2.2
                  calls := s1.calls ++ [Call.invokeSyncSdkService_UaSubscription] }
      else s1
    if s2.ret.isGood then
      let r3 := ext.fromSyncSdkToUaf inv s2.sdk nameSpaceArray serverArray inv.resultTargets_
      { ret := r3.1, invocation := { inv with resultTargets_ := r3.2.2 }, sdk := r3.2.1
        calls := s2.calls ++ [Call.fromSyncSdkToUaf] }
    else s2

/-! ### Sequences of modifier calls -/

/-- One call of a modifier member function of the invocation, with its arguments. -/
inductive Modifier (S Q R : Type) where
  | addTarget (rank : Nat) (requestTarget : Q) (resultTarget : R)
  | addTargetAsync (rank : Nat) (requestTarget : Q) (asyncResultTarget : AsyncResultTarget)
  | setAsynchronous (async : Bool)
  | setRequestHandle (requestHandle : RequestHandle)
  | setTransactionId (transactionId : TransactionId)
  | setSessionInformation (sessionInformation : SessionInformation)
  | setSubscriptionInformation (subscriptionInformation : SubscriptionInformation)
  | setServiceSettings (serviceSettings : S)

/-- The invocation after one modifier call. -/
def applyModifier (inv : BaseServiceInvocation S Q R) :
    Modifier S Q R → BaseServiceInvocation S Q R
  | Modifier.addTarget rank q r => inv.addTarget rank q r
  | Modifier.addTargetAsync rank q a => inv.addTargetAsync rank q a
  | Modifier.setAsynchronous async => inv.setAsynchronous async
  | Modifier.setRequestHandle h => inv.setRequestHandle h
  | Modifier.setTransactionId t => inv.setTransactionId t
  | Modifier.setSessionInformation i => inv.setSessionInformation i
  | Modifier.setSubscriptionInformation i => inv.setSubscriptionInformation i
  | Modifier.setServiceSettings s => inv.setServiceSettings s

/-- The invocation after a sequence of modifier calls, made in the order of the list. -/
def applyModifiers (inv : BaseServiceInvocation S Q R) (calls : List (Modifier S Q R)) :
    BaseServiceInvocation S Q R :=
  calls.foldl applyModifier inv

end BaseServiceInvocation

/-! ## Definitions used to state the properties -/

/-- The assignments the loop of `copyToResult` performs when every rank is in range: element `k`
of `items` is written at rank `k` of `rs`, in order. -/
def writes {E T : Type} (body : E → Nat → List T → List T) : List E → List Nat → List T → List T
  | [], _, targets => targets
  | _ :: _, [], targets => targets
  | item :: items, rank :: rs, targets => writes body items rs (body item rank targets)

/-- The status of the loop of `copyToResult` as a function of the ranks and of the size of
`result.targets` alone: Good when every rank is below the size, otherwise the `UnexpectedError`
for the first rank that is not. -/
def rankStatus (ranks : List Nat) (size : Nat) : Status :=
  match ranks.find? (fun r => decide (size ≤ r)) with
  | none => Status.Good
  | some rank => Status.UnexpectedError (Description.rankOutOfRange rank size)

/-- The status of the synchronous overloads of `copyToResult` as a function of the number of
result targets, the ranks and the size of `result.targets` alone. -/
def syncStatus (resultTargets : Nat) (ranks : List Nat) (size : Nat) : Status :=
  if resultTargets ≠ ranks.length then
    Status.UnexpectedError (Description.numberOfResultTargets resultTargets ranks.length)
  else rankStatus ranks size

/-- Every `addTarget` call of the sequence is the overload taking a result target. -/
def noAsyncTargets {S Q R : Type} : List (BaseServiceInvocation.Modifier S Q R) → Bool
  | [] => true
  | BaseServiceInvocation.Modifier.addTargetAsync _ _ _ :: _ => false
  | _ :: calls => noAsyncTargets calls

open BaseServiceInvocation

/-! ## Example data -/

/-- The invocation of scenario A: three targets added with ranks 2, 0, 1, whose results carry the
statuses Good, Good and an error; the session has connection id 9. -/
def scenarioA : BaseServiceInvocation Unit Nat (BaseSessionResultTarget Status) :=
  (((create false 7 () ⟨9⟩ ⟨4⟩).addTarget 2 100 ⟨0, Status.Good⟩).addTarget 0 101
    ⟨0, Status.Good⟩).addTarget 1 102 ⟨0, Status.other 1⟩

/-- A result object with three default slots. -/
def threeSlots : BaseResult (BaseSessionResultTarget Status) :=
  ⟨[⟨0, Status.Uncertain⟩, ⟨0, Status.Uncertain⟩, ⟨0, Status.Uncertain⟩]⟩

/-- An asynchronous invocation for request handle 42 with one target of rank 0, whose placeholder
result carries subscription handle 0 and the status Good; the session has connection id 9 and the
subscription information has handle 5. -/
def asyncExample : BaseServiceInvocation Unit Nat Unit :=
  (create true 42 () ⟨9⟩ ⟨5⟩).addTargetAsync 0 100 ⟨0, 0, Status.Good⟩

/-- A result object with one slot, holding connection id 0, subscription handle 3 and the status
Uncertain. -/
def oneAsyncSlot : BaseResult AsyncResultTarget :=
  ⟨[⟨0, 3, Status.Uncertain⟩]⟩

/-- A synchronous session-level invocation with two ranks and one result target: one target added
with each overload of `addTarget`. -/
def mixedSession : BaseServiceInvocation Unit Nat (BaseSessionResultTarget Status) :=
  ((create false 7 () ⟨9⟩ ⟨4⟩).addTarget 0 100 ⟨0, Status.Good⟩).addTargetAsync 1 101
    ⟨0, 0, Status.Good⟩

/-- The same at the subscription level. -/
def mixedSubscription : BaseServiceInvocation Unit Nat (BaseSubscriptionResultTarget Status) :=
  ((create false 7 () ⟨9⟩ ⟨4⟩).addTarget 0 100 ⟨0, 0, Status.Good⟩).addTargetAsync 1 101
    ⟨0, 0, Status.Good⟩

/-- A synchronous subscription-level invocation with two targets of ranks 1 and 0, whose results
carry the statuses Good and an error; connection id 9, subscription handle 4. -/
def twoSubscriptionTargets : BaseServiceInvocation Unit Nat (BaseSubscriptionResultTarget Status) :=
  ((create false 7 () ⟨9⟩ ⟨4⟩).addTarget 1 100 ⟨0, 0, Status.Good⟩).addTarget 0 101
    ⟨0, 0, Status.other 1⟩

/-- Modelled from the spec: the comparison operators `==`, `!=` and `<` of a settings class that
is declared outside the given sources (`uaf::ReadSettings`, `uaf::SessionSecuritySettings`). -/
structure Comparisons (T : Type) where
  eq : T → T → Bool
  ne : T → T → Bool
  lt : T → T → Bool

/-! ### The type double

The timeouts are of type `double` (IEEE 754 binary64), and the comparison operators read them
through the expression `int(x*1000)`: a multiplication of doubles, which rounds its result to
the nearest double, followed by the conversion to `int` (32 bits), which truncates towards zero
and is undefined when the truncated value is not an `int`. -/

/-- The number of binary digits of `n`, counted with at most `fuel` halvings. -/
def bitLengthAux : Nat → Nat → Nat
  | 0, _ => 0
  | fuel + 1, n => if n = 0 then 0 else bitLengthAux fuel (n / 2) + 1

/-- The number of binary digits of `n`: 0 for 0, and otherwise the `k` with
`2 ^ (k - 1) ≤ n < 2 ^ k`. -/
def bitLength (n : Nat) : Nat := bitLengthAux n n

/-- A value of the type `double`: a finite value `mantissa * 2 ^ exponent` with its sign, an
infinity, or a NaN. A binary64 value has a mantissa below `2 ^ 53` and an exponent from -1074 to
971. -/
inductive Double where
  | finite (negative : Bool) (mantissa : Nat) (exponent : Int)
  | infinity (negative : Bool)
  | nan
  deriving DecidableEq, Repr

namespace Double

/-- The double nearest to `mantissa * 2 ^ exponent` (with the given sign), ties going to the even
mantissa: the result of every arithmetic operation on doubles is rounded so. The value lies in
the binade `2 ^ binade ≤ value < 2 ^ (binade + 1)`, where doubles are spaced `2 ^ quantum` apart
(53 significant digits, fewer below `2 ^ (-1022)`); a value of `2 ^ 1024` or more after rounding
is an infinity. -/
def round (negative : Bool) (mantissa : Nat) (exponent : Int) : Double :=
  if mantissa = 0 then finite negative 0 0
  else
    let binade : Int := (bitLength mantissa : Int) - 1 + exponent
    let quantum : Int := max binade (-1022) - 52
    if quantum ≤ exponent then
      if 1023 < binade then infinity negative else finite negative mantissa exponent
    else
      let shift : Nat := (quantum - exponent).toNat
      let q := mantissa / 2 ^ shift
      let r := mantissa % 2 ^ shift
      let half := 2 ^ (shift - 1)
      let rounded := if half < r ∨ (r = half ∧ q % 2 = 1) then q + 1 else q
      if 1024 < (bitLength rounded : Int) + quantum then infinity negative
      else finite negative rounded quantum

/-- The double that a literal such as `1200.0`, or the conversion of the `int` 1000, gives. -/
def ofNat (n : Nat) : Double := round false n 0

/-- The product `x * y` of two doubles. -/
def mul : Double → Double → Double
  | nan, _ => nan
  | _, nan => nan
  | infinity s1, infinity s2 => infinity (s1 != s2)
  | infinity s1, finite s2 m _ => if m = 0 then nan else infinity (s1 != s2)
  | finite s1 m _, infinity s2 => if m = 0 then nan else infinity (s1 != s2)
  | finite s1 m1 e1, finite s2 m2 e2 => round (s1 != s2) (m1 * m2) (e1 + e2)

/-- The conversion `int(x)`: the value truncated towards zero; undefined (`none`) when the
truncated value is not an `int` of 32 bits, and for infinities and NaN. -/
def toInt : Double → Option Int
  | finite negative mantissa exponent =>
    let magnitude : Nat :=
      if 0 ≤ exponent then mantissa * 2 ^ exponent.toNat else mantissa / 2 ^ (-exponent).toNat
    let value : Int := if negative then -(magnitude : Int) else (magnitude : Int)
    if -2147483648 ≤ value ∧ value ≤ 2147483647 then some value else none
  | _ => none

end Double

/-- The C++ operator `&&` on operands whose evaluation may be undefined: the right operand is
evaluated only when the left one is true. -/
def andThen (left right : Option Bool) : Option Bool :=
  left.bind fun l => if l then right else some false

/-- The data members of `uaf::SessionSettings` (sessionsettings.h). `RS` and `SS` stand for
`uaf::ReadSettings` and `uaf::SessionSecuritySettings`. -/
structure SessionSettings (RS SS : Type) where
  sessionTimeoutSec : Double
  connectTimeoutSec : Double
  watchdogTimeSec : Double
  watchdogTimeoutSec : Double
  unique : Bool
  readServerInfoSettings : RS
  securitySettings : SS

namespace SessionSettings

variable {RS SS : Type}

/-- The constructor `SessionSettings::SessionSettings()`. The two members of class type are
default constructed in C++; their default values are given here as arguments. -/
def create (readServerInfoSettings : RS) (securitySettings : SS) : SessionSettings RS SS :=
  { sessionTimeoutSec := Double.ofNat 1200
    connectTimeoutSec := Double.ofNat 2
    watchdogTimeoutSec := Double.ofNat 2
    watchdogTimeSec := Double.ofNat 5
    unique := false
    readServerInfoSettings := readServerInfoSettings
    securitySettings := securitySettings }

/-- The expression `int(x*1000)`; `none` when the conversion is undefined. -/
def milliseconds (x : Double) : Option Int :=
  (x.mul (Double.ofNat 1000)).toInt

/-- The expression `int(x*1000) != int(y*1000)`. -/
def millisecondsNe (x y : Double) : Option Bool :=
  (milliseconds x).bind fun a => (milliseconds y).bind fun b => some (a != b)

/-- The expression `int(x*1000) < int(y*1000)`. -/
def millisecondsLt (x y : Double) : Option Bool :=
  (milliseconds x).bind fun a => (milliseconds y).bind fun b => some (decide (a < b))

/-- The expression `int(x*1000) == int(y*1000)`. -/
def millisecondsEq (x y : Double) : Option Bool :=
  (milliseconds x).bind fun a => (milliseconds y).bind fun b => some (a == b)

/-- The function `operator<(const SessionSettings&, const SessionSettings&)`; `none` when a
conversion it evaluates is undefined. -/
def operatorLt (rs : Comparisons RS) (ss : Comparisons SS) (object1 object2 : SessionSettings RS SS) :
    Option Bool :=
  (millisecondsNe object1.sessionTimeoutSec object2.sessionTimeoutSec).bind fun c1 =>
  if c1 then millisecondsLt object1.sessionTimeoutSec object2.sessionTimeoutSec
  else (millisecondsNe object1.connectTimeoutSec object2.connectTimeoutSec).bind fun c2 =>
  if c2 then millisecondsLt object1.connectTimeoutSec object2.connectTimeoutSec
  else (millisecondsNe object1.watchdogTimeoutSec object2.watchdogTimeoutSec).bind fun c3 =>
  if c3 then millisecondsLt object1.watchdogTimeoutSec object2.watchdogTimeoutSec
  else (millisecondsNe object1.watchdogTimeSec object2.watchdogTimeSec).bind fun c4 =>
  if c4 then millisecondsLt object1.watchdogTimeSec object2.watchdogTimeSec
  else if object1.unique != object2.unique then
    some (!object1.unique && object2.unique)
  else if rs.ne object1.readServerInfoSettings object2.readServerInfoSettings then
    some (rs.lt object1.readServerInfoSettings object2.readServerInfoSettings)
  else if ss.ne object1.securitySettings object2.securitySettings then
    some (ss.lt object1.securitySettings object2.securitySettings)
  else
    some false

/-- The function `operator==(const SessionSettings&, const SessionSettings&)`; `none` when a
conversion it evaluates is undefined. -/
def operatorEq (rs : Comparisons RS) (ss : Comparisons SS) (object1 object2 : SessionSettings RS SS) :
    Option Bool :=
  andThen
    (andThen
      (andThen
        (andThen
          (andThen
            (andThen
              (millisecondsEq object1.sessionTimeoutSec object2.sessionTimeoutSec)
              (millisecondsEq object1.connectTimeoutSec object2.connectTimeoutSec))
            (millisecondsEq object1.watchdogTimeoutSec object2.watchdogTimeoutSec))
          (millisecondsEq object1.watchdogTimeSec object2.watchdogTimeSec))
        (some (object1.unique == object2.unique)))
      (some (rs.eq object1.readServerInfoSettings object2.readServerInfoSettings)))
    (some (ss.eq object1.securitySettings object2.securitySettings))

/-- The function `operator!=(const SessionSettings&, const SessionSettings&)`. -/
def operatorNe (rs : Comparisons RS) (ss : Comparisons SS) (object1 object2 : SessionSettings RS SS) :
    Option Bool :=
  (operatorEq rs ss object1 object2).map fun equal => !equal

end SessionSettings

/-- Comparison operators of a settings class with a single value. -/
def unitComparisons : Comparisons Unit :=
  { eq := fun _ _ => true, ne := fun _ _ => false, lt := fun _ _ => false }

/-! ## The subscription factory

The embedding of `uaf::SubscriptionFactory` (subscriptionfactory.h). The header defines
`invokeService` and `storeRequestHandle`; the member functions they call are defined in
subscriptionfactory.cpp and subscription.h, outside the given sources, and are modelled from the
spec. A `std::map` is a list of key-value pairs with distinct keys. Mutex calls are left out
here; the section on the mutexes of the factory gives them on their own. -/

abbrev ClientHandle := Nat

/-- The private typedef `Activity` (`uint32_t`): the number of active service invocations. The
spec describes it as a non-negative integer; the model counts in `Nat`. -/
abbrev Activity := Nat

/-- The lookup `m.find(k)` in a `std::map`. -/
def mapFind {K V : Type} [DecidableEq K] : List (K × V) → K → Option V
  | [], _ => none
  | (k0, v0) :: m, k => if k0 = k then some v0 else mapFind m k

/-- The assignment `m[k] = v` in a `std::map`: the value of an existing key is replaced, a new key
is inserted. -/
def mapAssign {K V : Type} [DecidableEq K] : List (K × V) → K → V → List (K × V)
  | [], k, v => [(k, v)]
  | (k0, v0) :: m, k, v => if k0 = k then (k, v) :: m else (k0, v0) :: mapAssign m k v

/-- Modelled from the spec: `uaf::SubscriptionSettings` is declared outside the given sources. The
spec names its flag `unique`; `parameters` holds the other settings. -/
structure SubscriptionSettings (P : Type) where
  unique : Bool
  parameters : P
  deriving DecidableEq, Repr

/-- Modelled from the spec: `uaf::Subscription` (subscription.h) is declared outside the given
sources. One logical subscription, bound to the transport subscription `uaSubscription`: its
handle, its settings, whether the transport subscription has been established (`isCreated()`),
whether it was created by a manual creation call, and the client handles of the monitored items
it owns. -/
structure Subscription (P Sub : Type) where
  clientSubscriptionHandle : ClientSubscriptionHandle
  subscriptionSettings : SubscriptionSettings P
  created : Bool
  manual : Bool
  clientHandles : List ClientHandle
  uaSubscription : Sub
  deriving DecidableEq, Repr

namespace Subscription

variable {σ S Q R P Ses Sub NA SA : Type}

/-- Modelled from the spec: `isCreated()`, true once the transport subscription has been
established. -/
def isCreated (subscription : Subscription P Sub) : Bool := subscription.created

/-- Modelled from the spec: `subscriptionInformation()`, the snapshot of the subscription; the
handle is the part that `SubscriptionInformation` keeps in this embedding. -/
def subscriptionInformation (subscription : Subscription P Sub) : SubscriptionInformation :=
  { clientSubscriptionHandle := subscription.clientSubscriptionHandle }

/-- Modelled from the spec: `Subscription::invokeService(invocation, nameSpaceArray,
serverArray)` forwards to the invocation, bound to the transport subscription of this
subscription. -/
def invokeService (ext : ExtensionPoints σ S Q R Ses Sub NA SA)
    (subscription : Subscription P Sub) (invocation : BaseServiceInvocation S Q R) (sdk : σ)
    (nameSpaceArray : NA) (serverArray : SA) : Invoked σ S Q R :=
  invokeSubscription ext invocation sdk subscription.uaSubscription nameSpaceArray serverArray

end Subscription

/-- Modelled from the spec: `uaf::BaseSubscriptionRequest` is declared outside the given sources;
the four members that `invokeService` reads are kept. -/
structure BaseSubscriptionRequest (P : Type) where
  clientSubscriptionHandleGiven : Bool
  clientSubscriptionHandle : ClientSubscriptionHandle
  subscriptionSettingsGiven : Bool
  subscriptionSettings : SubscriptionSettings P
  deriving DecidableEq, Repr

/-- The data members of `uaf::SubscriptionFactory` that the embedded functions use: the three
maps, the current transaction id, and `database_->clientSettings.defaultSubscriptionSettings`. -/
structure SubscriptionFactory (P Sub : Type) where
  subscriptionMap_ : List (ClientSubscriptionHandle × Subscription P Sub)
  activityMap_ : List (ClientSubscriptionHandle × Activity)
  transactionId_ : TransactionId
  transactionMap_ : List (TransactionId × RequestHandle)
  defaultSubscriptionSettings : SubscriptionSettings P
  deriving DecidableEq, Repr

/-- The calls that `SubscriptionFactory::invokeService` makes, in the order made.
`subscriptionInvokeService` is the call `subscription->invokeService(invocation, ...)`, recorded
with the handle of the subscription and with `invocation.transactionId()` at that moment. -/
inductive FactoryCall (P : Type) where
  | storeRequestHandle (requestHandle : RequestHandle)
  | acquireExistingSubscription (clientSubscriptionHandle : ClientSubscriptionHandle)
  | acquireSubscription (subscriptionSettings : SubscriptionSettings P)
  | subscriptionInvokeService (clientSubscriptionHandle : ClientSubscriptionHandle)
      (transactionId : TransactionId)
  | releaseSubscription (clientSubscriptionHandle : ClientSubscriptionHandle)
  deriving DecidableEq, Repr

/-- What `acquireSubscription` and `acquireExistingSubscription` leave behind: the returned
status, the output pointer `subscription` (`none` is the null pointer), and the factory. -/
structure Acquired (P Sub : Type) where
  ret : Status
  subscription : Option (Subscription P Sub)
  factory : SubscriptionFactory P Sub

/-- What `releaseSubscription` leaves behind: the returned status, the factory, and whether the
record became eligible for deletion. -/
structure Released (P Sub : Type) where
  ret : Status
  factory : SubscriptionFactory P Sub
  eligibleForDeletion : Bool

/-- What `SubscriptionFactory::invokeService` leaves behind: the returned status, the factory,
the invocation and the service state after the call, the calls it made, and the calls that the
forwarded invocation made to its extension points. -/
structure ServiceInvoked (σ S Q R P Sub : Type) where
  ret : Status
  factory : SubscriptionFactory P Sub
  invocation : BaseServiceInvocation S Q R
  sdk : σ
  calls : List (FactoryCall P)
  extensionCalls : List Call

namespace SubscriptionFactory

variable {σ S Q R P Ses Sub NA SA : Type}

/-- The activity count of a subscription: the value in `activityMap_`, 0 when the map has no
record for the handle. -/
def activityCount (factory : SubscriptionFactory P Sub)
    (clientSubscriptionHandle : ClientSubscriptionHandle) : Nat :=
  (mapFind factory.activityMap_ clientSubscriptionHandle).getD 0

/-- Modelled from the spec: `getNewTransactionId_()` is defined outside the given sources. The
current transaction id "gets incremented every time" (comment on the member `transactionId_`) and
the new value is the minted id; the spec leaves wraparound open and the model counts in `Nat`. -/
def getNewTransactionId_ (factory : SubscriptionFactory P Sub) :
    TransactionId × SubscriptionFactory P Sub :=
  (factory.transactionId_ + 1, { factory with transactionId_ := factory.transactionId_ + 1 })

/-- The member `storeRequestHandle(requestHandle)`:
`transactionMap_[getNewTransactionId_()] = requestHandle`. -/
def storeRequestHandle (factory : SubscriptionFactory P Sub) (requestHandle : RequestHandle) :
    SubscriptionFactory P Sub :=
  let minted := getNewTransactionId_ factory
  { minted.2 with transactionMap_ := mapAssign minted.2.transactionMap_ minted.1 requestHandle }

/-- Modelled from the spec: `acquireSubscription(settings)` searches the existing records for a
settings-equal match that is not flagged unique; if there is one it increments its activity count
and returns it; otherwise it creates a new subscription, registers it, sets its activity count to
1 and returns it. `newSubscription` gives the subscription that is created for given settings,
with the handle it is assigned and as far as the transport has established it. -/
def acquireSubscription [DecidableEq P]
    (newSubscription : SubscriptionSettings P → Subscription P Sub)
    (factory : SubscriptionFactory P Sub) (subscriptionSettings : SubscriptionSettings P) :
    Acquired P Sub :=
  match factory.subscriptionMap_.find?
      (fun entry => !subscriptionSettings.unique
        && decide (entry.2.subscriptionSettings = subscriptionSettings)) with
  | some entry =>
    { ret := Status.Good
      subscription := some entry.2
      factory := { factory with
        activityMap_ := mapAssign factory.activityMap_ entry.2.clientSubscriptionHandle
          (activityCount factory entry.2.clientSubscriptionHandle + 1) } }
  | none =>
    { ret := Status.Good
      subscription := some (newSubscription subscriptionSettings)
      factory := { factory with
        subscriptionMap_ := mapAssign factory.subscriptionMap_
          (newSubscription subscriptionSettings).clientSubscriptionHandle
          (newSubscription subscriptionSettings)
        activityMap_ := mapAssign factory.activityMap_
          (newSubscription subscriptionSettings).clientSubscriptionHandle 1 } }

/-- Modelled from the spec: `acquireExistingSubscription(handle)` is a direct handle lookup; it
reports NotFoundError if the handle is absent and increments the activity count on success. -/
def acquireExistingSubscription (factory : SubscriptionFactory P Sub)
    (clientSubscriptionHandle : ClientSubscriptionHandle) : Acquired P Sub :=
  match mapFind factory.subscriptionMap_ clientSubscriptionHandle with
  | some subscription =>
    { ret := Status.Good
      subscription := some subscription
      factory := { factory with
        activityMap_ := mapAssign factory.activityMap_ subscription.clientSubscriptionHandle
          (activityCount factory subscription.clientSubscriptionHandle + 1) } }
  | none => { ret := Status.NotFoundError, subscription := none, factory := factory }

/-- Modelled from the spec: `releaseSubscription(subscription, allowGarbageCollection)` decrements
the activity count. Releasing a record whose count is already 0 is an error and changes nothing.
If the count after the decrement is 0, `allowGarbageCollection` is true and the record was not
created by a manual creation call, the record becomes eligible for deletion. -/
def releaseSubscription (factory : SubscriptionFactory P Sub)
    (subscription : Subscription P Sub) (allowGarbageCollection : Bool) : Released P Sub :=
  if activityCount factory subscription.clientSubscriptionHandle = 0 then
    { ret := Status.UnexpectedError Description.alreadyReleased
      factory := factory
      eligibleForDeletion := false }
  else
    { ret := Status.Good
      factory := { factory with
        activityMap_ := mapAssign factory.activityMap_ subscription.clientSubscriptionHandle
          (activityCount factory subscription.clientSubscriptionHandle - 1) }
      eligibleForDeletion :=
        decide (activityCount factory subscription.clientSubscriptionHandle - 1 = 0)
          && allowGarbageCollection && !subscription.manual }

/-- The call with which `invokeService` acquires the subscription (lines 209 to 222): the one for
the explicit handle of the request if given, else the one for the explicit settings of the request
if given, else the one for the default settings. -/
def acquisitionCall (factory : SubscriptionFactory P Sub) (request : BaseSubscriptionRequest P) :
    FactoryCall P :=
  if request.clientSubscriptionHandleGiven then
    FactoryCall.acquireExistingSubscription request.clientSubscriptionHandle
  else if request.subscriptionSettingsGiven then
    FactoryCall.acquireSubscription request.subscriptionSettings
  else
    FactoryCall.acquireSubscription factory.defaultSubscriptionSettings

/-- The acquisition of `invokeService` (lines 209 to 222). -/
def acquire [DecidableEq P] (newSubscription : SubscriptionSettings P → Subscription P Sub)
    (factory : SubscriptionFactory P Sub) (request : BaseSubscriptionRequest P) :
    Acquired P Sub :=
  if request.clientSubscriptionHandleGiven then
    acquireExistingSubscription factory request.clientSubscriptionHandle
  else if request.subscriptionSettingsGiven then
    acquireSubscription newSubscription factory request.subscriptionSettings
  else
    acquireSubscription newSubscription factory factory.defaultSubscriptionSettings

/-- The member template `invokeService(invocation, request, nameSpaceArray, serverArray)`. The
result is `none` when the null pointer would be dereferenced. -/
def invokeService [DecidableEq P] (ext : ExtensionPoints σ S Q R Ses Sub NA SA)
    (newSubscription : SubscriptionSettings P → Subscription P Sub)
    (factory : SubscriptionFactory P Sub) (invocation : BaseServiceInvocation S Q R)
    (request : BaseSubscriptionRequest P) (sdk : σ) (nameSpaceArray : NA) (serverArray : SA) :
    Option (ServiceInvoked σ S Q R P Sub) :=
  let stored :=
    if invocation.asynchronous then storeRequestHandle factory invocation.requestHandle
    else factory
  let calls0 : List (FactoryCall P) :=
    if invocation.asynchronous then [FactoryCall.storeRequestHandle invocation.requestHandle]
    else []
  let acquired := acquire newSubscription stored request
  let calls1 := calls0 ++ [acquisitionCall stored request]
  if acquired.ret.isGood then
    match acquired.subscription with
    | none => none
    | some subscription =>
      let invocation1 :=
        invocation.setSubscriptionInformation subscription.subscriptionInformation
      if subscription.isCreated then
        let forwarded :=
          subscription.invokeService ext invocation1 sdk nameSpaceArray serverArray
        let released := releaseSubscription acquired.factory subscription true
        some
          { ret := forwarded.ret
            factory := released.factory
            invocation := forwarded.invocation
            sdk := forwarded.sdk
            calls := calls1 ++
              [FactoryCall.subscriptionInvokeService subscription.clientSubscriptionHandle
                invocation1.transactionId,
               FactoryCall.releaseSubscription subscription.clientSubscriptionHandle]
            extensionCalls := forwarded.calls }
      else
        let released := releaseSubscription acquired.factory subscription true
        some
          { ret := Status.SubscriptionNotCreatedError
            factory := released.factory
            invocation := invocation1
            sdk := sdk
            calls := calls1 ++
              [FactoryCall.releaseSubscription subscription.clientSubscriptionHandle]
            extensionCalls := [] }
  else
    some
      { ret := acquired.ret
        factory := acquired.factory
        invocation := invocation
        sdk := sdk
        calls := calls1
        extensionCalls := [] }

end SubscriptionFactory

/-- The call stores a request handle. -/
def FactoryCall.isStore {P : Type} : FactoryCall P → Bool
  | FactoryCall.storeRequestHandle _ => true
  | _ => false

/-- The call acquires a subscription. -/
def FactoryCall.isAcquisition {P : Type} : FactoryCall P → Bool
  | FactoryCall.acquireExistingSubscription _ => true
  | FactoryCall.acquireSubscription _ => true
  | _ => false

/-- The call forwards the invocation to a subscription. -/
def FactoryCall.isForward {P : Type} : FactoryCall P → Bool
  | FactoryCall.subscriptionInvokeService _ _ => true
  | _ => false

/-- The call releases a subscription. -/
def FactoryCall.isRelease {P : Type} : FactoryCall P → Bool
  | FactoryCall.releaseSubscription _ => true
  | _ => false

/-- A service whose extension points all return Good and leave the targets. -/
def asyncService : ExtensionPoints Unit Unit Nat Unit Unit Unit Unit Unit :=
  { fromSyncUafToSdk := fun _ sdk _ _ _ _ => (Status.Good, sdk)
    fromAsyncUafToSdk := fun _ sdk _ _ _ _ => (Status.Good, sdk)
    invokeSyncSdkService_UaSession := fun _ sdk _ => (Status.Good, sdk)
    invokeAsyncSdkService_UaSession := fun _ sdk _ _ => (Status.Good, sdk)
    invokeSyncSdkService_UaSubscription := fun _ sdk _ => (Status.Good, sdk)
    invokeAsyncSdkService_UaSubscription := fun _ sdk _ _ => (Status.Good, sdk)
    fromSyncSdkToUaf := fun _ sdk _ _ targets => (Status.Good, sdk, targets) }

/-- A created subscription with handle 1, made by the factory for the default settings. -/
def subscriptionOne : Subscription Unit Unit :=
  { clientSubscriptionHandle := 1
    subscriptionSettings := ⟨false, ()⟩
    created := true
    manual := false
    clientHandles := []
    uaSubscription := () }

/-- A factory that owns `subscriptionOne`, idle, whose current transaction id is 6 and whose
transaction table is empty. -/
def factorySix : SubscriptionFactory Unit Unit :=
  { subscriptionMap_ := [(1, subscriptionOne)]
    activityMap_ := [(1, 0)]
    transactionId_ := 6
    transactionMap_ := []
    defaultSubscriptionSettings := ⟨false, ()⟩ }

/-- A request that names the subscription with handle 1 and also carries settings. -/
def requestForOne : BaseSubscriptionRequest Unit :=
  { clientSubscriptionHandleGiven := true
    clientSubscriptionHandle := 1
    subscriptionSettingsGiven := true
    subscriptionSettings := ⟨true, ()⟩ }

/-- The subscription the transport would create: handle 99, not yet established. -/
def pendingSubscription (settings : SubscriptionSettings Unit) : Subscription Unit Unit :=
  { clientSubscriptionHandle := 99
    subscriptionSettings := settings
    created := false
    manual := false
    clientHandles := []
    uaSubscription := () }

/-- The factory after the first statement of `invokeService`: with the request handle stored
when the invocation is asynchronous, unchanged when it is synchronous. -/
def SubscriptionFactory.afterStore {S Q R P Sub : Type} (factory : SubscriptionFactory P Sub)
    (invocation : BaseServiceInvocation S Q R) : SubscriptionFactory P Sub :=
  if invocation.asynchronous then
    SubscriptionFactory.storeRequestHandle factory invocation.requestHandle
  else factory

/-- The calls of `invokeService` up to and including the acquisition. -/
def SubscriptionFactory.callsToAcquire {S Q R P Sub : Type} (factory : SubscriptionFactory P Sub)
    (invocation : BaseServiceInvocation S Q R) (request : BaseSubscriptionRequest P) :
    List (FactoryCall P) :=
  (if invocation.asynchronous then [FactoryCall.storeRequestHandle invocation.requestHandle]
    else [])
  ++ [SubscriptionFactory.acquisitionCall (SubscriptionFactory.afterStore factory invocation)
      request]

/-- A request that names no subscription and carries settings flagged unique. -/
def requestUnique : BaseSubscriptionRequest Unit :=
  { clientSubscriptionHandleGiven := false
    clientSubscriptionHandle := 0
    subscriptionSettingsGiven := true
    subscriptionSettings := ⟨true, ()⟩ }

/-! ### setMonitoringModeIfNeeded -/

/-- What `setMonitoringModeIfNeeded` leaves behind: the vector `results`, and the mode-change
calls issued to the transport, each with the handle of the subscription and the client handles it
was issued for. -/
structure MonitoringModeSet where
  results : List Status
  transportCalls : List (ClientSubscriptionHandle × List ClientHandle)
  deriving DecidableEq, Repr

namespace SubscriptionFactory

variable {P Sub M T : Type}

/-- Modelled from the spec: the resolution of a client handle to its owning subscription: the
first subscription of the map that owns the monitored item. -/
def owner (factory : SubscriptionFactory P Sub) (clientHandle : ClientHandle) :
    Option ClientSubscriptionHandle :=
  (factory.subscriptionMap_.find?
    (fun entry => decide (clientHandle ∈ entry.2.clientHandles))).map
    (fun entry => entry.2.clientSubscriptionHandle)

/-- Modelled from the spec: the group of a subscription: the input handles that resolve to it,
each with its position in the input, in input order. -/
def groupOf (factory : SubscriptionFactory P Sub) (clientHandles : List ClientHandle)
    (clientSubscriptionHandle : ClientSubscriptionHandle) : List (Nat × ClientHandle) :=
  clientHandles.enum.filter
    (fun entry => decide (owner factory entry.2 = some clientSubscriptionHandle))

/-- Modelled from the spec: the work of `setMonitoringModeIfNeeded` for one subscription: if its
group is not empty, one mode-change call for the handles of the group, whose statuses are written
to `results` at the input positions of those handles. -/
def setMonitoringModeOf
    (transport : ClientSubscriptionHandle → List ClientHandle → M → T → List Status)
    (factory : SubscriptionFactory P Sub) (clientHandles : List ClientHandle)
    (monitoringMode : M) (serviceSettings : T) (sofar : MonitoringModeSet)
    (subscription : Subscription P Sub) : MonitoringModeSet :=
  let group := groupOf factory clientHandles subscription.clientSubscriptionHandle
  if group.isEmpty then sofar
  else
    let reply := transport subscription.clientSubscriptionHandle (group.map Prod.snd)
      monitoringMode serviceSettings
    { results := writes (fun status position results => results.set position status)
        reply (group.map Prod.fst) sofar.results
      transportCalls := sofar.transportCalls
        ++ [(subscription.clientSubscriptionHandle, group.map Prod.snd)] }

/-- Modelled from the spec: `setMonitoringModeIfNeeded(clientHandles, monitoringMode,
serviceSettings, results)` is defined outside the given sources. It resolves each input handle to
its owning subscription, groups the handles per subscription, issues one mode-change call per
group and returns one status per input handle; a handle that no subscription owns gets
NotFoundError. `transport` is the mode-change call of the transport, which answers with a list of
statuses. -/
def setMonitoringModeIfNeeded
    (transport : ClientSubscriptionHandle → List ClientHandle → M → T → List Status)
    (factory : SubscriptionFactory P Sub) (clientHandles : List ClientHandle)
    (monitoringMode : M) (serviceSettings : T) : MonitoringModeSet :=
  (factory.subscriptionMap_.map Prod.snd).foldl
    (setMonitoringModeOf transport factory clientHandles monitoringMode serviceSettings)
    { results := List.replicate clientHandles.length Status.NotFoundError
      transportCalls := [] }

end SubscriptionFactory

/-- The factory of scenario D: subscription 1 owns the monitored items 11 and 13, subscription 2
owns the monitored item 12. -/
def factoryD : SubscriptionFactory Unit Unit :=
  { subscriptionMap_ :=
      [(1, { clientSubscriptionHandle := 1, subscriptionSettings := ⟨false, ()⟩, created := true,
             manual := false, clientHandles := [11, 13], uaSubscription := () }),
       (2, { clientSubscriptionHandle := 2, subscriptionSettings := ⟨true, ()⟩, created := true,
             manual := false, clientHandles := [12], uaSubscription := () })]
    activityMap_ := [(1, 0), (2, 0)]
    transactionId_ := 0
    transactionMap_ := []
    defaultSubscriptionSettings := ⟨false, ()⟩ }

/-- A transport that answers every handle of a mode-change call with a status of its own: the
status `other` numbered by the client handle. -/
def transportD (_clientSubscriptionHandle : ClientSubscriptionHandle)
    (clientHandles : List ClientHandle) (_monitoringMode : Unit) (_serviceSettings : Unit) :
    List Status :=
  clientHandles.map Status.other

/-- A synchronous session-level invocation whose two targets were both added with rank 0; their
results carry the statuses Good and an error. -/
def duplicateRanks : BaseServiceInvocation Unit Nat (BaseSessionResultTarget Status) :=
  ((create false 7 () ⟨9⟩ ⟨4⟩).addTarget 0 100 ⟨0, Status.Good⟩).addTarget 0 101
    ⟨0, Status.other 1⟩

/-- The subscription-level counterpart of scenario A with the second rank out of range for a
result of three slots: ranks 2, 5, 1. -/
def outOfRangeSubscription :
    BaseServiceInvocation Unit Nat (BaseSubscriptionResultTarget Status) :=
  (((create false 7 () ⟨9⟩ ⟨4⟩).addTarget 2 100 ⟨0, 0, Status.Good⟩).addTarget 5 101
    ⟨0, 0, Status.Good⟩).addTarget 1 102 ⟨0, 0, Status.other 1⟩

/-- The session-level invocation with the ranks 2, 5, 1. -/
def outOfRangeSession : BaseServiceInvocation Unit Nat (BaseSessionResultTarget Status) :=
  (((create false 7 () ⟨9⟩ ⟨4⟩).addTarget 2 100 ⟨0, Status.Good⟩).addTarget 5 101
    ⟨0, Status.Good⟩).addTarget 1 102 ⟨0, Status.other 1⟩

/-! ## Operations on an invocation, and the two levels of invoke -/

/-- One operation of the class on an invocation: a modifier call, or `invoke` at the session or
at the subscription level, with the service, the service state and the arguments it is made
with. -/
inductive Operation (σ S Q R Ses Sub NA SA : Type) where
  | modifier (call : Modifier S Q R)
  | invokeSession (ext : ExtensionPoints σ S Q R Ses Sub NA SA) (sdk : σ) (uaSession : Ses)
      (nameSpaceArray : NA) (serverArray : SA)
  | invokeSubscription (ext : ExtensionPoints σ S Q R Ses Sub NA SA) (sdk : σ)
      (uaSubscription : Sub) (nameSpaceArray : NA) (serverArray : SA)

/-- The invocation after one operation. -/
def applyOperation {σ S Q R Ses Sub NA SA : Type} (inv : BaseServiceInvocation S Q R) :
    Operation σ S Q R Ses Sub NA SA → BaseServiceInvocation S Q R
  | Operation.modifier call => applyModifier inv call
  | Operation.invokeSession ext sdk uaSession ns sa =>
    (invoke ext inv sdk uaSession ns sa).invocation
  | Operation.invokeSubscription ext sdk uaSubscription ns sa =>
    (BaseServiceInvocation.invokeSubscription ext inv sdk uaSubscription ns sa).invocation

/-- The invocation after a sequence of operations, made in the order of the list. -/
def applyOperations {σ S Q R Ses Sub NA SA : Type} (inv : BaseServiceInvocation S Q R)
    (operations : List (Operation σ S Q R Ses Sub NA SA)) : BaseServiceInvocation S Q R :=
  operations.foldl applyOperation inv

/-- Exactly one of three truth values is true. -/
def exactlyOne (p q r : Bool) : Bool :=
  (p && !q && !r) || (!p && q && !r) || (!p && !q && r)

/-- The lexicographic order on a tuple, given for each component by the outcome of its own `<`
and of its own `==`: the tuple is smaller when its first component is, or when the first
components are equal and the rest is smaller. -/
def lexLt : List (Bool × Bool) → Bool
  | [] => false
  | (lt, eq) :: rest => lt || (eq && lexLt rest)

/-- Equality of tuples: every component is equal. -/
def lexEq (components : List (Bool × Bool)) : Bool :=
  components.all (fun c => c.2)

/-- The four timeouts of session settings as millisecond integers. -/
structure Milliseconds where
  sessionTimeout : Int
  connectTimeout : Int
  watchdogTimeout : Int
  watchdogTime : Int
  deriving DecidableEq, Repr

/-- The four timeouts of session settings, each read as `int(x*1000)`; `none` when one of the
four conversions is undefined. -/
def SessionSettings.timeouts {RS SS : Type} (a : SessionSettings RS SS) : Option Milliseconds :=
  (SessionSettings.milliseconds a.sessionTimeoutSec).bind fun s =>
  (SessionSettings.milliseconds a.connectTimeoutSec).bind fun c =>
  (SessionSettings.milliseconds a.watchdogTimeoutSec).bind fun wt =>
  (SessionSettings.milliseconds a.watchdogTimeSec).bind fun w =>
  some ⟨s, c, wt, w⟩

/-- The outcome of `<` and `==` on each component of the tuple (sessionTimeout, connectTimeout,
watchdogTimeout, watchdogTime, unique, readServerInfoSettings, securitySettings) of two session
settings `a` and `b` whose timeouts in milliseconds are `ta` and `tb`, with false below true. -/
def SessionSettings.components {RS SS : Type} (rs : Comparisons RS) (ss : Comparisons SS)
    (a b : SessionSettings RS SS) (ta tb : Milliseconds) : List (Bool × Bool) :=
  [ (decide (ta.sessionTimeout < tb.sessionTimeout), ta.sessionTimeout == tb.sessionTimeout),
    (decide (ta.connectTimeout < tb.connectTimeout), ta.connectTimeout == tb.connectTimeout),
    (decide (ta.watchdogTimeout < tb.watchdogTimeout), ta.watchdogTimeout == tb.watchdogTimeout),
    (decide (ta.watchdogTime < tb.watchdogTime), ta.watchdogTime == tb.watchdogTime),
    (!a.unique && b.unique, a.unique == b.unique),
    (rs.lt a.readServerInfoSettings b.readServerInfoSettings,
      rs.eq a.readServerInfoSettings b.readServerInfoSettings),
    (ss.lt a.securitySettings b.securitySettings,
      ss.eq a.securitySettings b.securitySettings) ]

/-- The double nearest to 0.009: `5188146770730811 * 2 ^ (-59)`, a little below 0.009. -/
def nineThousandths : Double := Double.finite false 5188146770730811 (-59)

/-- The double nearest to 0.29: `5224175567749775 * 2 ^ (-54)`, a little below 0.29. -/
def twentyNineHundredths : Double := Double.finite false 5224175567749775 (-54)

/-- Default session settings with a connect timeout of 0.009 seconds. -/
def shortConnect : SessionSettings Unit Unit :=
  { SessionSettings.create () () with connectTimeoutSec := nineThousandths }

/-! ## Public keys

The embedding of `uaf::PkiPublicKey` (pkipublickey.cpp). The class wraps the SDK class
`UaPkiPublicKey`, of which it uses the key type, the key size and the DER encoding. -/

/-- The key type the SDK reports for a key: `UaPkiKeyType_DSA`, `UaPkiKeyType_RSA`, or any other
value of the enumeration. -/
inductive UaPkiKeyType where
  | DSA
  | RSA
  | other (value : Nat)
  deriving DecidableEq, Repr

/-- What the member functions `keyType()`, `keySize()` and `toDER()` of the SDK class
`UaPkiPublicKey` return for a key. -/
structure UaPkiPublicKey where
  keyType : UaPkiKeyType
  keySize : Int
  toDER : List Nat
  deriving DecidableEq, Repr

/-- The class `uaf::PkiPublicKey`, with its one data member. -/
structure PkiPublicKey where
  uaPkiPublicKey_ : UaPkiPublicKey
  deriving DecidableEq, Repr

namespace PkiPublicKey

/-- The enumeration `PkiPublicKey::KeyType`, with the three values pkipublickey.cpp uses. -/
inductive KeyType where
  | RSA
  | DSA
  | Unknown
  deriving DecidableEq, Repr

/-- The member `PkiPublicKey::keyType()`. -/
def keyType (key : PkiPublicKey) : KeyType :=
  if key.uaPkiPublicKey_.keyType = UaPkiKeyType.DSA then KeyType.DSA
  else if key.uaPkiPublicKey_.keyType = UaPkiKeyType.RSA then KeyType.RSA
  else KeyType.Unknown

/-- The member `PkiPublicKey::keySize()`. -/
def keySize (key : PkiPublicKey) : Int :=
  key.uaPkiPublicKey_.keySize

/-- The member `PkiPublicKey::toString()`: what the string stream holds after the writes, an
`int` being written in decimal. -/
def toString (key : PkiPublicKey) : String :=
  let ss := "keyType="
  let ss :=
    if key.keyType = KeyType.DSA then ss ++ "DSA"
    else if key.keyType = KeyType.RSA then ss ++ "DSA"
    else ss ++ "Unknown"
  ss ++ ", keySize=" ++ Int.repr key.keySize

/-- The string the description of `toString` asks for: the name of the key type, then the key
size. -/
def described (key : PkiPublicKey) : String :=
  "keyType="
    ++ (match key.keyType with
        | KeyType.DSA => "DSA"
        | KeyType.RSA => "RSA"
        | KeyType.Unknown => "Unknown")
    ++ ", keySize=" ++ Int.repr key.keySize

end PkiPublicKey

/-- An RSA key of 2048 bits. -/
def rsaKey : PkiPublicKey := ⟨⟨UaPkiKeyType.RSA, 2048, [48, 130]⟩⟩

/-- A DSA key of 2048 bits. -/
def dsaKey : PkiPublicKey := ⟨⟨UaPkiKeyType.DSA, 2048, [48, 131]⟩⟩

/-! ## The mutexes of the subscription factory -/

/-- The five mutexes that `SubscriptionFactory` declares. -/
inductive Mutex where
  | subscriptionMapMutex_
  | activityMapMutex_
  | subscriptionMutex_
  | transactionIdMutex_
  | transactionMapMutex_
  deriving DecidableEq, Repr

/-- A call of `lock()` or of `unlock()` on a mutex. -/
inductive MutexCall where
  | lock (mutex : Mutex)
  | unlock (mutex : Mutex)
  deriving DecidableEq, Repr

/-- The mutexes a thread holds after one more call, the one taken last first. -/
def MutexCall.apply (held : List Mutex) : MutexCall → List Mutex
  | MutexCall.lock mutex => mutex :: held
  | MutexCall.unlock mutex => held.erase mutex

/-- The mutexes a thread holds after a sequence of calls, when it held none before. -/
def held (calls : List MutexCall) : List Mutex :=
  calls.foldl MutexCall.apply []

namespace SubscriptionFactory

/-- Modelled from the spec: the mutex calls of `getNewTransactionId_()`, which the header declares
and subscriptionfactory.cpp defines. The transaction id is incremented under its own lock, the
mutex `transactionIdMutex_` that the header declares with it. -/
def getNewTransactionId_mutexCalls : List MutexCall :=
  [MutexCall.lock Mutex.transactionIdMutex_, MutexCall.unlock Mutex.transactionIdMutex_]

/-- The mutex calls of `storeRequestHandle`, in the order made: `transactionMapMutex_.lock()`,
the calls of `getNewTransactionId_()`, which is evaluated for the index of the assignment, and
`transactionMapMutex_.unlock()`. -/
def storeRequestHandle_mutexCalls : List MutexCall :=
  [MutexCall.lock Mutex.transactionMapMutex_] ++ getNewTransactionId_mutexCalls
    ++ [MutexCall.unlock Mutex.transactionMapMutex_]

/-- The mutex calls of `invokeService`: those of `storeRequestHandle` when the invocation is
asynchronous, then those of the member functions it calls next (acquisition, forwarding,
release), which are defined outside the given sources and are given as `rest`. -/
def invokeService_mutexCalls (asynchronous : Bool) (rest : List MutexCall) : List MutexCall :=
  (if asynchronous then storeRequestHandle_mutexCalls else []) ++ rest

end SubscriptionFactory

/-! ## Example data for the transaction id and for the resolution of the subscription -/

/-- A request that names a subscription handle the factory `factorySix` does not have, and also
carries settings. -/
def requestForAbsent : BaseSubscriptionRequest Unit :=
  { clientSubscriptionHandleGiven := true
    clientSubscriptionHandle := 5
    subscriptionSettingsGiven := true
    subscriptionSettings := ⟨true, ()⟩ }

/-! # Theorems -/

/-! ## Lemmas on the loop of copyToResult -/

theorem copyLoop_not_good {E T : Type} (ranks : List Nat) (body : E → Nat → List T → List T)
    (items : List E) (i : Nat) (ret : Status) (targets : List T) (hret : ret.isGood = false) :
    copyLoop ranks body items i ret targets = some (ret, targets) := by
  cases items with
  | nil => rfl
  | cons item items => simp [copyLoop, hret]

theorem drop_eq_cons {ranks : List Nat} {i r : Nat} {rs : List Nat}
    (h : ranks.drop i = r :: rs) : ranks[i]? = some r ∧ ranks.drop (i + 1) = rs := by
  constructor
  · have := List.getElem?_drop (L := ranks) (i := i) (j := 0)
    rw [h] at this
    simpa using this.symm
  · have : ranks.drop (i + 1) = (ranks.drop i).drop 1 := by
      rw [List.drop_drop, Nat.add_comm]
    rw [this, h]
    rfl

theorem copyLoop_in_range {E T : Type} (ranks : List Nat) (body : E → Nat → List T → List T)
    (hlen : ∀ e r ts, (body e r ts).length = ts.length) :
    ∀ (items : List E) (rs : List Nat) (i : Nat) (targets : List T),
      ranks.drop i = rs → items.length ≤ rs.length →
      (∀ r ∈ rs.take items.length, r < targets.length) →
      copyLoop ranks body items i Status.Good targets
        = some (Status.Good, writes body items rs targets) := by
  intro items
  induction items with
  | nil => intro rs i targets _ _ _; rfl
  | cons item items ih =>
    intro rs i targets hdrop hle hin
    cases rs with
    | nil => simp at hle
    | cons r rs =>
      obtain ⟨hget, hdrop1⟩ := drop_eq_cons hdrop
      have hr : r < targets.length := hin r (by simp)
      have hrec := ih rs (i + 1) (body item r targets) hdrop1
        (by simpa using hle)
        (by
          intro x hx
          rw [hlen]
          exact hin x (by simp [hx]))
      simp [copyLoop, Status.isGood, hget, hr, writes, hrec]

theorem rankStatus_cons_in_range (r : Nat) (rs : List Nat) (size : Nat) (hr : r < size) :
    rankStatus (r :: rs) size = rankStatus rs size := by
  have : decide (size ≤ r) = false := by simp [hr]
  simp [rankStatus, List.find?_cons, this]

theorem rankStatus_cons_out_of_range (r : Nat) (rs : List Nat) (size : Nat) (hr : ¬ r < size) :
    rankStatus (r :: rs) size
      = Status.UnexpectedError (Description.rankOutOfRange r size) := by
  have : decide (size ≤ r) = true := by simp; omega
  simp [rankStatus, List.find?_cons, this]

theorem rankStatus_isGood (rs : List Nat) (size : Nat) :
    (rankStatus rs size).isGood = true ↔ ∀ r ∈ rs, r < size := by
  induction rs with
  | nil => simp [rankStatus, Status.isGood]
  | cons r rs ih =>
    by_cases hr : r < size
    · rw [rankStatus_cons_in_range r rs size hr, ih]
      simp [hr]
    · rw [rankStatus_cons_out_of_range r rs size hr]
      simp [Status.isGood, hr]

theorem rankStatus_not_good (rs : List Nat) (size : Nat)
    (h : (rankStatus rs size).isGood = false) :
    (rankStatus rs size).isUnexpectedError = true := by
  unfold rankStatus at *
  cases hf : rs.find? (fun r => decide (size ≤ r)) with
  | none => rw [hf] at h; simp [Status.isGood] at h
  | some r => simp [Status.isUnexpectedError]

theorem copyLoop_status {E T : Type} (ranks : List Nat) (body : E → Nat → List T → List T)
    (hlen : ∀ e r ts, (body e r ts).length = ts.length) :
    ∀ (items : List E) (rs : List Nat) (i : Nat) (targets : List T),
      ranks.drop i = rs → items.length ≤ rs.length →
      ∃ targets1, copyLoop ranks body items i Status.Good targets
          = some (rankStatus (rs.take items.length) targets.length, targets1)
        ∧ targets1.length = targets.length := by
  intro items
  induction items with
  | nil => intro rs i targets _ _; exact ⟨targets, rfl, rfl⟩
  | cons item items ih =>
    intro rs i targets hdrop hle
    cases rs with
    | nil => simp at hle
    | cons r rs =>
      obtain ⟨hget, hdrop1⟩ := drop_eq_cons hdrop
      by_cases hr : r < targets.length
      · obtain ⟨targets1, hrec, hl1⟩ := ih rs (i + 1) (body item r targets) hdrop1
          (by simpa using hle)
        refine ⟨targets1, ?_, by rw [hl1, hlen]⟩
        rw [hlen] at hrec
        simp only [List.length_cons, List.take_succ_cons]
        rw [rankStatus_cons_in_range r _ _ hr]
        simp [copyLoop, Status.isGood, hget, hr, hrec]
      · refine ⟨targets, ?_, rfl⟩
        simp only [List.length_cons, List.take_succ_cons]
        rw [rankStatus_cons_out_of_range r _ _ hr]
        simp only [copyLoop, Status.isGood, hget, hr, if_true, if_false]
        exact copyLoop_not_good ranks body items (i + 1) _ targets rfl

theorem writes_length {E T : Type} (body : E → Nat → List T → List T)
    (hlen : ∀ e r ts, (body e r ts).length = ts.length) :
    ∀ (items : List E) (rs : List Nat) (targets : List T),
      (writes body items rs targets).length = targets.length := by
  intro items
  induction items with
  | nil => intro rs targets; rfl
  | cons item items ih =>
    intro rs targets
    cases rs with
    | nil => rfl
    | cons r rs => simp [writes, ih, hlen]

theorem writes_frame {E T : Type} (body : E → Nat → List T → List T)
    (hframe : ∀ e r ts j, j ≠ r → (body e r ts)[j]? = ts[j]?) :
    ∀ (items : List E) (rs : List Nat) (targets : List T) (j : Nat),
      j ∉ rs.take items.length → (writes body items rs targets)[j]? = targets[j]? := by
  intro items
  induction items with
  | nil => intro rs targets j _; rfl
  | cons item items ih =>
    intro rs targets j hj
    cases rs with
    | nil => rfl
    | cons r rs =>
      simp at hj
      simp only [writes]
      rw [ih rs _ j hj.2, hframe _ _ _ _ hj.1]

/-- The slot of a rank holds what the last entry with that rank wrote. -/
theorem writes_slot_last {E T : Type} (body : E → Nat → List T → List T) (w : E → T)
    (hlen : ∀ e r ts, (body e r ts).length = ts.length)
    (hframe : ∀ e r ts j, j ≠ r → (body e r ts)[j]? = ts[j]?)
    (hset : ∀ e r ts, r < ts.length → (body e r ts)[r]? = some (w e)) :
    ∀ (items : List E) (rs : List Nat) (targets : List T),
      (∀ r ∈ rs.take items.length, r < targets.length) →
      ∀ (k : Nat) (item : E) (rank : Nat), items[k]? = some item → rs[k]? = some rank →
        (∀ j, k < j → j < items.length → rs[j]? ≠ some rank) →
        (writes body items rs targets)[rank]? = some (w item) := by
  intro items
  induction items with
  | nil => intro rs targets _ k item rank hk; simp at hk
  | cons e items ih =>
    intro rs targets hin k item rank hk hrk hlast
    cases rs with
    | nil => simp at hrk
    | cons r rs =>
      simp only [writes]
      cases k with
      | zero =>
        simp at hk hrk
        subst hk hrk
        have hnot : r ∉ rs.take items.length := by
          intro hmem
          obtain ⟨j, hj, hjr⟩ := List.getElem_of_mem hmem
          have hj1 : j < items.length := by
            have := hj
            simp at this
            exact this.1
          have hj2 : j < rs.length := by
            have := hj
            simp at this
            exact this.2
          refine hlast (j + 1) (by omega) (by simpa using hj1) ?_
          simp only [List.getElem?_cons_succ]
          rw [List.getElem_take] at hjr
          rw [List.getElem?_eq_getElem hj2, hjr]
        rw [writes_frame body hframe items rs _ r hnot]
        exact hset e r targets (hin r (by simp))
      | succ k =>
        simp at hk hrk
        refine ih rs (body e r targets)
          (by intro x hx; rw [hlen]; exact hin x (by simp [hx])) k item rank hk hrk ?_
        intro j hkj hj
        have := hlast (j + 1) (by omega) (by simpa using hj)
        simpa using this

theorem getElem?_ne_of_nodup {rs : List Nat} (hnd : rs.Nodup) {k j : Nat} {rank : Nat}
    (hk : rs[k]? = some rank) (hkj : k < j) : rs[j]? ≠ some rank := by
  intro hj
  have hk1 : k < rs.length := by
    by_contra hc
    rw [List.getElem?_eq_none (by omega)] at hk
    exact absurd hk (by simp)
  have hj1 : j < rs.length := by
    by_contra hc
    rw [List.getElem?_eq_none (by omega)] at hj
    exact absurd hj (by simp)
  rw [List.getElem?_eq_getElem hk1] at hk
  rw [List.getElem?_eq_getElem hj1] at hj
  have heq : rs[k] = rs[j] := by
    rw [Option.some.inj hk, Option.some.inj hj]
  have := (List.Nodup.getElem_inj_iff hnd).mp heq
  omega

/-! ## Lemmas on the assignments to one slot -/

theorem modify_frame {T : Type} (f : T → T) (r j : Nat) (l : List T) (h : j ≠ r) :
    (List.modify f r l)[j]? = l[j]? := by
  rw [List.getElem?_modify]
  have : ¬ r = j := fun e => h e.symm
  simp [this]

theorem modify_self {T : Type} (f : T → T) (r : Nat) (l : List T) :
    (List.modify f r l)[r]? = (l[r]?).map f := by
  rw [List.getElem?_modify]
  simp

theorem set_modify_length {T : Type} (f : T → T) (e : T) (r : Nat) (ts : List T) :
    (List.modify f r (ts.set r e)).length = ts.length := by
  simp [List.length_modify]

theorem set_modify_frame {T : Type} (f : T → T) (e : T) (r : Nat) (ts : List T) (j : Nat)
    (h : j ≠ r) : (List.modify f r (ts.set r e))[j]? = ts[j]? := by
  rw [modify_frame f r j _ h, List.getElem?_set_ne (fun e => h e.symm)]

theorem set_modify_self {T : Type} (f : T → T) (e : T) (r : Nat) (ts : List T)
    (h : r < ts.length) : (List.modify f r (ts.set r e))[r]? = some (f e) := by
  rw [modify_self, List.getElem?_set_self h]
  rfl

theorem assignSession_length {S Q β : Type}
    (inv : BaseServiceInvocation S Q (BaseSessionResultTarget β))
    (e : BaseSessionResultTarget β) (r : Nat) (ts : List (BaseSessionResultTarget β)) :
    (assignSession inv e r ts).length = ts.length :=
  set_modify_length _ e r ts

theorem assignSession_frame {S Q β : Type}
    (inv : BaseServiceInvocation S Q (BaseSessionResultTarget β))
    (e : BaseSessionResultTarget β) (r : Nat) (ts : List (BaseSessionResultTarget β)) (j : Nat)
    (h : j ≠ r) : (assignSession inv e r ts)[j]? = ts[j]? :=
  set_modify_frame _ e r ts j h

theorem assignSession_self {S Q β : Type}
    (inv : BaseServiceInvocation S Q (BaseSessionResultTarget β))
    (e : BaseSessionResultTarget β) (r : Nat) (ts : List (BaseSessionResultTarget β))
    (h : r < ts.length) :
    (assignSession inv e r ts)[r]?
      = some { e with clientConnectionId := inv.sessionInformation_.clientConnectionId } :=
  set_modify_self _ e r ts h

theorem assignSubscription_length {S Q β : Type}
    (inv : BaseServiceInvocation S Q (BaseSubscriptionResultTarget β))
    (e : BaseSubscriptionResultTarget β) (r : Nat) (ts : List (BaseSubscriptionResultTarget β)) :
    (assignSubscription inv e r ts).length = ts.length := by
  simp [assignSubscription, List.length_modify]

theorem assignSubscription_frame {S Q β : Type}
    (inv : BaseServiceInvocation S Q (BaseSubscriptionResultTarget β))
    (e : BaseSubscriptionResultTarget β) (r : Nat) (ts : List (BaseSubscriptionResultTarget β))
    (j : Nat) (h : j ≠ r) : (assignSubscription inv e r ts)[j]? = ts[j]? := by
  unfold assignSubscription
  rw [modify_frame _ r j _ h, set_modify_frame _ e r ts j h]

theorem assignSubscription_self {S Q β : Type}
    (inv : BaseServiceInvocation S Q (BaseSubscriptionResultTarget β))
    (e : BaseSubscriptionResultTarget β) (r : Nat) (ts : List (BaseSubscriptionResultTarget β))
    (h : r < ts.length) :
    (assignSubscription inv e r ts)[r]?
      = some { e with
          clientConnectionId := inv.sessionInformation_.clientConnectionId
          clientSubscriptionHandle := inv.subscriptionInformation_.clientSubscriptionHandle } := by
  unfold assignSubscription
  rw [modify_self, set_modify_self _ e r ts h]
  rfl

theorem assignAsyncSubscription_length {S Q R : Type} (inv : BaseServiceInvocation S Q R)
    (e : AsyncResultTarget) (r : Nat) (ts : List AsyncResultTarget) :
    (assignAsyncSubscription inv e r ts).length = ts.length :=
  set_modify_length _ e r ts

theorem assignAsyncSubscription_frame {S Q R : Type} (inv : BaseServiceInvocation S Q R)
    (e : AsyncResultTarget) (r : Nat) (ts : List AsyncResultTarget) (j : Nat) (h : j ≠ r) :
    (assignAsyncSubscription inv e r ts)[j]? = ts[j]? :=
  set_modify_frame _ e r ts j h

theorem assignAsyncSubscription_self {S Q R : Type} (inv : BaseServiceInvocation S Q R)
    (e : AsyncResultTarget) (r : Nat) (ts : List AsyncResultTarget) (h : r < ts.length) :
    (assignAsyncSubscription inv e r ts)[r]?
      = some { e with clientConnectionId := inv.sessionInformation_.clientConnectionId } :=
  set_modify_self _ e r ts h

theorem assignAsyncSession_length {S Q R : Type} (inv : BaseServiceInvocation S Q R)
    (e : AsyncResultTarget) (r : Nat) (ts : List AsyncResultTarget) :
    (assignAsyncSession inv e r ts).length = ts.length := by
  simp [assignAsyncSession, List.length_modify]

/-! ## The synchronous overloads of copyToResult -/

theorem copyLoop_sync {E T : Type} (ranks : List Nat) (body : E → Nat → List T → List T)
    (hlen : ∀ e r ts, (body e r ts).length = ts.length) (items : List E) (targets : List T) :
    ∃ targets1,
      copyLoop ranks body items 0
          (if items.length ≠ ranks.length then
            Status.UnexpectedError (Description.numberOfResultTargets items.length ranks.length)
          else Status.Good) targets
        = some (syncStatus items.length ranks targets.length, targets1)
      ∧ targets1.length = targets.length
      ∧ (items.length ≠ ranks.length → targets1 = targets) := by
  by_cases h : items.length = ranks.length
  · obtain ⟨targets1, h1, h2⟩ :=
      copyLoop_status ranks body hlen items ranks 0 targets rfl (by omega)
    refine ⟨targets1, ?_, h2, fun hne => absurd h hne⟩
    rw [h, List.take_length] at h1
    simp only [syncStatus, h, ne_eq, not_true_eq_false, if_false]
    exact h1
  · refine ⟨targets, ?_, rfl, fun _ => rfl⟩
    simp only [syncStatus, ne_eq, h, not_false_eq_true, if_true]
    exact copyLoop_not_good ranks body items 0 _ targets rfl

theorem syncStatus_not_good (n : Nat) (ranks : List Nat) (size : Nat) :
    (syncStatus n ranks size).isGood = false
      ↔ (n ≠ ranks.length ∨ ∃ rank ∈ ranks, size ≤ rank) := by
  unfold syncStatus
  by_cases h : n = ranks.length
  · simp only [h, ne_eq, not_true_eq_false, if_false, false_or]
    rw [← Bool.not_eq_true, rankStatus_isGood]
    constructor
    · intro hn
      by_contra hc
      exact hn (fun r hr => by
        by_contra hlt
        exact hc ⟨r, hr, by omega⟩)
    · rintro ⟨r, hr, hle⟩ hall
      have := hall r hr
      omega
  · simp [h, Status.isGood]

theorem syncStatus_unexpected (n : Nat) (ranks : List Nat) (size : Nat)
    (h : (syncStatus n ranks size).isGood = false) :
    (syncStatus n ranks size).isUnexpectedError = true := by
  unfold syncStatus at *
  by_cases hn : n = ranks.length
  · simp only [hn, ne_eq, not_true_eq_false, if_false] at h ⊢
    exact rankStatus_not_good ranks size h
  · simp [hn, Status.isUnexpectedError]

theorem copyToResultSession_eq {S Q β : Type}
    (inv : BaseServiceInvocation S Q (BaseSessionResultTarget β))
    (result : BaseResult (BaseSessionResultTarget β)) :
    ∃ result1, copyToResultSession inv result
        = some (syncStatus inv.resultTargets_.length inv.ranks_ result.targets.length, result1)
      ∧ result1.targets.length = result.targets.length
      ∧ (inv.resultTargets_.length ≠ inv.ranks_.length → result1 = result) := by
  obtain ⟨targets1, h1, h2, h3⟩ := copyLoop_sync inv.ranks_ (assignSession inv)
    (assignSession_length inv) inv.resultTargets_ result.targets
  refine ⟨{ result with targets := targets1 }, ?_, h2, ?_⟩
  · unfold copyToResultSession
    simp only [h1, Option.map_some']
  · intro hne
    rw [h3 hne]

theorem copyToResultSubscription_eq {S Q β : Type}
    (inv : BaseServiceInvocation S Q (BaseSubscriptionResultTarget β))
    (result : BaseResult (BaseSubscriptionResultTarget β)) :
    ∃ result1, copyToResultSubscription inv result
        = some (syncStatus inv.resultTargets_.length inv.ranks_ result.targets.length, result1)
      ∧ result1.targets.length = result.targets.length
      ∧ (inv.resultTargets_.length ≠ inv.ranks_.length → result1 = result) := by
  obtain ⟨targets1, h1, h2, h3⟩ := copyLoop_sync inv.ranks_ (assignSubscription inv)
    (assignSubscription_length inv) inv.resultTargets_ result.targets
  refine ⟨{ result with targets := targets1 }, ?_, h2, ?_⟩
  · unfold copyToResultSubscription
    simp only [h1, Option.map_some']
  · intro hne
    rw [h3 hne]

/-- C1: when the synchronous session-level `copyToResult` runs with as many result targets as
ranks, pairwise distinct ranks and every rank below `result.targets.size()`, it returns Good and
afterwards `result.targets[ranks[i]]` is `resultTargets[i]` with `clientConnectionId` replaced by
the one of the session information, for every `i`. -/
theorem copyToResult_session_scatter {S Q β : Type}
    (inv : BaseServiceInvocation S Q (BaseSessionResultTarget β))
    (result : BaseResult (BaseSessionResultTarget β))
    (hlen : inv.resultTargets_.length = inv.ranks_.length)
    (hdistinct : inv.ranks_.Nodup)
    (hrange : ∀ rank ∈ inv.ranks_, rank < result.targets.length) :
    ∃ result1, copyToResultSession inv result = some (Status.Good, result1)
      ∧ ∀ (i rank : Nat) (resultTarget : BaseSessionResultTarget β),
          inv.ranks_[i]? = some rank → inv.resultTargets_[i]? = some resultTarget →
          result1.targets[rank]? = some { resultTarget with
            clientConnectionId := inv.sessionInformation_.clientConnectionId } := by
  have hloop := copyLoop_in_range inv.ranks_ (assignSession inv) (assignSession_length inv)
    inv.resultTargets_ inv.ranks_ 0 result.targets
    rfl (by omega) (fun r hr => hrange r (List.mem_of_mem_take hr))
  refine ⟨⟨writes (assignSession inv) inv.resultTargets_ inv.ranks_ result.targets⟩, ?_, ?_⟩
  · unfold copyToResultSession
    simp only [hlen, ne_eq, not_true_eq_false, if_false, hloop, Option.map_some']
  · intro i rank resultTarget hrank hitem
    exact writes_slot_last (assignSession inv)
      (fun e => { e with clientConnectionId := inv.sessionInformation_.clientConnectionId })
      (assignSession_length inv) (assignSession_frame inv) (assignSession_self inv)
      inv.resultTargets_ inv.ranks_ result.targets
      (fun r hr => hrange r (List.mem_of_mem_take hr)) i resultTarget rank hitem hrank
      (fun j hij _ => getElem?_ne_of_nodup hdistinct hrank hij)

/-- Witness of C1: scenario A, ranks 2, 0, 1 into three slots. -/
theorem copyToResult_session_scatter_witness :
    copyToResultSession scenarioA threeSlots
        = some (Status.Good, ⟨[⟨9, Status.Good⟩, ⟨9, Status.other 1⟩, ⟨9, Status.Good⟩]⟩)
      ∧ ∃ result1, copyToResultSession scenarioA threeSlots = some (Status.Good, result1)
        ∧ ∀ (i rank : Nat) (resultTarget : BaseSessionResultTarget Status),
          scenarioA.ranks_[i]? = some rank → scenarioA.resultTargets_[i]? = some resultTarget →
          result1.targets[rank]? = some { resultTarget with
            clientConnectionId := scenarioA.sessionInformation_.clientConnectionId } :=
  ⟨by decide,
    copyToResult_session_scatter scenarioA threeSlots (by decide) (by decide) (by decide)⟩

/-- C2: the synchronous session-level `copyToResult` returns a status that is not Good exactly
when the number of result targets differs from the number of ranks or some rank is not below
`result.targets.size()`; that status is then an UnexpectedError; and the status is the same for
every invocation with the same ranks and the same number of result targets, copied into a result
with the same number of slots, whatever the result targets contain. -/
theorem copyToResult_session_status {S Q β : Type}
    (inv : BaseServiceInvocation S Q (BaseSessionResultTarget β))
    (result : BaseResult (BaseSessionResultTarget β)) :
    ∃ ret result1, copyToResultSession inv result = some (ret, result1)
      ∧ (ret.isGood = false ↔
          (inv.resultTargets_.length ≠ inv.ranks_.length
            ∨ ∃ rank ∈ inv.ranks_, result.targets.length ≤ rank))
      ∧ (ret.isGood = false → ret.isUnexpectedError = true)
      ∧ ∀ (inv2 : BaseServiceInvocation S Q (BaseSessionResultTarget β))
          (result2 : BaseResult (BaseSessionResultTarget β)),
          inv2.ranks_ = inv.ranks_ → inv2.resultTargets_.length = inv.resultTargets_.length →
          result2.targets.length = result.targets.length →
          ∃ result3, copyToResultSession inv2 result2 = some (ret, result3) := by
  obtain ⟨result1, h1, _, _⟩ := copyToResultSession_eq inv result
  refine ⟨_, result1, h1, syncStatus_not_good _ _ _, syncStatus_unexpected _ _ _, ?_⟩
  intro inv2 result2 hr hl hs
  obtain ⟨result3, h3, _, _⟩ := copyToResultSession_eq inv2 result2
  exact ⟨result3, by rw [h3, hr, hl, hs]⟩

/-- C3: under the same preconditions the synchronous subscription-level `copyToResult` returns
Good and `result.targets[ranks[i]]` is `resultTargets[i]` with `clientConnectionId` replaced by
the one of the session information and `clientSubscriptionHandle` by the one of the subscription
information, for every `i`. -/
theorem copyToResult_subscription_scatter {S Q β : Type}
    (inv : BaseServiceInvocation S Q (BaseSubscriptionResultTarget β))
    (result : BaseResult (BaseSubscriptionResultTarget β))
    (hlen : inv.resultTargets_.length = inv.ranks_.length)
    (hdistinct : inv.ranks_.Nodup)
    (hrange : ∀ rank ∈ inv.ranks_, rank < result.targets.length) :
    ∃ result1, copyToResultSubscription inv result = some (Status.Good, result1)
      ∧ ∀ (i rank : Nat) (resultTarget : BaseSubscriptionResultTarget β),
          inv.ranks_[i]? = some rank → inv.resultTargets_[i]? = some resultTarget →
          result1.targets[rank]? = some { resultTarget with
            clientConnectionId := inv.sessionInformation_.clientConnectionId
            clientSubscriptionHandle :=
              inv.subscriptionInformation_.clientSubscriptionHandle } := by
  have hloop := copyLoop_in_range inv.ranks_ (assignSubscription inv)
    (assignSubscription_length inv) inv.resultTargets_ inv.ranks_ 0 result.targets
    rfl (by omega) (fun r hr => hrange r (List.mem_of_mem_take hr))
  refine ⟨⟨writes (assignSubscription inv) inv.resultTargets_ inv.ranks_ result.targets⟩,
    ?_, ?_⟩
  · unfold copyToResultSubscription
    simp only [hlen, ne_eq, not_true_eq_false, if_false, hloop, Option.map_some']
  · intro i rank resultTarget hrank hitem
    exact writes_slot_last (assignSubscription inv)
      (fun e => { e with
        clientConnectionId := inv.sessionInformation_.clientConnectionId
        clientSubscriptionHandle := inv.subscriptionInformation_.clientSubscriptionHandle })
      (assignSubscription_length inv) (assignSubscription_frame inv)
      (assignSubscription_self inv)
      inv.resultTargets_ inv.ranks_ result.targets
      (fun r hr => hrange r (List.mem_of_mem_take hr)) i resultTarget rank hitem hrank
      (fun j hij _ => getElem?_ne_of_nodup hdistinct hrank hij)

/-- Witness of C3: two targets with ranks 1 and 0 copied into two slots. -/
theorem copyToResult_subscription_scatter_witness :
    copyToResultSubscription twoSubscriptionTargets
        ⟨[⟨0, 0, Status.Uncertain⟩, ⟨0, 0, Status.Uncertain⟩]⟩
        = some (Status.Good, ⟨[⟨9, 4, Status.other 1⟩, ⟨9, 4, Status.Good⟩]⟩)
      ∧ ∃ result1, copyToResultSubscription twoSubscriptionTargets
            ⟨[⟨0, 0, Status.Uncertain⟩, ⟨0, 0, Status.Uncertain⟩]⟩ = some (Status.Good, result1)
        ∧ ∀ (i rank : Nat) (resultTarget : BaseSubscriptionResultTarget Status),
          twoSubscriptionTargets.ranks_[i]? = some rank →
          twoSubscriptionTargets.resultTargets_[i]? = some resultTarget →
          result1.targets[rank]? = some { resultTarget with
            clientConnectionId := twoSubscriptionTargets.sessionInformation_.clientConnectionId
            clientSubscriptionHandle :=
              twoSubscriptionTargets.subscriptionInformation_.clientSubscriptionHandle } :=
  ⟨by decide,
    copyToResult_subscription_scatter twoSubscriptionTargets
      ⟨[⟨0, 0, Status.Uncertain⟩, ⟨0, 0, Status.Uncertain⟩]⟩ (by decide) (by decide)
      (by decide)⟩

/-! ## The asynchronous overloads of copyToResult -/

theorem exists_last_index (rs : List Nat) (rank : Nat) :
    ∀ (n i : Nat), rs.length - i ≤ n → rs[i]? = some rank →
      ∃ j, i ≤ j ∧ rs[j]? = some rank ∧ ∀ k, j < k → rs[k]? ≠ some rank := by
  intro n
  induction n with
  | zero =>
    intro i hn hi
    have : i < rs.length := by
      by_contra hc
      rw [List.getElem?_eq_none (by omega)] at hi
      exact absurd hi (by simp)
    omega
  | succ n ih =>
    intro i hn hi
    by_cases hex : ∃ k, i < k ∧ rs[k]? = some rank
    · obtain ⟨k, hik, hk⟩ := hex
      obtain ⟨j, hkj, hj, hlast⟩ := ih k (by omega) hk
      exact ⟨j, by omega, hj, hlast⟩
    · exact ⟨i, le_refl i, hi, fun k hik hk => hex ⟨k, hik, hk⟩⟩

theorem copyToResultAsyncSubscription_good {S Q R : Type} (inv : BaseServiceInvocation S Q R)
    (result : BaseResult AsyncResultTarget)
    (hlen : inv.ranks_.length = inv.asyncResultTargets_.length)
    (hrange : ∀ rank ∈ inv.ranks_, rank < result.targets.length) :
    copyToResultAsyncSubscription inv result
      = some (Status.Good,
          ⟨writes (assignAsyncSubscription inv) inv.asyncResultTargets_ inv.ranks_
            result.targets⟩) := by
  have hloop := copyLoop_in_range inv.ranks_ (assignAsyncSubscription inv)
    (assignAsyncSubscription_length inv) inv.asyncResultTargets_ inv.ranks_ 0 result.targets
    rfl (by omega) (fun r hr => hrange r (List.mem_of_mem_take hr))
  unfold copyToResultAsyncSubscription
  simp only [hlen, if_true, hloop, Option.map_some']

theorem copyToResultAsyncSubscription_not_good {S Q R : Type} (inv : BaseServiceInvocation S Q R)
    (result : BaseResult AsyncResultTarget)
    (h : ¬ (inv.ranks_.length = inv.asyncResultTargets_.length
      ∧ ∀ rank ∈ inv.ranks_, rank < result.targets.length)) :
    ∃ ret result1, copyToResultAsyncSubscription inv result = some (ret, result1)
      ∧ ret.isGood = false := by
  by_cases hlen : inv.ranks_.length = inv.asyncResultTargets_.length
  · obtain ⟨targets1, h1, _⟩ := copyLoop_status inv.ranks_ (assignAsyncSubscription inv)
      (assignAsyncSubscription_length inv) inv.asyncResultTargets_ inv.ranks_ 0 result.targets
      rfl (by omega)
    rw [← hlen, List.take_length] at h1
    refine ⟨rankStatus inv.ranks_ result.targets.length, ⟨targets1⟩, ?_, ?_⟩
    · unfold copyToResultAsyncSubscription
      simp only [hlen, if_true, h1, Option.map_some']
    · rw [← Bool.not_eq_true, rankStatus_isGood]
      exact fun hall => h ⟨hlen, hall⟩
  · refine ⟨Status.UnexpectedError Description.ranksDoNotMatch, result, ?_, rfl⟩
    unfold copyToResultAsyncSubscription
    simp only [hlen, if_false]

/-- C4, as the code has it: the asynchronous subscription-level `copyToResult` always returns,
and when it returns Good, the slot of every rank holds the placeholder of the last entry with
that rank (entry `i` itself when no later entry has the rank of entry `i`) with only
`clientConnectionId` replaced by the one of the session information; the slot's
`clientSubscriptionHandle` is the one the placeholder carried, not the one of the subscription
information. -/
theorem copyToResult_async_subscription_stamps_connection {S Q R : Type}
    (inv : BaseServiceInvocation S Q R) (result : BaseResult AsyncResultTarget) :
    ∃ ret result1, copyToResultAsyncSubscription inv result = some (ret, result1)
      ∧ (ret = Status.Good →
          (∀ (i rank : Nat) (placeholder : AsyncResultTarget),
            inv.ranks_[i]? = some rank → inv.asyncResultTargets_[i]? = some placeholder →
            (∀ j, i < j → inv.ranks_[j]? ≠ some rank) →
            result1.targets[rank]? = some { placeholder with
              clientConnectionId := inv.sessionInformation_.clientConnectionId })
          ∧ (∀ (i rank : Nat), inv.ranks_[i]? = some rank →
              ∃ (j : Nat) (placeholder : AsyncResultTarget),
                inv.ranks_[j]? = some rank ∧ inv.asyncResultTargets_[j]? = some placeholder
                ∧ result1.targets[rank]? = some
                    { clientConnectionId := inv.sessionInformation_.clientConnectionId
                      clientSubscriptionHandle := placeholder.clientSubscriptionHandle
                      status := placeholder.status })) := by
  by_cases h : inv.ranks_.length = inv.asyncResultTargets_.length
      ∧ ∀ rank ∈ inv.ranks_, rank < result.targets.length
  · obtain ⟨hlen, hrange⟩ := h
    have hslot : ∀ (i rank : Nat) (placeholder : AsyncResultTarget),
        inv.ranks_[i]? = some rank → inv.asyncResultTargets_[i]? = some placeholder →
        (∀ j, i < j → inv.ranks_[j]? ≠ some rank) →
        (writes (assignAsyncSubscription inv) inv.asyncResultTargets_ inv.ranks_
          result.targets)[rank]? = some { placeholder with
            clientConnectionId := inv.sessionInformation_.clientConnectionId } := by
      intro i rank placeholder hrank hitem hlast
      exact writes_slot_last (assignAsyncSubscription inv)
        (fun e => { e with clientConnectionId := inv.sessionInformation_.clientConnectionId })
        (assignAsyncSubscription_length inv) (assignAsyncSubscription_frame inv)
        (assignAsyncSubscription_self inv)
        inv.asyncResultTargets_ inv.ranks_ result.targets
        (fun r hr => hrange r (List.mem_of_mem_take hr)) i placeholder rank hitem hrank
        (fun j hij _ => hlast j hij)
    refine ⟨Status.Good, _, copyToResultAsyncSubscription_good inv result hlen hrange,
      fun _ => ⟨hslot, ?_⟩⟩
    intro i rank hrank
    obtain ⟨j, _, hj, hlast⟩ := exists_last_index inv.ranks_ rank _ i (le_refl _) hrank
    have hj1 : j < inv.asyncResultTargets_.length := by
      by_contra hc
      rw [List.getElem?_eq_none (by omega)] at hj
      exact absurd hj (by simp)
    exact ⟨j, inv.asyncResultTargets_[j], hj, List.getElem?_eq_getElem hj1,
      hslot j rank _ hj (List.getElem?_eq_getElem hj1) hlast⟩
  · obtain ⟨ret, result1, h1, hbad⟩ := copyToResultAsyncSubscription_not_good inv result h
    refine ⟨ret, result1, h1, fun hgood => ?_⟩
    rw [hgood] at hbad
    exact absurd hbad (by simp [Status.isGood])

/-- C4 fails as stated: for the invocation `asyncExample`, whose subscription information has
handle 5, the asynchronous subscription-level `copyToResult` returns Good and leaves in slot 0 the
subscription handle 0 of the placeholder. -/
theorem copyToResult_async_subscription_handle_not_stamped :
    copyToResultAsyncSubscription asyncExample oneAsyncSlot
        = some (Status.Good, ⟨[⟨9, 0, Status.Good⟩]⟩)
      ∧ asyncExample.ranks_ = [0]
      ∧ asyncExample.subscriptionInformation_.clientSubscriptionHandle = 5
      ∧ ¬ (∀ result1, copyToResultAsyncSubscription asyncExample oneAsyncSlot
            = some (Status.Good, result1) →
          ∀ (i rank : Nat), asyncExample.ranks_[i]? = some rank →
            ∃ slot, result1.targets[rank]? = some slot
              ∧ slot.clientSubscriptionHandle
                = asyncExample.subscriptionInformation_.clientSubscriptionHandle) := by
  refine ⟨by decide, by decide, by decide, ?_⟩
  intro hall
  obtain ⟨slot, hslot, hhandle⟩ := hall ⟨[⟨9, 0, Status.Good⟩]⟩ (by decide) 0 0 (by decide)
  have hs : slot = ⟨9, 0, Status.Good⟩ := by
    have : (some slot : Option AsyncResultTarget) = some ⟨9, 0, Status.Good⟩ := by
      rw [← hslot]; decide
    exact Option.some.inj this
  rw [hs] at hhandle
  exact absurd hhandle (by decide)

/-- C5 on the code: for the invocation `asyncExample` the asynchronous session-level
`copyToResult` returns Good and slot 0 still holds the subscription handle 3 and the status
Uncertain it held before, with the connection id stamped; the placeholder (handle 0, status Good)
is not copied, while the subscription-level overload copies it. -/
theorem copyToResult_async_session_placeholder_not_copied :
    copyToResultAsyncSession asyncExample oneAsyncSlot
        = some (Status.Good, ⟨[⟨9, 3, Status.Uncertain⟩]⟩)
      ∧ asyncExample.ranks_ = [0]
      ∧ asyncExample.asyncResultTargets_ = [⟨0, 0, Status.Good⟩]
      ∧ copyToResultAsyncSubscription asyncExample oneAsyncSlot
        = some (Status.Good, ⟨[⟨9, 0, Status.Good⟩]⟩) := by
  decide

/-- C6: when the number of result targets differs from the number of ranks, the synchronous
session-level and subscription-level `copyToResult` return the UnexpectedError on the two numbers
and the result object is the one given, with no slot written. -/
theorem copyToResult_length_mismatch_unchanged {S Q β S2 Q2 β2 : Type}
    (inv : BaseServiceInvocation S Q (BaseSessionResultTarget β))
    (result : BaseResult (BaseSessionResultTarget β))
    (inv2 : BaseServiceInvocation S2 Q2 (BaseSubscriptionResultTarget β2))
    (result2 : BaseResult (BaseSubscriptionResultTarget β2))
    (h : inv.resultTargets_.length ≠ inv.ranks_.length)
    (h2 : inv2.resultTargets_.length ≠ inv2.ranks_.length) :
    copyToResultSession inv result
        = some (Status.UnexpectedError
            (Description.numberOfResultTargets inv.resultTargets_.length inv.ranks_.length),
          result)
      ∧ copyToResultSubscription inv2 result2
        = some (Status.UnexpectedError
            (Description.numberOfResultTargets inv2.resultTargets_.length inv2.ranks_.length),
          result2) := by
  constructor
  · unfold copyToResultSession
    simp only [ne_eq, h, not_false_eq_true, if_true]
    rw [copyLoop_not_good inv.ranks_ (assignSession inv) inv.resultTargets_ 0
      (Status.UnexpectedError
        (Description.numberOfResultTargets inv.resultTargets_.length inv.ranks_.length))
      result.targets rfl]
    rfl
  · unfold copyToResultSubscription
    simp only [ne_eq, h2, not_false_eq_true, if_true]
    rw [copyLoop_not_good inv2.ranks_ (assignSubscription inv2) inv2.resultTargets_ 0
      (Status.UnexpectedError
        (Description.numberOfResultTargets inv2.resultTargets_.length inv2.ranks_.length))
      result2.targets rfl]
    rfl

/-- Witness of C6: two ranks and one result target, at both levels. -/
theorem copyToResult_length_mismatch_unchanged_witness :
    (mixedSession.resultTargets_.length ≠ mixedSession.ranks_.length
      ∧ mixedSubscription.resultTargets_.length ≠ mixedSubscription.ranks_.length)
    ∧ copyToResultSession mixedSession threeSlots
        = some (Status.UnexpectedError (Description.numberOfResultTargets 1 2), threeSlots)
    ∧ copyToResultSubscription mixedSubscription ⟨[⟨0, 0, Status.Uncertain⟩]⟩
        = some (Status.UnexpectedError (Description.numberOfResultTargets 1 2),
            ⟨[⟨0, 0, Status.Uncertain⟩]⟩) :=
  ⟨⟨by decide, by decide⟩,
    copyToResult_length_mismatch_unchanged mixedSession threeSlots mixedSubscription
      ⟨[⟨0, 0, Status.Uncertain⟩]⟩ (by decide) (by decide)⟩

/-! ## Modifier calls -/

theorem applyModifiers_cons {S Q R : Type} (inv : BaseServiceInvocation S Q R)
    (c : Modifier S Q R) (calls : List (Modifier S Q R)) :
    applyModifiers inv (c :: calls) = applyModifiers (applyModifier inv c) calls := rfl

theorem applyModifiers_lengths {S Q R : Type} :
    ∀ (calls : List (Modifier S Q R)) (inv : BaseServiceInvocation S Q R),
      inv.ranks_.length = inv.requestTargets_.length →
      inv.resultTargets_.length + inv.asyncResultTargets_.length = inv.ranks_.length →
      (applyModifiers inv calls).ranks_.length = (applyModifiers inv calls).requestTargets_.length
      ∧ (applyModifiers inv calls).resultTargets_.length
          + (applyModifiers inv calls).asyncResultTargets_.length
        = (applyModifiers inv calls).ranks_.length := by
  intro calls
  induction calls with
  | nil => intro inv h1 h2; exact ⟨h1, h2⟩
  | cons c calls ih =>
    intro inv h1 h2
    rw [applyModifiers_cons]
    apply ih
    · cases c <;> simp [applyModifier, addTarget, addTargetAsync, setAsynchronous,
        setRequestHandle, setTransactionId, setSessionInformation, setSubscriptionInformation,
        setServiceSettings, h1]
    · cases c <;> simp [applyModifier, addTarget, addTargetAsync, setAsynchronous,
        setRequestHandle, setTransactionId, setSessionInformation, setSubscriptionInformation,
        setServiceSettings, h2] <;> omega

theorem applyModifiers_noAsyncTargets {S Q R : Type} :
    ∀ (calls : List (Modifier S Q R)) (inv : BaseServiceInvocation S Q R),
      noAsyncTargets calls = true →
      (applyModifiers inv calls).asyncResultTargets_ = inv.asyncResultTargets_ := by
  intro calls
  induction calls with
  | nil => intro inv _; rfl
  | cons c calls ih =>
    intro inv h
    rw [applyModifiers_cons]
    cases c <;> first
      | (simp [noAsyncTargets] at h; done)
      | (rw [ih _ (by simpa [noAsyncTargets] using h)]; rfl)

/-! ## invoke -/

theorem invoke_frame {σ S Q R Ses Sub NA SA : Type}
    (ext : ExtensionPoints σ S Q R Ses Sub NA SA) (inv : BaseServiceInvocation S Q R) (sdk : σ)
    (uaSession : Ses) (ns : NA) (sa : SA) :
    (∀ id, Call.invokeAsyncSdkService_UaSession id ∈ (invoke ext inv sdk uaSession ns sa).calls →
      id = inv.transactionId_)
    ∧ ∃ resultTargets,
        (invoke ext inv sdk uaSession ns sa).invocation
          = { inv with resultTargets_ := resultTargets }
        ∧ (resultTargets = inv.resultTargets_
          ∨ ∃ sdk1, resultTargets
              = (ext.fromSyncSdkToUaf inv sdk1 ns sa inv.resultTargets_).2.2) := by
  obtain ⟨a, tid, rq, rk, ss, rt, art, rh, si, subi, lvl⟩ := inv
  cases a
  · by_cases h1 : (ext.fromSyncUafToSdk ⟨false, tid, rq, rk, ss, rt, art, rh, si, subi, lvl⟩
        sdk rq ss ns sa).1.isGood = true
    · by_cases h2 : (ext.invokeSyncSdkService_UaSession
          ⟨false, tid, rq, rk, ss, rt, art, rh, si, subi, lvl⟩
          (ext.fromSyncUafToSdk ⟨false, tid, rq, rk, ss, rt, art, rh, si, subi, lvl⟩
            sdk rq ss ns sa).2 uaSession).1.isGood = true
      · simp only [invoke, h1, h2, if_true, Bool.false_eq_true, if_false]
        exact ⟨by intro id hid; simp at hid, _, rfl, Or.inr ⟨_, rfl⟩⟩
      · simp only [invoke, h1, h2, if_true, Bool.false_eq_true, if_false]
        exact ⟨by intro id hid; simp at hid, _, rfl, Or.inl rfl⟩
    · simp only [invoke, h1, Bool.false_eq_true, if_false]
      exact ⟨by intro id hid; simp at hid, _, rfl, Or.inl rfl⟩
  · by_cases h1 : (ext.fromAsyncUafToSdk ⟨true, tid, rq, rk, ss, rt, art, rh, si, subi, lvl⟩
        sdk rq ss ns sa).1.isGood = true
    · simp only [invoke, h1, if_true]
      exact ⟨by intro id hid; simpa using hid, _, rfl, Or.inl rfl⟩
    · simp only [invoke, h1, if_true, if_false]
      exact ⟨by intro id hid; simp at hid, _, rfl, Or.inl rfl⟩

theorem invokeSubscription_frame {σ S Q R Ses Sub NA SA : Type}
    (ext : ExtensionPoints σ S Q R Ses Sub NA SA) (inv : BaseServiceInvocation S Q R) (sdk : σ)
    (uaSubscription : Sub) (ns : NA) (sa : SA) :
    (∀ id, Call.invokeAsyncSdkService_UaSubscription id
        ∈ (invokeSubscription ext inv sdk uaSubscription ns sa).calls →
      id = inv.transactionId_)
    ∧ ∃ resultTargets,
        (invokeSubscription ext inv sdk uaSubscription ns sa).invocation
          = { inv with resultTargets_ := resultTargets }
        ∧ (resultTargets = inv.resultTargets_
          ∨ ∃ sdk1, resultTargets
              = (ext.fromSyncSdkToUaf inv sdk1 ns sa inv.resultTargets_).2.2) := by
  obtain ⟨a, tid, rq, rk, ss, rt, art, rh, si, subi, lvl⟩ := inv
  cases a
  · by_cases h1 : (ext.fromSyncUafToSdk ⟨false, tid, rq, rk, ss, rt, art, rh, si, subi, lvl⟩
        sdk rq ss ns sa).1.isGood = true
    · by_cases h2 : (ext.invokeSyncSdkService_UaSubscription
          ⟨false, tid, rq, rk, ss, rt, art, rh, si, subi, lvl⟩
          (ext.fromSyncUafToSdk ⟨false, tid, rq, rk, ss, rt, art, rh, si, subi, lvl⟩
            sdk rq ss ns sa).2 uaSubscription).1.isGood = true
      · simp only [invokeSubscription, asynchronous, h1, h2, if_true, Bool.false_eq_true,
          if_false]
        exact ⟨by intro id hid; simp at hid, _, rfl, Or.inr ⟨_, rfl⟩⟩
      · simp only [invokeSubscription, asynchronous, h1, h2, if_true, Bool.false_eq_true,
          if_false]
        exact ⟨by intro id hid; simp at hid, _, rfl, Or.inl rfl⟩
    · simp only [invokeSubscription, asynchronous, h1, Bool.false_eq_true, if_false]
      exact ⟨by intro id hid; simp at hid, _, rfl, Or.inl rfl⟩
  · by_cases h1 : (ext.fromAsyncUafToSdk ⟨true, tid, rq, rk, ss, rt, art, rh, si, subi, lvl⟩
        sdk rq ss ns sa).1.isGood = true
    · simp only [invokeSubscription, asynchronous, transactionId, h1, if_true]
      exact ⟨by intro id hid; simpa using hid, _, rfl, Or.inl rfl⟩
    · simp only [invokeSubscription, asynchronous, h1, if_true, if_false]
      exact ⟨by intro id hid; simp at hid, _, rfl, Or.inl rfl⟩

/-- C7, as the code has it: after any sequence of modifier calls on a new invocation (among them
any `addTarget` calls of either overload) followed by `invoke` at either level, with a
`fromSyncSdkToUaf` that keeps the number of result targets, there are as many ranks as request
targets, and the result targets and the asynchronous result targets together are as many as the
ranks; when no call is the overload taking an asynchronous result target, there are as many
result targets as ranks. -/
theorem lengths_after_addTarget_and_invoke {σ S Q R Ses Sub NA SA : Type}
    (ext : ExtensionPoints σ S Q R Ses Sub NA SA)
    (hkeep : ∀ inv sdk ns sa targets,
      (ext.fromSyncSdkToUaf inv sdk ns sa targets).2.2.length = targets.length)
    (async : Bool) (requestHandle : RequestHandle) (serviceSettings : S)
    (sessionInformation : SessionInformation) (subscriptionInformation : SubscriptionInformation)
    (calls : List (Modifier S Q R)) (sdk : σ) (uaSession : Ses) (uaSubscription : Sub)
    (ns : NA) (sa : SA) :
    let inv := applyModifiers
      (create async requestHandle serviceSettings sessionInformation subscriptionInformation) calls
    let done := (invoke ext inv sdk uaSession ns sa).invocation
    let done2 := (invokeSubscription ext inv sdk uaSubscription ns sa).invocation
    (done.ranks_.length = done.requestTargets_.length
      ∧ done.resultTargets_.length + done.asyncResultTargets_.length = done.ranks_.length
      ∧ (noAsyncTargets calls = true → done.resultTargets_.length = done.ranks_.length))
    ∧ (done2.ranks_.length = done2.requestTargets_.length
      ∧ done2.resultTargets_.length + done2.asyncResultTargets_.length = done2.ranks_.length
      ∧ (noAsyncTargets calls = true → done2.resultTargets_.length = done2.ranks_.length)) := by
  intro inv done done2
  obtain ⟨h1, h2⟩ := applyModifiers_lengths calls
    (create async requestHandle serviceSettings sessionInformation subscriptionInformation)
    rfl rfl
  have h3 : noAsyncTargets calls = true → inv.asyncResultTargets_.length = 0 := by
    intro hno
    simp only [inv]
    rw [applyModifiers_noAsyncTargets calls _ hno]
    rfl
  have key : ∀ d : BaseServiceInvocation S Q R,
      (∃ resultTargets, d = { inv with resultTargets_ := resultTargets }
        ∧ (resultTargets = inv.resultTargets_
          ∨ ∃ sdk1, resultTargets
              = (ext.fromSyncSdkToUaf inv sdk1 ns sa inv.resultTargets_).2.2)) →
      d.ranks_.length = d.requestTargets_.length
      ∧ d.resultTargets_.length + d.asyncResultTargets_.length = d.ranks_.length
      ∧ (noAsyncTargets calls = true → d.resultTargets_.length = d.ranks_.length) := by
    rintro d ⟨resultTargets, hd, hrt⟩
    have hl : resultTargets.length = inv.resultTargets_.length := by
      rcases hrt with rfl | ⟨sdk1, rfl⟩
      · rfl
      · exact hkeep _ _ _ _ _
    subst hd
    simp only [hl]
    refine ⟨h1, h2, fun hno => ?_⟩
    have := h3 hno
    have h2b : inv.resultTargets_.length + inv.asyncResultTargets_.length
        = inv.ranks_.length := h2
    omega
  exact ⟨key done (invoke_frame ext inv sdk uaSession ns sa).2,
    key done2 (invokeSubscription_frame ext inv sdk uaSubscription ns sa).2⟩

/-- Witness of C7 as amended: one target added with each overload, invoked through a service that
overrides no extension point. -/
theorem lengths_after_addTarget_and_invoke_witness :
    (invoke (baseExtensionPoints : ExtensionPoints Unit Unit Nat Unit Unit Unit Unit Unit)
        (applyModifiers (create false 7 () ⟨9⟩ ⟨4⟩)
          [Modifier.addTarget 1 100 (), Modifier.addTargetAsync 0 101 ⟨0, 0, Status.Good⟩])
        () () () ()).invocation.ranks_.length
      = (invoke (baseExtensionPoints : ExtensionPoints Unit Unit Nat Unit Unit Unit Unit Unit)
        (applyModifiers (create false 7 () ⟨9⟩ ⟨4⟩)
          [Modifier.addTarget 1 100 (), Modifier.addTargetAsync 0 101 ⟨0, 0, Status.Good⟩])
        () () () ()).invocation.requestTargets_.length :=
  (lengths_after_addTarget_and_invoke
    (baseExtensionPoints : ExtensionPoints Unit Unit Nat Unit Unit Unit Unit Unit)
    (fun _ _ _ _ _ => rfl) false 7 () ⟨9⟩ ⟨4⟩
    [Modifier.addTarget 1 100 (), Modifier.addTargetAsync 0 101 ⟨0, 0, Status.Good⟩]
    () () () () ()).1.1

/-- C7 fails as stated: the invocation `asyncExample`, populated by one call of the `addTarget`
overload taking an asynchronous result target and then invoked, has one rank, one request target
and no result target. -/
theorem length_invariant_fails_for_async_addTarget :
    asyncExample = (create true 42 () ⟨9⟩ ⟨5⟩).addTargetAsync 0 100 ⟨0, 0, Status.Good⟩
    ∧ (invoke (baseExtensionPoints : ExtensionPoints Unit Unit Nat Unit Unit Unit Unit Unit)
        asyncExample () () () ()).invocation.ranks_.length = 1
    ∧ (invoke (baseExtensionPoints : ExtensionPoints Unit Unit Nat Unit Unit Unit Unit Unit)
        asyncExample () () () ()).invocation.requestTargets_.length = 1
    ∧ (invoke (baseExtensionPoints : ExtensionPoints Unit Unit Nat Unit Unit Unit Unit Unit)
        asyncExample () () () ()).invocation.resultTargets_.length = 0
    ∧ (invoke (baseExtensionPoints : ExtensionPoints Unit Unit Nat Unit Unit Unit Unit Unit)
        asyncExample () () () ()).invocation.resultTargets_.length
      ≠ (invoke (baseExtensionPoints : ExtensionPoints Unit Unit Nat Unit Unit Unit Unit Unit)
        asyncExample () () () ()).invocation.ranks_.length := by
  refine ⟨rfl, rfl, rfl, rfl, ?_⟩
  decide

/-- C16: for a service that overrides none of the extension points, `invoke` at the session level
and at the subscription level returns SyncInvocationNotSupportedError when the invocation is
synchronous and AsyncInvocationNotSupportedError when it is asynchronous, makes the one call to
the request translation, and leaves the invocation, with all its result targets, as it was. -/
theorem invoke_unsupported_mode {σ S Q R Ses Sub NA SA : Type}
    (inv : BaseServiceInvocation S Q R) (sdk : σ) (uaSession : Ses) (uaSubscription : Sub)
    (ns : NA) (sa : SA) :
    (invoke (baseExtensionPoints : ExtensionPoints σ S Q R Ses Sub NA SA)
        inv sdk uaSession ns sa).ret
      = (if inv.asynchronous_ then Status.AsyncInvocationNotSupportedError
          else Status.SyncInvocationNotSupportedError)
    ∧ (invokeSubscription (baseExtensionPoints : ExtensionPoints σ S Q R Ses Sub NA SA)
        inv sdk uaSubscription ns sa).ret
      = (if inv.asynchronous_ then Status.AsyncInvocationNotSupportedError
          else Status.SyncInvocationNotSupportedError)
    ∧ (invoke (baseExtensionPoints : ExtensionPoints σ S Q R Ses Sub NA SA)
        inv sdk uaSession ns sa).invocation = inv
    ∧ (invokeSubscription (baseExtensionPoints : ExtensionPoints σ S Q R Ses Sub NA SA)
        inv sdk uaSubscription ns sa).invocation = inv
    ∧ (invoke (baseExtensionPoints : ExtensionPoints σ S Q R Ses Sub NA SA)
        inv sdk uaSession ns sa).calls
      = [if inv.asynchronous_ then Call.fromAsyncUafToSdk else Call.fromSyncUafToSdk]
    ∧ (invokeSubscription (baseExtensionPoints : ExtensionPoints σ S Q R Ses Sub NA SA)
        inv sdk uaSubscription ns sa).calls
      = [if inv.asynchronous_ then Call.fromAsyncUafToSdk else Call.fromSyncUafToSdk] := by
  obtain ⟨a, tid, rq, rk, ss, rt, art, rh, si, subi, lvl⟩ := inv
  cases a <;>
    simp [invoke, invokeSubscription, baseExtensionPoints, fromSyncUafToSdk, fromAsyncUafToSdk,
      Status.isGood, asynchronous]

theorem bitLengthAux_zero (fuel : Nat) : bitLengthAux fuel 0 = 0 := by
  cases fuel <;> simp [bitLengthAux]

theorem bitLengthAux_bounds :
    ∀ (fuel n : Nat), n ≤ fuel →
      n < 2 ^ bitLengthAux fuel n ∧ (n ≠ 0 → 2 ^ (bitLengthAux fuel n - 1) ≤ n) := by
  intro fuel
  induction fuel with
  | zero =>
    intro n hn
    have h0 : n = 0 := by omega
    subst h0
    simp [bitLengthAux]
  | succ fuel ih =>
    intro n hn
    by_cases h0 : n = 0
    · subst h0
      simp [bitLengthAux]
    · have hhalf : n / 2 ≤ fuel := by omega
      obtain ⟨hlt, hge⟩ := ih (n / 2) hhalf
      simp only [bitLengthAux, h0, if_false, Nat.add_sub_cancel]
      refine ⟨?_, fun _ => ?_⟩
      · rw [pow_succ]
        omega
      · by_cases h1 : n / 2 = 0
        · rw [h1, bitLengthAux_zero]
          simp
          omega
        · have hpos : 0 < bitLengthAux fuel (n / 2) := by
            by_contra hc
            have hz : bitLengthAux fuel (n / 2) = 0 := by omega
            rw [hz] at hlt
            simp at hlt
            exact h1 hlt
          have hpow : 2 ^ bitLengthAux fuel (n / 2)
              = 2 ^ (bitLengthAux fuel (n / 2) - 1) * 2 := by
            rw [← pow_succ]
            congr 1
            omega
          have := hge h1
          omega

/-- The function `bitLength` counts the binary digits: `n < 2 ^ bitLength n`, and
`2 ^ (bitLength n - 1) ≤ n` unless `n` is 0. -/
theorem bitLength_bounds (n : Nat) :
    n < 2 ^ bitLength n ∧ (n ≠ 0 → 2 ^ (bitLength n - 1) ≤ n) :=
  bitLengthAux_bounds n n (le_refl n)

theorem milliseconds_of_defaults :
    SessionSettings.milliseconds (Double.ofNat 1200) = some 1200000
    ∧ SessionSettings.milliseconds (Double.ofNat 2) = some 2000
    ∧ SessionSettings.milliseconds (Double.ofNat 5) = some 5000 := by
  decide

theorem andThen_some (p q : Bool) : andThen (some p) (some q) = some (p && q) := by
  cases p <;> rfl

/-- C20: a default-constructed `SessionSettings` has sessionTimeoutSec 1200, connectTimeoutSec 2,
watchdogTimeoutSec 2, watchdogTimeSec 5 and unique false, these timeouts are 1200000, 2000, 2000
and 5000 milliseconds, and, when the default-constructed read settings and security settings
compare equal to themselves, two default-constructed `SessionSettings` are `==`, not `!=`, and
neither is `<` the other. -/
theorem sessionSettings_default {RS SS : Type} (rs : Comparisons RS) (ss : Comparisons SS)
    (readSettings : RS) (securitySettings : SS)
    (hrsEq : rs.eq readSettings readSettings = true)
    (hrsNe : rs.ne readSettings readSettings = false)
    (hssEq : ss.eq securitySettings securitySettings = true)
    (hssNe : ss.ne securitySettings securitySettings = false) :
    let a := SessionSettings.create readSettings securitySettings
    let b := SessionSettings.create readSettings securitySettings
    (a.sessionTimeoutSec = Double.ofNat 1200 ∧ a.connectTimeoutSec = Double.ofNat 2
      ∧ a.watchdogTimeoutSec = Double.ofNat 2 ∧ a.watchdogTimeSec = Double.ofNat 5
      ∧ a.unique = false)
    ∧ (SessionSettings.milliseconds a.sessionTimeoutSec = some 1200000
      ∧ SessionSettings.milliseconds a.connectTimeoutSec = some 2000
      ∧ SessionSettings.milliseconds a.watchdogTimeoutSec = some 2000
      ∧ SessionSettings.milliseconds a.watchdogTimeSec = some 5000)
    ∧ SessionSettings.operatorEq rs ss a b = some true
    ∧ SessionSettings.operatorNe rs ss a b = some false
    ∧ SessionSettings.operatorLt rs ss a b = some false
    ∧ SessionSettings.operatorLt rs ss b a = some false := by
  intro a b
  obtain ⟨h1200, h2, h5⟩ := milliseconds_of_defaults
  have heq : SessionSettings.operatorEq rs ss a b = some true := by
    simp only [SessionSettings.operatorEq, SessionSettings.millisecondsEq, a, b,
      SessionSettings.create, h1200, h2, h5, Option.some_bind, andThen_some, hrsEq, hssEq]
    rfl
  have hlt : SessionSettings.operatorLt rs ss a b = some false := by
    simp [SessionSettings.operatorLt, SessionSettings.millisecondsNe, a, b,
      SessionSettings.create, h1200, h2, h5, hrsNe, hssNe]
  refine ⟨⟨rfl, rfl, rfl, rfl, rfl⟩, ⟨h1200, h2, h2, h5⟩, heq, ?_, hlt, hlt⟩
  simp only [SessionSettings.operatorNe, heq]
  rfl

/-- Witness of C20: read settings and security settings with a single value. -/
theorem sessionSettings_default_witness :
    SessionSettings.operatorEq unitComparisons unitComparisons
        (SessionSettings.create () ()) (SessionSettings.create () ()) = some true
    ∧ SessionSettings.operatorLt unitComparisons unitComparisons
        (SessionSettings.create () ()) (SessionSettings.create () ()) = some false :=
  ⟨(sessionSettings_default unitComparisons unitComparisons () () rfl rfl rfl rfl).2.2.1,
    (sessionSettings_default unitComparisons unitComparisons () () rfl rfl rfl rfl).2.2.2.2.1⟩

/-! ## The subscription factory -/

theorem mapFind_mapAssign {K V : Type} [DecidableEq K] (m : List (K × V)) (k : K) (v : V)
    (k1 : K) :
    mapFind (mapAssign m k v) k1 = if k = k1 then some v else mapFind m k1 := by
  induction m with
  | nil => simp [mapAssign, mapFind]
  | cons e m ih =>
    obtain ⟨k0, v0⟩ := e
    by_cases h0 : k0 = k
    · subst h0
      by_cases h1 : k0 = k1 <;> simp [mapAssign, mapFind, h1]
    · by_cases h1 : k0 = k1
      · subst h1
        have : ¬ k = k0 := fun e => h0 e.symm
        simp [mapAssign, mapFind, h0, this]
      · simp [mapAssign, mapFind, h0, h1, ih]

namespace SubscriptionFactory

variable {σ S Q R P Ses Sub NA SA : Type}

theorem activityCount_mapAssign (factory : SubscriptionFactory P Sub)
    (k : ClientSubscriptionHandle) (n : Nat) (k1 : ClientSubscriptionHandle) :
    activityCount { factory with activityMap_ := mapAssign factory.activityMap_ k n } k1
      = if k = k1 then n else activityCount factory k1 := by
  unfold activityCount
  simp only [mapFind_mapAssign]
  by_cases h : k = k1 <;> simp [h]

/-- The outcomes of the acquisition: either it is Good, returns a subscription and has set the
activity count of that subscription to one more than before, or to 1 for a subscription it
created; or it is NotFoundError and nothing has changed. -/
theorem acquire_cases [DecidableEq P]
    (newSubscription : SubscriptionSettings P → Subscription P Sub)
    (factory : SubscriptionFactory P Sub) (request : BaseSubscriptionRequest P) :
    (∃ (subscription : Subscription P Sub) (n : Nat),
      (acquire newSubscription factory request).ret = Status.Good
      ∧ (acquire newSubscription factory request).subscription = some subscription
      ∧ (acquire newSubscription factory request).factory.activityMap_
          = mapAssign factory.activityMap_ subscription.clientSubscriptionHandle n
      ∧ (acquire newSubscription factory request).factory.transactionMap_
          = factory.transactionMap_
      ∧ (acquire newSubscription factory request).factory.transactionId_ = factory.transactionId_
      ∧ (n = activityCount factory subscription.clientSubscriptionHandle + 1
        ∨ (n = 1 ∧ ∃ settings, subscription = newSubscription settings)))
    ∨ ((acquire newSubscription factory request).ret = Status.NotFoundError
      ∧ (acquire newSubscription factory request).subscription = none
      ∧ (acquire newSubscription factory request).factory = factory) := by
  have hsub : ∀ settings,
      ∃ (subscription : Subscription P Sub) (n : Nat),
        (acquireSubscription newSubscription factory settings).ret = Status.Good
        ∧ (acquireSubscription newSubscription factory settings).subscription
            = some subscription
        ∧ (acquireSubscription newSubscription factory settings).factory.activityMap_
            = mapAssign factory.activityMap_ subscription.clientSubscriptionHandle n
        ∧ (acquireSubscription newSubscription factory settings).factory.transactionMap_
            = factory.transactionMap_
        ∧ (acquireSubscription newSubscription factory settings).factory.transactionId_
            = factory.transactionId_
        ∧ (n = activityCount factory subscription.clientSubscriptionHandle + 1
          ∨ (n = 1 ∧ ∃ settings, subscription = newSubscription settings)) := by
    intro settings
    unfold acquireSubscription
    cases hfind : factory.subscriptionMap_.find?
        (fun entry => !settings.unique && decide (entry.2.subscriptionSettings = settings)) with
    | some entry => exact ⟨entry.2, _, rfl, rfl, rfl, rfl, rfl, Or.inl rfl⟩
    | none => exact ⟨newSubscription settings, 1, rfl, rfl, rfl, rfl, rfl, Or.inr ⟨rfl, _, rfl⟩⟩
  unfold acquire
  by_cases hgiven : request.clientSubscriptionHandleGiven = true
  · simp only [hgiven, if_true]
    unfold acquireExistingSubscription
    cases hfind : mapFind factory.subscriptionMap_ request.clientSubscriptionHandle with
    | some subscription =>
      exact Or.inl ⟨subscription, _, rfl, rfl, rfl, rfl, rfl, Or.inl rfl⟩
    | none => exact Or.inr ⟨rfl, rfl, rfl⟩
  · simp only [hgiven, Bool.false_eq_true, if_false]
    by_cases hsettings : request.subscriptionSettingsGiven = true
    · simp only [hsettings, if_true]
      exact Or.inl (hsub _)
    · simp only [hsettings, Bool.false_eq_true, if_false]
      exact Or.inl (hsub _)

theorem invokeService_failed [DecidableEq P] (ext : ExtensionPoints σ S Q R Ses Sub NA SA)
    (newSubscription : SubscriptionSettings P → Subscription P Sub)
    (factory : SubscriptionFactory P Sub) (invocation : BaseServiceInvocation S Q R)
    (request : BaseSubscriptionRequest P) (sdk : σ) (ns : NA) (sa : SA)
    (h : (acquire newSubscription (afterStore factory invocation) request).ret.isGood = false) :
    invokeService ext newSubscription factory invocation request sdk ns sa
      = some
          { ret := (acquire newSubscription (afterStore factory invocation) request).ret
            factory := (acquire newSubscription (afterStore factory invocation) request).factory
            invocation := invocation
            sdk := sdk
            calls := callsToAcquire factory invocation request
            extensionCalls := [] } := by
  unfold afterStore at h
  simp only [invokeService, afterStore, callsToAcquire, h, Bool.false_eq_true, if_false]

theorem invokeService_acquired [DecidableEq P] (ext : ExtensionPoints σ S Q R Ses Sub NA SA)
    (newSubscription : SubscriptionSettings P → Subscription P Sub)
    (factory : SubscriptionFactory P Sub) (invocation : BaseServiceInvocation S Q R)
    (request : BaseSubscriptionRequest P) (sdk : σ) (ns : NA) (sa : SA)
    (subscription : Subscription P Sub)
    (h : (acquire newSubscription (afterStore factory invocation) request).ret.isGood = true)
    (hsub : (acquire newSubscription (afterStore factory invocation) request).subscription
      = some subscription) :
    invokeService ext newSubscription factory invocation request sdk ns sa
      = some
          (if subscription.isCreated then
            { ret := (subscription.invokeService ext
                (invocation.setSubscriptionInformation subscription.subscriptionInformation)
                sdk ns sa).ret
              factory := (releaseSubscription
                (acquire newSubscription (afterStore factory invocation) request).factory
                subscription true).factory
              invocation := (subscription.invokeService ext
                (invocation.setSubscriptionInformation subscription.subscriptionInformation)
                sdk ns sa).invocation
              sdk := (subscription.invokeService ext
                (invocation.setSubscriptionInformation subscription.subscriptionInformation)
                sdk ns sa).sdk
              calls := callsToAcquire factory invocation request ++
                [FactoryCall.subscriptionInvokeService subscription.clientSubscriptionHandle
                  invocation.transactionId,
                 FactoryCall.releaseSubscription subscription.clientSubscriptionHandle]
              extensionCalls := (subscription.invokeService ext
                (invocation.setSubscriptionInformation subscription.subscriptionInformation)
                sdk ns sa).calls }
          else
            { ret := Status.SubscriptionNotCreatedError
              factory := (releaseSubscription
                (acquire newSubscription (afterStore factory invocation) request).factory
                subscription true).factory
              invocation :=
                invocation.setSubscriptionInformation subscription.subscriptionInformation
              sdk := sdk
              calls := callsToAcquire factory invocation request ++
                [FactoryCall.releaseSubscription subscription.clientSubscriptionHandle]
              extensionCalls := [] }) := by
  unfold afterStore at h hsub
  simp only [invokeService, afterStore, callsToAcquire, h, hsub, if_true]
  by_cases hc : subscription.isCreated = true
  · simp only [hc, if_true]; rfl
  · simp only [hc, Bool.false_eq_true, if_false]

theorem releaseSubscription_transactionMap (factory : SubscriptionFactory P Sub)
    (subscription : Subscription P Sub) (allowGarbageCollection : Bool) :
    (releaseSubscription factory subscription allowGarbageCollection).factory.transactionMap_
      = factory.transactionMap_ := by
  unfold releaseSubscription
  split <;> rfl

theorem afterStore_activityMap (factory : SubscriptionFactory P Sub)
    (invocation : BaseServiceInvocation S Q R) :
    (afterStore factory invocation).activityMap_ = factory.activityMap_ := by
  unfold afterStore
  split <;> rfl

theorem afterStore_defaultSubscriptionSettings (factory : SubscriptionFactory P Sub)
    (invocation : BaseServiceInvocation S Q R) :
    (afterStore factory invocation).defaultSubscriptionSettings
      = factory.defaultSubscriptionSettings := by
  unfold afterStore
  split <;> rfl

theorem afterStore_transactionMap (factory : SubscriptionFactory P Sub)
    (invocation : BaseServiceInvocation S Q R) :
    (afterStore factory invocation).transactionMap_
      = if invocation.asynchronous then
          mapAssign factory.transactionMap_ (getNewTransactionId_ factory).1
            invocation.requestHandle
        else factory.transactionMap_ := by
  unfold afterStore
  split <;> rfl

/-- The three paths of `invokeService`: the acquisition failed; the subscription was acquired but
is not created; the subscription was acquired, is created and the invocation was forwarded. -/
theorem invokeService_paths [DecidableEq P] (ext : ExtensionPoints σ S Q R Ses Sub NA SA)
    (newSubscription : SubscriptionSettings P → Subscription P Sub)
    (factory : SubscriptionFactory P Sub) (invocation : BaseServiceInvocation S Q R)
    (request : BaseSubscriptionRequest P) (sdk : σ) (ns : NA) (sa : SA) :
    ∃ result, invokeService ext newSubscription factory invocation request sdk ns sa
        = some result
      ∧ result.factory.transactionMap_ = (afterStore factory invocation).transactionMap_
      ∧ (((acquire newSubscription (afterStore factory invocation) request).ret
            = Status.NotFoundError
          ∧ result.ret = Status.NotFoundError
          ∧ result.factory = afterStore factory invocation
          ∧ result.invocation = invocation
          ∧ result.sdk = sdk
          ∧ result.calls = callsToAcquire factory invocation request
          ∧ result.extensionCalls = [])
        ∨ (∃ (subscription : Subscription P Sub) (n : Nat),
          (acquire newSubscription (afterStore factory invocation) request).ret = Status.Good
          ∧ (acquire newSubscription (afterStore factory invocation) request).subscription
              = some subscription
          ∧ (acquire newSubscription (afterStore factory invocation) request).factory.activityMap_
              = mapAssign factory.activityMap_ subscription.clientSubscriptionHandle n
          ∧ (n = activityCount factory subscription.clientSubscriptionHandle + 1
            ∨ (n = 1 ∧ ∃ settings, subscription = newSubscription settings))
          ∧ result.factory = (releaseSubscription
              (acquire newSubscription (afterStore factory invocation) request).factory
              subscription true).factory
          ∧ ((subscription.isCreated = false
              ∧ result.ret = Status.SubscriptionNotCreatedError
              ∧ result.invocation
                  = invocation.setSubscriptionInformation subscription.subscriptionInformation
              ∧ result.sdk = sdk
              ∧ result.calls = callsToAcquire factory invocation request ++
                  [FactoryCall.releaseSubscription subscription.clientSubscriptionHandle]
              ∧ result.extensionCalls = [])
            ∨ (subscription.isCreated = true
              ∧ result.ret = (subscription.invokeService ext
                  (invocation.setSubscriptionInformation subscription.subscriptionInformation)
                  sdk ns sa).ret
              ∧ result.invocation = (subscription.invokeService ext
                  (invocation.setSubscriptionInformation subscription.subscriptionInformation)
                  sdk ns sa).invocation
              ∧ result.sdk = (subscription.invokeService ext
                  (invocation.setSubscriptionInformation subscription.subscriptionInformation)
                  sdk ns sa).sdk
              ∧ result.calls = callsToAcquire factory invocation request ++
                  [FactoryCall.subscriptionInvokeService subscription.clientSubscriptionHandle
                    invocation.transactionId,
                   FactoryCall.releaseSubscription subscription.clientSubscriptionHandle]
              ∧ result.extensionCalls = (subscription.invokeService ext
                  (invocation.setSubscriptionInformation subscription.subscriptionInformation)
                  sdk ns sa).calls)))) := by
  rcases acquire_cases newSubscription (afterStore factory invocation) request with
    ⟨subscription, n, hret, hsub, hact, htm, _, hn⟩ | ⟨hret, hsub, hfac⟩
  · have hgood : (acquire newSubscription (afterStore factory invocation) request).ret.isGood
        = true := by rw [hret]; rfl
    rw [invokeService_acquired ext newSubscription factory invocation request sdk ns sa
      subscription hgood hsub]
    rw [afterStore_activityMap] at hact
    have hn1 : n = activityCount factory subscription.clientSubscriptionHandle + 1
        ∨ (n = 1 ∧ ∃ settings, subscription = newSubscription settings) := by
      rcases hn with h | h
      · left
        rw [h]
        unfold activityCount
        rw [afterStore_activityMap]
      · exact Or.inr h
    by_cases hc : subscription.isCreated = true
    · refine ⟨_, rfl, ?_, Or.inr ⟨subscription, n, hret, hsub, hact, hn1, ?_, Or.inr ?_⟩⟩
      · rw [if_pos hc]
        exact (releaseSubscription_transactionMap _ _ _).trans htm
      · rw [if_pos hc]
      · rw [if_pos hc]
        exact ⟨hc, rfl, rfl, rfl, rfl, rfl⟩
    · have hc1 : subscription.isCreated = false := by simpa using hc
      refine ⟨_, rfl, ?_, Or.inr ⟨subscription, n, hret, hsub, hact, hn1, ?_, Or.inl ?_⟩⟩
      · rw [if_neg hc]
        exact (releaseSubscription_transactionMap _ _ _).trans htm
      · rw [if_neg hc]
      · rw [if_neg hc]
        exact ⟨hc1, rfl, rfl, rfl, rfl, rfl⟩
  · have hbad : (acquire newSubscription (afterStore factory invocation) request).ret.isGood
        = false := by rw [hret]; rfl
    rw [invokeService_failed ext newSubscription factory invocation request sdk ns sa hbad]
    refine ⟨_, rfl, ?_, Or.inl ⟨hret, hret, hfac, rfl, rfl, rfl, rfl⟩⟩
    simp only [hfac]

theorem acquisitionCall_afterStore (factory : SubscriptionFactory P Sub)
    (invocation : BaseServiceInvocation S Q R) (request : BaseSubscriptionRequest P) :
    acquisitionCall (afterStore factory invocation) request = acquisitionCall factory request := by
  unfold acquisitionCall
  rw [afterStore_defaultSubscriptionSettings]

theorem acquisitionCall_isAcquisition (factory : SubscriptionFactory P Sub)
    (request : BaseSubscriptionRequest P) :
    (acquisitionCall factory request).isAcquisition = true
    ∧ (acquisitionCall factory request).isStore = false
    ∧ (acquisitionCall factory request).isRelease = false
    ∧ (acquisitionCall factory request).isForward = false := by
  unfold acquisitionCall
  split
  · exact ⟨rfl, rfl, rfl, rfl⟩
  · split <;> exact ⟨rfl, rfl, rfl, rfl⟩

theorem activityCount_congr (factory1 factory2 : SubscriptionFactory P Sub)
    (h : factory1.activityMap_ = factory2.activityMap_) (k : ClientSubscriptionHandle) :
    activityCount factory1 k = activityCount factory2 k := by
  unfold activityCount
  rw [h]

/-- C11 on the code: the factory `factorySix` (current transaction id 6, empty transaction table)
runs `invokeService` for the asynchronous invocation `asyncExample` (request handle 42,
`transactionId()` 0). The call mints transaction id 7 and stores the record 7 to 42, and forwards
the invocation with `transactionId()` still 0: the transport call is issued with id 0, for which
the transaction table has no record. -/
theorem invokeService_forwards_unminted_transactionId :
    (invokeService asyncService pendingSubscription factorySix asyncExample requestForOne
        () () ()).map
      (fun result => (result.ret, result.calls, result.extensionCalls,
        result.factory.transactionMap_,
        mapFind result.factory.transactionMap_ result.invocation.transactionId))
      = some (Status.Good,
          [FactoryCall.storeRequestHandle 42, FactoryCall.acquireExistingSubscription 1,
            FactoryCall.subscriptionInvokeService 1 0, FactoryCall.releaseSubscription 1],
          [Call.fromAsyncUafToSdk, Call.invokeAsyncSdkService_UaSubscription 0],
          [(7, 42)], none)
    ∧ asyncExample.requestHandle = 42
    ∧ asyncExample.asynchronous = true :=
  ⟨rfl, rfl, rfl⟩

/-- C13: `invokeService` acquires the subscription with exactly one call:
`acquireExistingSubscription` with the handle of the request when the request gives a handle,
whatever settings it carries; otherwise `acquireSubscription` with the settings of the request
when it gives settings; otherwise `acquireSubscription` with the default subscription settings.
What `invokeService` returns is the outcome of that call: when it fails, its status and the
factory as it left it, with the invocation untouched; when it succeeds, the invocation carries
the information of the subscription it returned, the status is SubscriptionNotCreatedError or
that of the invocation forwarded to this subscription, and it is this subscription that is
released. -/
theorem invokeService_resolution_precedence [DecidableEq P]
    (ext : ExtensionPoints σ S Q R Ses Sub NA SA)
    (newSubscription : SubscriptionSettings P → Subscription P Sub)
    (factory : SubscriptionFactory P Sub) (invocation : BaseServiceInvocation S Q R)
    (request : BaseSubscriptionRequest P) (sdk : σ) (ns : NA) (sa : SA) :
    let acquired :=
      if request.clientSubscriptionHandleGiven then
        acquireExistingSubscription (afterStore factory invocation)
          request.clientSubscriptionHandle
      else if request.subscriptionSettingsGiven then
        acquireSubscription newSubscription (afterStore factory invocation)
          request.subscriptionSettings
      else
        acquireSubscription newSubscription (afterStore factory invocation)
          factory.defaultSubscriptionSettings
    ∃ result, invokeService ext newSubscription factory invocation request sdk ns sa
        = some result
      ∧ result.calls.filter FactoryCall.isAcquisition
          = [if request.clientSubscriptionHandleGiven then
              FactoryCall.acquireExistingSubscription request.clientSubscriptionHandle
            else if request.subscriptionSettingsGiven then
              FactoryCall.acquireSubscription request.subscriptionSettings
            else
              FactoryCall.acquireSubscription factory.defaultSubscriptionSettings]
      ∧ (acquired.ret.isGood = false →
          result.ret = acquired.ret
          ∧ result.factory = acquired.factory
          ∧ result.invocation = invocation
          ∧ result.sdk = sdk)
      ∧ (∀ subscription, acquired.ret.isGood = true →
          acquired.subscription = some subscription →
          result.factory = (releaseSubscription acquired.factory subscription true).factory
          ∧ result.invocation.subscriptionInformation_ = subscription.subscriptionInformation
          ∧ (subscription.isCreated = false →
              result.ret = Status.SubscriptionNotCreatedError)
          ∧ (subscription.isCreated = true →
              result.ret = (subscription.invokeService ext
                (invocation.setSubscriptionInformation subscription.subscriptionInformation)
                sdk ns sa).ret
              ∧ result.sdk = (subscription.invokeService ext
                (invocation.setSubscriptionInformation subscription.subscriptionInformation)
                sdk ns sa).sdk)) := by
  intro acquired
  have hacquired : acquired = acquire newSubscription (afterStore factory invocation) request := by
    simp only [acquired, acquire, afterStore_defaultSubscriptionSettings]
  obtain ⟨result, hres, _, hpaths⟩ :=
    invokeService_paths ext newSubscription factory invocation request sdk ns sa
  have hacq := acquisitionCall_isAcquisition factory request
  have hfirst : (callsToAcquire factory invocation request).filter FactoryCall.isAcquisition
      = [acquisitionCall factory request] := by
    unfold callsToAcquire
    rw [acquisitionCall_afterStore]
    have hs : ∀ x, (FactoryCall.storeRequestHandle x : FactoryCall P).isAcquisition = false :=
      fun _ => rfl
    by_cases hasync : invocation.asynchronous = true
    · simp [hasync, List.filter, hacq.1, hs]
    · simp [hasync, List.filter, hacq.1]
  refine ⟨result, hres, ?_, ?_, ?_⟩
  · have : result.calls.filter FactoryCall.isAcquisition = [acquisitionCall factory request] := by
      rcases hpaths with ⟨_, _, _, _, _, hc, _⟩ | ⟨sub, n, _, _, _, _, _, hcr⟩
      · rw [hc, hfirst]
      · rcases hcr with ⟨_, _, _, _, hc, _⟩ | ⟨_, _, _, _, hc, _⟩
        · rw [hc, List.filter_append, hfirst]
          simp [List.filter, FactoryCall.isAcquisition]
        · rw [hc, List.filter_append, hfirst]
          simp [List.filter, FactoryCall.isAcquisition]
    rw [this]
    rfl
  · intro hbad
    rw [hacquired] at hbad ⊢
    rcases hpaths with ⟨hret, hr, hfac, hinv, hsdk, _⟩ | ⟨sub, n, hret, _⟩
    · refine ⟨hr.trans hret.symm, ?_, hinv, hsdk⟩
      rw [hfac]
      rcases acquire_cases newSubscription (afterStore factory invocation) request with
        ⟨_, _, hgood, _⟩ | ⟨_, _, hsame⟩
      · rw [hgood] at hret
        exact absurd hret (by simp)
      · exact hsame.symm
    · rw [hret] at hbad
      exact absurd hbad (by simp [Status.isGood])
  · intro subscription hgood hsub
    rw [hacquired] at hgood hsub ⊢
    rcases hpaths with ⟨hret, _⟩ | ⟨sub, n, _, hsub1, _, _, hfac, hcr⟩
    · rw [hret] at hgood
      exact absurd hgood (by simp [Status.isGood])
    · rw [hsub] at hsub1
      have hs : subscription = sub := Option.some.inj hsub1
      subst hs
      rcases hcr with ⟨hc, hret, hinv, _⟩ | ⟨hc, hret, hinv, hsdk, _⟩
      · refine ⟨hfac, ?_, fun _ => hret, fun hc1 => ?_⟩
        · rw [hinv]
          rfl
        · rw [hc] at hc1
          exact absurd hc1 (by simp)
      · refine ⟨hfac, ?_, fun hc1 => ?_, fun _ => ⟨hret, hsdk⟩⟩
        · rw [hinv]
          obtain ⟨_, rts, hfr, _⟩ := invokeSubscription_frame ext
            (invocation.setSubscriptionInformation subscription.subscriptionInformation)
            sdk subscription.uaSubscription ns sa
          unfold Subscription.invokeService
          rw [hfr]
          rfl
        · rw [hc] at hc1
          exact absurd hc1 (by simp)

/-- An instance of C13: a request that gives a handle the factory does not have, and settings as
well, is resolved by the handle: the call returns NotFoundError and the factory has created no
subscription for the settings. -/
theorem invokeService_resolution_precedence_witness :
    ∃ result, invokeService asyncService pendingSubscription factorySix asyncExample
        requestForAbsent () () () = some result
      ∧ result.ret = Status.NotFoundError
      ∧ result.factory.subscriptionMap_ = factorySix.subscriptionMap_
      ∧ result.calls = [FactoryCall.storeRequestHandle 42,
          FactoryCall.acquireExistingSubscription 5] := by
  obtain ⟨result, hres, _, hbad, _⟩ :=
    invokeService_resolution_precedence asyncService pendingSubscription factorySix asyncExample
      requestForAbsent () () ()
  refine ⟨result, hres, (hbad rfl).1, ?_, ?_⟩
  · rw [(hbad rfl).2.1]
    rfl
  · have h : invokeService asyncService pendingSubscription factorySix asyncExample
        requestForAbsent () () () = some result := hres
    have h2 : (invokeService asyncService pendingSubscription factorySix asyncExample
        requestForAbsent () () ()).map (fun r => r.calls)
        = some [FactoryCall.storeRequestHandle 42, FactoryCall.acquireExistingSubscription 5] :=
      rfl
    rw [h] at h2
    exact Option.some.inj h2

/-- C14: when the acquisition is Good and returns a subscription, `invokeService` returns
SubscriptionNotCreatedError without forwarding (no call of `Subscription::invokeService`, no call
of an extension point, the service state untouched) if the subscription is not created, and it
returns the status of `Subscription::invokeService`, which it calls once, if the subscription is
created. -/
theorem invokeService_not_created [DecidableEq P]
    (ext : ExtensionPoints σ S Q R Ses Sub NA SA)
    (newSubscription : SubscriptionSettings P → Subscription P Sub)
    (factory : SubscriptionFactory P Sub) (invocation : BaseServiceInvocation S Q R)
    (request : BaseSubscriptionRequest P) (sdk : σ) (ns : NA) (sa : SA)
    (subscription : Subscription P Sub)
    (hgood : (acquire newSubscription (afterStore factory invocation) request).ret.isGood = true)
    (hsub : (acquire newSubscription (afterStore factory invocation) request).subscription
      = some subscription) :
    ∃ result, invokeService ext newSubscription factory invocation request sdk ns sa
        = some result
      ∧ (subscription.isCreated = false →
          result.ret = Status.SubscriptionNotCreatedError
          ∧ result.calls.filter FactoryCall.isForward = []
          ∧ result.extensionCalls = []
          ∧ result.sdk = sdk)
      ∧ (subscription.isCreated = true →
          result.ret = (subscription.invokeService ext
            (invocation.setSubscriptionInformation subscription.subscriptionInformation)
            sdk ns sa).ret
          ∧ result.calls.filter FactoryCall.isForward
            = [FactoryCall.subscriptionInvokeService subscription.clientSubscriptionHandle
                invocation.transactionId]) := by
  have hacq := acquisitionCall_isAcquisition factory request
  have hs : ∀ x, (FactoryCall.storeRequestHandle x : FactoryCall P).isForward = false :=
    fun _ => rfl
  have hr : ∀ x, (FactoryCall.releaseSubscription x : FactoryCall P).isForward = false :=
    fun _ => rfl
  have hf : ∀ x y, (FactoryCall.subscriptionInvokeService x y : FactoryCall P).isForward = true :=
    fun _ _ => rfl
  have hfirst : (callsToAcquire factory invocation request).filter FactoryCall.isForward = [] := by
    unfold callsToAcquire
    rw [acquisitionCall_afterStore]
    by_cases hasync : invocation.asynchronous = true
    · simp [hasync, List.filter, hacq.2.2.2, hs]
    · simp [hasync, List.filter, hacq.2.2.2]
  rw [invokeService_acquired ext newSubscription factory invocation request sdk ns sa
    subscription hgood hsub]
  refine ⟨_, rfl, ?_, ?_⟩
  · intro hc
    rw [if_neg (by simp [hc])]
    refine ⟨rfl, ?_, rfl, rfl⟩
    simp only [List.filter_append, hfirst, List.nil_append]
    simp [List.filter, hr]
  · intro hc
    rw [if_pos hc]
    refine ⟨rfl, ?_⟩
    simp only [List.filter_append, hfirst, List.nil_append]
    simp [List.filter, hr, hf]

/-- Witness of C14: a request with settings flagged unique makes `factorySix` create the pending
subscription 99, which is not created, and the call returns SubscriptionNotCreatedError. -/
theorem invokeService_not_created_witness :
    (acquire pendingSubscription (afterStore factorySix asyncExample) requestUnique).subscription
        = some (pendingSubscription ⟨true, ()⟩)
    ∧ ∃ result, invokeService asyncService pendingSubscription factorySix asyncExample
          requestUnique () () () = some result
        ∧ result.ret = Status.SubscriptionNotCreatedError :=
  ⟨rfl,
    (invokeService_not_created asyncService pendingSubscription factorySix asyncExample
      requestUnique () () () (pendingSubscription ⟨true, ()⟩) rfl rfl).imp
      (fun _ h => ⟨h.1, (h.2.1 rfl).1⟩)⟩

/-- C15: when the handle of a subscription that the factory creates has no activity record yet,
`invokeService` makes one acquisition call and releases exactly as often as it acquired: one
call of `releaseSubscription` when the acquisition is Good, whether the invocation was forwarded
or skipped with SubscriptionNotCreatedError and whatever the forwarded invocation returned, and
none when the acquisition failed; the release is then the last call. The activity count of every
subscription handle after the call equals the one before the call. -/
theorem invokeService_releases_what_it_acquired [DecidableEq P]
    (ext : ExtensionPoints σ S Q R Ses Sub NA SA)
    (newSubscription : SubscriptionSettings P → Subscription P Sub)
    (factory : SubscriptionFactory P Sub) (invocation : BaseServiceInvocation S Q R)
    (request : BaseSubscriptionRequest P) (sdk : σ) (ns : NA) (sa : SA)
    (hfresh : ∀ settings,
      mapFind factory.activityMap_ (newSubscription settings).clientSubscriptionHandle = none) :
    ∃ result, invokeService ext newSubscription factory invocation request sdk ns sa
        = some result
      ∧ (result.calls.filter FactoryCall.isAcquisition).length = 1
      ∧ (result.calls.filter FactoryCall.isRelease).length
          = (if (acquire newSubscription (afterStore factory invocation) request).ret.isGood
              then 1 else 0)
      ∧ (∀ subscription,
          (acquire newSubscription (afterStore factory invocation) request).ret.isGood = true →
          (acquire newSubscription (afterStore factory invocation) request).subscription
            = some subscription →
          result.calls.getLast?
            = some (FactoryCall.releaseSubscription subscription.clientSubscriptionHandle))
      ∧ ∀ handle, activityCount result.factory handle = activityCount factory handle := by
  obtain ⟨result, hres, _, hpaths⟩ :=
    invokeService_paths ext newSubscription factory invocation request sdk ns sa
  have hacq := acquisitionCall_isAcquisition factory request
  have hsA : ∀ x, (FactoryCall.storeRequestHandle x : FactoryCall P).isAcquisition = false :=
    fun _ => rfl
  have hsR : ∀ x, (FactoryCall.storeRequestHandle x : FactoryCall P).isRelease = false :=
    fun _ => rfl
  have hrA : ∀ x, (FactoryCall.releaseSubscription x : FactoryCall P).isAcquisition = false :=
    fun _ => rfl
  have hrR : ∀ x, (FactoryCall.releaseSubscription x : FactoryCall P).isRelease = true :=
    fun _ => rfl
  have hfA : ∀ x y,
      (FactoryCall.subscriptionInvokeService x y : FactoryCall P).isAcquisition = false :=
    fun _ _ => rfl
  have hfR : ∀ x y,
      (FactoryCall.subscriptionInvokeService x y : FactoryCall P).isRelease = false :=
    fun _ _ => rfl
  have hfirstA : (callsToAcquire factory invocation request).filter FactoryCall.isAcquisition
      = [acquisitionCall factory request] := by
    unfold callsToAcquire
    rw [acquisitionCall_afterStore]
    by_cases hasync : invocation.asynchronous = true
    · simp [hasync, List.filter, hacq.1, hsA]
    · simp [hasync, List.filter, hacq.1]
  have hfirstR : (callsToAcquire factory invocation request).filter FactoryCall.isRelease
      = [] := by
    unfold callsToAcquire
    rw [acquisitionCall_afterStore]
    by_cases hasync : invocation.asynchronous = true
    · simp [hasync, List.filter, hacq.2.2.1, hsR]
    · simp [hasync, List.filter, hacq.2.2.1]
  refine ⟨result, hres, ?_⟩
  rcases hpaths with ⟨hret, _, hfac, _, _, hc, _⟩ | ⟨sub, n, hret, hsub, hact, hn, hfac, hcr⟩
  · refine ⟨by rw [hc, hfirstA]; rfl, ?_, ?_, ?_⟩
    · rw [hc, hfirstR, hret]
      rfl
    · intro subscription hgood
      rw [hret] at hgood
      exact absurd hgood (by simp [Status.isGood])
    · intro handle
      rw [hfac]
      exact activityCount_congr _ _ (afterStore_activityMap factory invocation) handle
  · have hcount : ∀ handle, activityCount result.factory handle
        = activityCount factory handle := by
      intro handle
      rw [hfac]
      have hcur : activityCount
          (acquire newSubscription (afterStore factory invocation) request).factory
          sub.clientSubscriptionHandle = n := by
        unfold activityCount
        rw [hact, mapFind_mapAssign]
        simp
      have hnpos : n ≠ 0 := by
        rcases hn with h | ⟨h, _⟩ <;> omega
      unfold releaseSubscription
      rw [hcur]
      simp only [hnpos, if_false]
      unfold activityCount
      simp only [hact, mapFind_mapAssign]
      by_cases hh : sub.clientSubscriptionHandle = handle
      · subst hh
        simp only [if_true, Option.getD_some]
        rcases hn with h | ⟨h, settings, hs⟩
        · rw [h]
          unfold activityCount
          omega
        · rw [h, hs, hfresh settings]
          rfl
      · simp only [hh, if_false]
    have hlast : ∀ subscription,
        (acquire newSubscription (afterStore factory invocation) request).subscription
          = some subscription → subscription = sub := by
      intro subscription h
      rw [hsub] at h
      exact (Option.some.inj h).symm
    have hgood : (acquire newSubscription (afterStore factory invocation) request).ret.isGood
        = true := by rw [hret]; rfl
    rcases hcr with ⟨_, _, _, _, hc, _⟩ | ⟨_, _, _, _, hc, _⟩
    · refine ⟨?_, ?_, ?_, hcount⟩
      · rw [hc, List.filter_append, hfirstA]
        simp [List.filter, hrA]
      · rw [hc, List.filter_append, hfirstR, hgood]
        simp [List.filter, hrR]
      · intro subscription _ h
        rw [hlast subscription h, hc]
        simp
    · refine ⟨?_, ?_, ?_, hcount⟩
      · rw [hc, List.filter_append, hfirstA]
        simp [List.filter, hrA, hfA]
      · rw [hc, List.filter_append, hfirstR, hgood]
        simp [List.filter, hrR, hfR]
      · intro subscription _ h
        rw [hlast subscription h, hc]
        simp

/-- Witness of C15: `factorySix` has no activity record for handle 99. -/
theorem invokeService_releases_what_it_acquired_witness :
    (∀ settings,
      mapFind factorySix.activityMap_ (pendingSubscription settings).clientSubscriptionHandle
        = none)
    ∧ ∃ result, invokeService asyncService pendingSubscription factorySix asyncExample
          requestUnique () () () = some result
        ∧ (result.calls.filter FactoryCall.isAcquisition).length = 1 :=
  ⟨fun _ => rfl,
    (invokeService_releases_what_it_acquired asyncService pendingSubscription factorySix
      asyncExample requestUnique () () () (fun _ => rfl)).imp (fun _ h => ⟨h.1, h.2.1⟩)⟩

/-- C18: `releaseSubscription` on a subscription whose activity count is 0 returns the
UnexpectedError for an already released subscription and leaves the factory, and so the count 0,
as it was; on a subscription whose activity count is above 0 it returns Good, leaves the count
one lower and leaves the counts of the other handles as they were. -/
theorem releaseSubscription_count (factory : SubscriptionFactory P Sub)
    (subscription : Subscription P Sub) (allowGarbageCollection : Bool) :
    (activityCount factory subscription.clientSubscriptionHandle = 0 →
      (releaseSubscription factory subscription allowGarbageCollection).ret
        = Status.UnexpectedError Description.alreadyReleased
      ∧ (releaseSubscription factory subscription allowGarbageCollection).ret.isGood = false
      ∧ (releaseSubscription factory subscription allowGarbageCollection).factory = factory
      ∧ activityCount (releaseSubscription factory subscription allowGarbageCollection).factory
          subscription.clientSubscriptionHandle = 0)
    ∧ (0 < activityCount factory subscription.clientSubscriptionHandle →
      (releaseSubscription factory subscription allowGarbageCollection).ret = Status.Good
      ∧ activityCount (releaseSubscription factory subscription allowGarbageCollection).factory
          subscription.clientSubscriptionHandle
        = activityCount factory subscription.clientSubscriptionHandle - 1
      ∧ ∀ handle, handle ≠ subscription.clientSubscriptionHandle →
          activityCount (releaseSubscription factory subscription allowGarbageCollection).factory
            handle = activityCount factory handle) := by
  constructor
  · intro h0
    unfold releaseSubscription
    rw [if_pos h0]
    exact ⟨rfl, rfl, rfl, h0⟩
  · intro hpos
    have hne : activityCount factory subscription.clientSubscriptionHandle ≠ 0 := by omega
    unfold releaseSubscription
    rw [if_neg hne]
    refine ⟨rfl, ?_, ?_⟩
    · rw [activityCount_mapAssign]
      simp
    · intro handle hh
      rw [activityCount_mapAssign]
      have : ¬ subscription.clientSubscriptionHandle = handle := fun e => hh e.symm
      simp [this]

/-- An instance of C18: releasing `subscriptionOne` in `factorySix`, where its activity count is
0, is an error and leaves the count at 0; after one acquisition the release is Good and the count
is back at 0. -/
theorem releaseSubscription_count_witness :
    activityCount factorySix subscriptionOne.clientSubscriptionHandle = 0
    ∧ (releaseSubscription factorySix subscriptionOne true).ret
        = Status.UnexpectedError Description.alreadyReleased
    ∧ activityCount (releaseSubscription factorySix subscriptionOne true).factory
        subscriptionOne.clientSubscriptionHandle = 0 :=
  ⟨rfl, ((releaseSubscription_count factorySix subscriptionOne true).1 rfl).1,
    ((releaseSubscription_count factorySix subscriptionOne true).1 rfl).2.2.2⟩

end SubscriptionFactory

/-! ## setMonitoringModeIfNeeded -/

namespace SubscriptionFactory

variable {P Sub M T : Type}

theorem groupOf_mem (factory : SubscriptionFactory P Sub) (clientHandles : List ClientHandle)
    (h : ClientSubscriptionHandle) (i : Nat) (c : ClientHandle) :
    (i, c) ∈ groupOf factory clientHandles h
      ↔ clientHandles[i]? = some c ∧ owner factory c = some h := by
  unfold groupOf
  rw [List.mem_filter, List.mk_mem_enum_iff_getElem?]
  simp

theorem groupOf_positions_nodup (factory : SubscriptionFactory P Sub)
    (clientHandles : List ClientHandle) (h : ClientSubscriptionHandle) :
    ((groupOf factory clientHandles h).map Prod.fst).Nodup := by
  have hsub : ((groupOf factory clientHandles h).map Prod.fst).Sublist
      (clientHandles.enum.map Prod.fst) :=
    List.Sublist.map Prod.fst (List.filter_sublist _)
  rw [List.enum_map_fst] at hsub
  exact List.Nodup.sublist hsub (List.nodup_range _)

theorem groupOf_positions_lt (factory : SubscriptionFactory P Sub)
    (clientHandles : List ClientHandle) (h : ClientSubscriptionHandle) (i : Nat)
    (hi : i ∈ (groupOf factory clientHandles h).map Prod.fst) : i < clientHandles.length := by
  rw [List.mem_map] at hi
  obtain ⟨⟨i1, c⟩, hmem, rfl⟩ := hi
  have := ((groupOf_mem factory clientHandles h i1 c).mp hmem).1
  by_contra hc
  rw [List.getElem?_eq_none (by omega)] at this
  exact absurd this (by simp)

theorem setMonitoringModeOf_length
    (transport : ClientSubscriptionHandle → List ClientHandle → M → T → List Status)
    (factory : SubscriptionFactory P Sub) (clientHandles : List ClientHandle)
    (mode : M) (settings : T) (sofar : MonitoringModeSet) (subscription : Subscription P Sub) :
    (setMonitoringModeOf transport factory clientHandles mode settings sofar
      subscription).results.length = sofar.results.length := by
  unfold setMonitoringModeOf
  simp only
  split
  · rfl
  · exact writes_length _ (fun e r ts => List.length_set ts r e) _ _ _

theorem setMonitoringModeOf_calls
    (transport : ClientSubscriptionHandle → List ClientHandle → M → T → List Status)
    (factory : SubscriptionFactory P Sub) (clientHandles : List ClientHandle)
    (mode : M) (settings : T) (sofar : MonitoringModeSet) (subscription : Subscription P Sub)
    (call : ClientSubscriptionHandle × List ClientHandle) (h : call ∈ sofar.transportCalls) :
    call ∈ (setMonitoringModeOf transport factory clientHandles mode settings sofar
      subscription).transportCalls := by
  unfold setMonitoringModeOf
  simp only
  split
  · exact h
  · exact List.mem_append_left _ h

/-- A subscription other than the owner of the handle at position `i` leaves `results[i]`. -/
theorem setMonitoringModeOf_other
    (transport : ClientSubscriptionHandle → List ClientHandle → M → T → List Status)
    (factory : SubscriptionFactory P Sub) (clientHandles : List ClientHandle)
    (mode : M) (settings : T) (sofar : MonitoringModeSet) (subscription : Subscription P Sub)
    (i : Nat) (c : ClientHandle) (hi : clientHandles[i]? = some c)
    (hne : owner factory c ≠ some subscription.clientSubscriptionHandle) :
    (setMonitoringModeOf transport factory clientHandles mode settings sofar
      subscription).results[i]? = sofar.results[i]? := by
  unfold setMonitoringModeOf
  simp only
  split
  · rfl
  · apply writes_frame _ (fun e r ts j hj => List.getElem?_set_ne (fun e => hj e.symm))
    intro hmem
    have hmem1 := List.mem_of_mem_take hmem
    rw [List.mem_map] at hmem1
    obtain ⟨⟨i1, c1⟩, hg, hfst⟩ := hmem1
    simp only at hfst
    subst hfst
    obtain ⟨hc1, hown⟩ := (groupOf_mem factory clientHandles _ i1 c1).mp hg
    rw [hi] at hc1
    rw [← Option.some.inj hc1] at hown
    exact hne hown

/-- The owner of the handle at position `i` writes to `results[i]` the status that the transport
gave for that handle. -/
theorem setMonitoringModeOf_owner
    (transport : ClientSubscriptionHandle → List ClientHandle → M → T → List Status)
    (hreply : ∀ h hs m s, (transport h hs m s).length = hs.length)
    (factory : SubscriptionFactory P Sub) (clientHandles : List ClientHandle)
    (mode : M) (settings : T) (sofar : MonitoringModeSet) (subscription : Subscription P Sub)
    (hlen : sofar.results.length = clientHandles.length)
    (i : Nat) (c : ClientHandle) (j : Nat)
    (hj : (groupOf factory clientHandles subscription.clientSubscriptionHandle)[j]?
      = some (i, c)) :
    (setMonitoringModeOf transport factory clientHandles mode settings sofar
        subscription).results[i]?
      = (transport subscription.clientSubscriptionHandle
          ((groupOf factory clientHandles subscription.clientSubscriptionHandle).map Prod.snd)
          mode settings)[j]?
    ∧ (subscription.clientSubscriptionHandle,
        (groupOf factory clientHandles subscription.clientSubscriptionHandle).map Prod.snd)
      ∈ (setMonitoringModeOf transport factory clientHandles mode settings sofar
        subscription).transportCalls := by
  have hjlt : j < (groupOf factory clientHandles subscription.clientSubscriptionHandle).length := by
    by_contra hc
    rw [List.getElem?_eq_none (by omega)] at hj
    exact absurd hj (by simp)
  have hne : (groupOf factory clientHandles subscription.clientSubscriptionHandle).isEmpty
      = false := by
    cases hg : groupOf factory clientHandles subscription.clientSubscriptionHandle with
    | nil => rw [hg] at hjlt; simp at hjlt
    | cons e es => rfl
  unfold setMonitoringModeOf
  simp only [hne, Bool.false_eq_true, if_false]
  refine ⟨?_, by simp⟩
  have hrl := hreply subscription.clientSubscriptionHandle
    ((groupOf factory clientHandles subscription.clientSubscriptionHandle).map Prod.snd)
    mode settings
  rw [List.length_map] at hrl
  have hjr : j < (transport subscription.clientSubscriptionHandle
      ((groupOf factory clientHandles subscription.clientSubscriptionHandle).map Prod.snd)
      mode settings).length := by omega
  rw [List.getElem?_eq_getElem hjr]
  apply writes_slot_last _ (fun status => status)
    (fun e r ts => List.length_set ts r e)
    (fun e r ts k hk => List.getElem?_set_ne (fun e => hk e.symm))
    (fun e r ts hr => List.getElem?_set_self hr)
    _ _ _ ?_ j _ i (List.getElem?_eq_getElem hjr) ?_ ?_
  · intro r hr
    rw [hlen]
    exact groupOf_positions_lt factory clientHandles _ r (List.mem_of_mem_take hr)
  · rw [List.getElem?_map, hj]
    rfl
  · intro k hjk _
    refine getElem?_ne_of_nodup (groupOf_positions_nodup factory clientHandles _) ?_ hjk
    rw [List.getElem?_map, hj]
    rfl

theorem foldl_setMonitoringModeOf_length
    (transport : ClientSubscriptionHandle → List ClientHandle → M → T → List Status)
    (factory : SubscriptionFactory P Sub) (clientHandles : List ClientHandle)
    (mode : M) (settings : T) :
    ∀ (subscriptions : List (Subscription P Sub)) (sofar : MonitoringModeSet),
      (subscriptions.foldl
        (setMonitoringModeOf transport factory clientHandles mode settings)
        sofar).results.length = sofar.results.length := by
  intro subscriptions
  induction subscriptions with
  | nil => intro sofar; rfl
  | cons s rest ih =>
    intro sofar
    rw [List.foldl_cons, ih, setMonitoringModeOf_length]

theorem foldl_setMonitoringModeOf_none
    (transport : ClientSubscriptionHandle → List ClientHandle → M → T → List Status)
    (factory : SubscriptionFactory P Sub) (clientHandles : List ClientHandle)
    (mode : M) (settings : T) (i : Nat) (c : ClientHandle) (hi : clientHandles[i]? = some c) :
    ∀ (subscriptions : List (Subscription P Sub)) (sofar : MonitoringModeSet),
      (∀ s ∈ subscriptions, owner factory c ≠ some s.clientSubscriptionHandle) →
      (subscriptions.foldl
        (setMonitoringModeOf transport factory clientHandles mode settings)
        sofar).results[i]? = sofar.results[i]? := by
  intro subscriptions
  induction subscriptions with
  | nil => intro sofar _; rfl
  | cons s rest ih =>
    intro sofar hall
    rw [List.foldl_cons, ih _ (fun s1 hs1 => hall s1 (List.mem_cons_of_mem _ hs1)),
      setMonitoringModeOf_other transport factory clientHandles mode settings sofar s i c hi
        (hall s (List.mem_cons_self _ _))]

/-- Once the status of the owner's call stands in `results[i]` and the call is recorded, the
remaining subscriptions keep both. -/
theorem foldl_setMonitoringModeOf_keeps
    (transport : ClientSubscriptionHandle → List ClientHandle → M → T → List Status)
    (hreply : ∀ h hs m s, (transport h hs m s).length = hs.length)
    (factory : SubscriptionFactory P Sub) (clientHandles : List ClientHandle)
    (mode : M) (settings : T) (i : Nat) (c : ClientHandle) (h : ClientSubscriptionHandle)
    (j : Nat) (hi : clientHandles[i]? = some c)
    (hj : (groupOf factory clientHandles h)[j]? = some (i, c)) :
    ∀ (subscriptions : List (Subscription P Sub)) (sofar : MonitoringModeSet),
      sofar.results.length = clientHandles.length →
      sofar.results[i]?
        = (transport h ((groupOf factory clientHandles h).map Prod.snd) mode settings)[j]? →
      (h, (groupOf factory clientHandles h).map Prod.snd) ∈ sofar.transportCalls →
      (subscriptions.foldl
          (setMonitoringModeOf transport factory clientHandles mode settings)
          sofar).results[i]?
        = (transport h ((groupOf factory clientHandles h).map Prod.snd) mode settings)[j]?
      ∧ (h, (groupOf factory clientHandles h).map Prod.snd)
        ∈ (subscriptions.foldl
          (setMonitoringModeOf transport factory clientHandles mode settings)
          sofar).transportCalls := by
  intro subscriptions
  induction subscriptions with
  | nil => intro sofar _ hval hcall; exact ⟨hval, hcall⟩
  | cons s rest ih =>
    intro sofar hlen hval hcall
    rw [List.foldl_cons]
    apply ih
    · rw [setMonitoringModeOf_length, hlen]
    · by_cases hs : s.clientSubscriptionHandle = h
      · subst hs
        exact (setMonitoringModeOf_owner transport hreply factory clientHandles mode settings
          sofar s hlen i c j hj).1
      · rw [setMonitoringModeOf_other transport factory clientHandles mode settings sofar s i c
          hi ?_, hval]
        intro hown
        have := ((groupOf_mem factory clientHandles h i c).mp
          (List.mem_iff_getElem?.mpr ⟨j, hj⟩)).2
        rw [this] at hown
        exact hs (Option.some.inj hown).symm
    · exact setMonitoringModeOf_calls transport factory clientHandles mode settings sofar s _
        hcall

theorem foldl_setMonitoringModeOf_owner
    (transport : ClientSubscriptionHandle → List ClientHandle → M → T → List Status)
    (hreply : ∀ h hs m s, (transport h hs m s).length = hs.length)
    (factory : SubscriptionFactory P Sub) (clientHandles : List ClientHandle)
    (mode : M) (settings : T) (i : Nat) (c : ClientHandle) (h : ClientSubscriptionHandle)
    (j : Nat) (hi : clientHandles[i]? = some c)
    (hj : (groupOf factory clientHandles h)[j]? = some (i, c)) :
    ∀ (subscriptions : List (Subscription P Sub)) (sofar : MonitoringModeSet),
      sofar.results.length = clientHandles.length →
      (∃ s ∈ subscriptions, s.clientSubscriptionHandle = h) →
      (subscriptions.foldl
          (setMonitoringModeOf transport factory clientHandles mode settings)
          sofar).results[i]?
        = (transport h ((groupOf factory clientHandles h).map Prod.snd) mode settings)[j]?
      ∧ (h, (groupOf factory clientHandles h).map Prod.snd)
        ∈ (subscriptions.foldl
          (setMonitoringModeOf transport factory clientHandles mode settings)
          sofar).transportCalls := by
  intro subscriptions
  induction subscriptions with
  | nil => intro sofar _ hex; simp at hex
  | cons s rest ih =>
    intro sofar hlen hex
    rw [List.foldl_cons]
    by_cases hs : s.clientSubscriptionHandle = h
    · subst hs
      have hstep := setMonitoringModeOf_owner transport hreply factory clientHandles mode
        settings sofar s hlen i c j hj
      exact foldl_setMonitoringModeOf_keeps transport hreply factory clientHandles mode settings
        i c _ j hi hj rest _ (by rw [setMonitoringModeOf_length, hlen]) hstep.1 hstep.2
    · apply ih _ (by rw [setMonitoringModeOf_length, hlen])
      obtain ⟨s1, hs1, hh⟩ := hex
      rcases List.mem_cons.mp hs1 with rfl | hmem
      · exact absurd hh hs
      · exact ⟨s1, hmem, hh⟩

/-- C19: when the transport answers a mode-change call with one status per handle,
`setMonitoringModeIfNeeded` returns as many statuses as input handles, and `results[i]` is the
status for `clientHandles[i]`: NotFoundError when no subscription owns the handle, and otherwise
the status that the one call for the owning subscription gave at the place where that call
carried `clientHandles[i]`. -/
theorem setMonitoringModeIfNeeded_one_status_per_handle
    (transport : ClientSubscriptionHandle → List ClientHandle → M → T → List Status)
    (hreply : ∀ h hs m s, (transport h hs m s).length = hs.length)
    (factory : SubscriptionFactory P Sub) (clientHandles : List ClientHandle)
    (mode : M) (settings : T) :
    (setMonitoringModeIfNeeded transport factory clientHandles mode settings).results.length
      = clientHandles.length
    ∧ ∀ (i : Nat) (clientHandle : ClientHandle), clientHandles[i]? = some clientHandle →
        (owner factory clientHandle = none →
          (setMonitoringModeIfNeeded transport factory clientHandles mode settings).results[i]?
            = some Status.NotFoundError)
        ∧ ∀ h, owner factory clientHandle = some h →
            ∃ (j : Nat) (status : Status),
              ((groupOf factory clientHandles h).map Prod.snd)[j]? = some clientHandle
              ∧ ((groupOf factory clientHandles h).map Prod.fst)[j]? = some i
              ∧ (transport h ((groupOf factory clientHandles h).map Prod.snd) mode settings)[j]?
                  = some status
              ∧ (setMonitoringModeIfNeeded transport factory clientHandles mode
                  settings).results[i]? = some status
              ∧ (h, (groupOf factory clientHandles h).map Prod.snd)
                ∈ (setMonitoringModeIfNeeded transport factory clientHandles mode
                  settings).transportCalls := by
  refine ⟨?_, ?_⟩
  · unfold setMonitoringModeIfNeeded
    rw [foldl_setMonitoringModeOf_length]
    simp
  · intro i clientHandle hi
    have hilt : i < clientHandles.length := by
      by_contra hc
      rw [List.getElem?_eq_none (by omega)] at hi
      exact absurd hi (by simp)
    refine ⟨?_, ?_⟩
    · intro hnone
      unfold setMonitoringModeIfNeeded
      rw [foldl_setMonitoringModeOf_none transport factory clientHandles mode settings i
        clientHandle hi _ _ (by intro s _; rw [hnone]; simp)]
      simp [List.getElem?_replicate, hilt]
    · intro h hown
      have hmem : (i, clientHandle) ∈ groupOf factory clientHandles h :=
        (groupOf_mem factory clientHandles h i clientHandle).mpr ⟨hi, hown⟩
      obtain ⟨j, hj⟩ := List.mem_iff_getElem?.mp hmem
      have hjlt : j < (groupOf factory clientHandles h).length := by
        by_contra hc
        rw [List.getElem?_eq_none (by omega)] at hj
        exact absurd hj (by simp)
      have hrl := hreply h ((groupOf factory clientHandles h).map Prod.snd) mode settings
      rw [List.length_map] at hrl
      have hjr : j < (transport h ((groupOf factory clientHandles h).map Prod.snd) mode
          settings).length := by omega
      have hex : ∃ s ∈ factory.subscriptionMap_.map Prod.snd, s.clientSubscriptionHandle = h := by
        unfold owner at hown
        cases hfind : factory.subscriptionMap_.find?
            (fun entry => decide (clientHandle ∈ entry.2.clientHandles)) with
        | none => rw [hfind] at hown; simp at hown
        | some entry =>
          rw [hfind] at hown
          simp only [Option.map_some', Option.some.injEq] at hown
          exact ⟨entry.2, List.mem_map.mpr ⟨entry, List.mem_of_find?_eq_some hfind, rfl⟩, hown⟩
      obtain ⟨hval, hcall⟩ := foldl_setMonitoringModeOf_owner transport hreply factory
        clientHandles mode settings i clientHandle h j hi hj
        (factory.subscriptionMap_.map Prod.snd)
        { results := List.replicate clientHandles.length Status.NotFoundError
          transportCalls := [] }
        (by simp) hex
      refine ⟨j, _, ?_, ?_, List.getElem?_eq_getElem hjr, ?_, hcall⟩
      · rw [List.getElem?_map, hj]; rfl
      · rw [List.getElem?_map, hj]; rfl
      · unfold setMonitoringModeIfNeeded
        rw [hval, List.getElem?_eq_getElem hjr]

/-- Witness of C19: scenario D. The handles 11, 12, 13, of which 11 and 13 belong to subscription
1 and 12 to subscription 2, give two transport calls and three statuses in the order of the
input. -/
theorem setMonitoringModeIfNeeded_one_status_per_handle_witness :
    setMonitoringModeIfNeeded transportD factoryD [11, 12, 13] () ()
        = { results := [Status.other 11, Status.other 12, Status.other 13]
            transportCalls := [(1, [11, 13]), (2, [12])] }
    ∧ (setMonitoringModeIfNeeded transportD factoryD [11, 12, 13] () ()).results.length
        = [11, 12, 13].length :=
  ⟨by decide,
    (setMonitoringModeIfNeeded_one_status_per_handle transportD
      (fun _ hs _ _ => List.length_map hs Status.other) factoryD [11, 12, 13] () ()).1⟩

end SubscriptionFactory

/-! ## Frame properties of invokeService -/

namespace SubscriptionFactory

variable {σ S Q R P Ses Sub NA SA : Type}

/-- C22: after a Good acquisition the invocation that `invokeService` leaves behind carries the
subscription information of the acquired subscription, both when the invocation was forwarded and
when the call returned SubscriptionNotCreatedError; after a failed acquisition the invocation is
the one given. -/
theorem invokeService_subscriptionInformation [DecidableEq P]
    (ext : ExtensionPoints σ S Q R Ses Sub NA SA)
    (newSubscription : SubscriptionSettings P → Subscription P Sub)
    (factory : SubscriptionFactory P Sub) (invocation : BaseServiceInvocation S Q R)
    (request : BaseSubscriptionRequest P) (sdk : σ) (ns : NA) (sa : SA) :
    ∃ result, invokeService ext newSubscription factory invocation request sdk ns sa
        = some result
      ∧ (∀ subscription,
          (acquire newSubscription (afterStore factory invocation) request).ret.isGood = true →
          (acquire newSubscription (afterStore factory invocation) request).subscription
            = some subscription →
          result.invocation.subscriptionInformation_ = subscription.subscriptionInformation
          ∧ (subscription.isCreated = false →
              result.ret = Status.SubscriptionNotCreatedError
              ∧ result.invocation
                = invocation.setSubscriptionInformation subscription.subscriptionInformation))
      ∧ ((acquire newSubscription (afterStore factory invocation) request).ret.isGood = false →
          result.invocation = invocation) := by
  obtain ⟨result, hres, _, hpaths⟩ :=
    invokeService_paths ext newSubscription factory invocation request sdk ns sa
  refine ⟨result, hres, ?_, ?_⟩
  · intro subscription hgood hsub
    rcases hpaths with ⟨hret, _⟩ | ⟨sub, n, _, hsub1, _, _, _, hcr⟩
    · rw [hret] at hgood
      exact absurd hgood (by simp [Status.isGood])
    · rw [hsub] at hsub1
      have hs : subscription = sub := Option.some.inj hsub1
      subst hs
      rcases hcr with ⟨hc, hret, hinv, _⟩ | ⟨hc, _, hinv, _⟩
      · refine ⟨?_, fun _ => ⟨hret, hinv⟩⟩
        rw [hinv]
        rfl
      · refine ⟨?_, fun hc1 => ?_⟩
        · rw [hinv]
          obtain ⟨_, rts, hfr, _⟩ := invokeSubscription_frame ext
            (invocation.setSubscriptionInformation subscription.subscriptionInformation)
            sdk subscription.uaSubscription ns sa
          unfold Subscription.invokeService
          rw [hfr]
          rfl
        · rw [hc] at hc1
          exact absurd hc1 (by simp)
  · intro hbad
    rcases hpaths with ⟨_, _, _, hinv, _⟩ | ⟨sub, n, hret, _⟩
    · exact hinv
    · rw [hret] at hbad
      exact absurd hbad (by simp [Status.isGood])

/-- C27: `invokeService` always returns and never removes a record of the transaction table:
every transaction id that had a record before the call has one after it, with the same request
handle unless it is the id just minted. For an asynchronous invocation the table after the call
has the record from the minted id to the request handle of the invocation, whatever status the
call returns, so also when the acquisition failed, when the subscription was not created and when
the forwarded invocation failed. -/
theorem invokeService_keeps_records [DecidableEq P]
    (ext : ExtensionPoints σ S Q R Ses Sub NA SA)
    (newSubscription : SubscriptionSettings P → Subscription P Sub)
    (factory : SubscriptionFactory P Sub) (invocation : BaseServiceInvocation S Q R)
    (request : BaseSubscriptionRequest P) (sdk : σ) (ns : NA) (sa : SA) :
    ∃ result, invokeService ext newSubscription factory invocation request sdk ns sa
        = some result
      ∧ (invocation.asynchronous = true →
          mapFind result.factory.transactionMap_ (getNewTransactionId_ factory).1
            = some invocation.requestHandle)
      ∧ (∀ transactionId requestHandle,
          mapFind factory.transactionMap_ transactionId = some requestHandle →
          ∃ requestHandle1,
            mapFind result.factory.transactionMap_ transactionId = some requestHandle1
            ∧ (transactionId ≠ (getNewTransactionId_ factory).1 →
                requestHandle1 = requestHandle)) := by
  obtain ⟨result, hres, htm, _⟩ :=
    invokeService_paths ext newSubscription factory invocation request sdk ns sa
  rw [afterStore_transactionMap] at htm
  refine ⟨result, hres, ?_, ?_⟩
  · intro hasync
    rw [htm, hasync]
    simp only [if_true]
    rw [mapFind_mapAssign]
    simp
  · intro transactionId requestHandle hfind
    rw [htm]
    by_cases hasync : invocation.asynchronous = true
    · simp only [hasync, if_true]
      rw [mapFind_mapAssign]
      by_cases hk : (getNewTransactionId_ factory).1 = transactionId
      · exact ⟨invocation.requestHandle, by simp [hk], fun hne => absurd hk.symm hne⟩
      · exact ⟨requestHandle, by simp [hk, hfind], fun _ => rfl⟩
    · simp only [hasync, Bool.false_eq_true, if_false]
      exact ⟨requestHandle, hfind, fun _ => rfl⟩

/-- An instance of C27: the asynchronous invocation `asyncExample` with a request that makes
`factorySix` create a subscription that is not yet created fails with
SubscriptionNotCreatedError and leaves the record 7 to 42 in the transaction table. -/
theorem invokeService_keeps_records_witness :
    (invokeService asyncService pendingSubscription factorySix asyncExample requestUnique
        () () ()).map (fun result => (result.ret, result.factory.transactionMap_))
      = some (Status.SubscriptionNotCreatedError, [(7, 42)])
    ∧ ∃ result, invokeService asyncService pendingSubscription factorySix asyncExample
        requestUnique () () () = some result
      ∧ mapFind result.factory.transactionMap_ (getNewTransactionId_ factorySix).1
          = some asyncExample.requestHandle :=
  ⟨rfl,
    (invokeService_keeps_records asyncService pendingSubscription factorySix asyncExample
      requestUnique () () ()).imp (fun _ h => ⟨h.1, h.2.1 rfl⟩)⟩

end SubscriptionFactory

/-! ## Duplicate ranks, partial copies and the frame of copyToResult -/

theorem copyLoop_frame {E T : Type} (ranks : List Nat) (body : E → Nat → List T → List T)
    (hlen : ∀ e r ts, (body e r ts).length = ts.length)
    (hframe : ∀ e r ts j, j ≠ r → (body e r ts)[j]? = ts[j]?) :
    ∀ (items : List E) (rs : List Nat) (i : Nat) (ret : Status) (targets : List T),
      ranks.drop i = rs → (ret.isGood = true → items.length ≤ rs.length) →
      ∃ ret1 targets1, copyLoop ranks body items i ret targets = some (ret1, targets1)
        ∧ targets1.length = targets.length
        ∧ ∀ j, j ∉ rs.take items.length → targets1[j]? = targets[j]? := by
  intro items
  induction items with
  | nil => intro rs i ret targets _ _; exact ⟨ret, targets, rfl, rfl, fun _ _ => rfl⟩
  | cons item items ih =>
    intro rs i ret targets hdrop hle
    by_cases hgood : ret.isGood = true
    · have hle1 := hle hgood
      cases rs with
      | nil => simp at hle1
      | cons r rs =>
        obtain ⟨hget, hdrop1⟩ := drop_eq_cons hdrop
        by_cases hr : r < targets.length
        · obtain ⟨ret1, targets1, h1, h2, h3⟩ := ih rs (i + 1) ret (body item r targets) hdrop1
            (fun _ => by simpa using hle1)
          refine ⟨ret1, targets1, ?_, by rw [h2, hlen], ?_⟩
          · simp [copyLoop, hgood, hget, hr, h1]
          · intro j hj
            simp only [List.length_cons, List.take_succ_cons, List.mem_cons, not_or] at hj
            rw [h3 j hj.2, hframe _ _ _ _ hj.1]
        · refine ⟨Status.UnexpectedError (Description.rankOutOfRange r targets.length), targets,
            ?_, rfl, fun _ _ => rfl⟩
          simp only [copyLoop, hgood, hget, hr, if_true, if_false]
          exact copyLoop_not_good ranks body items (i + 1) _ targets rfl
    · have hbad : ret.isGood = false := by simpa using hgood
      exact ⟨ret, targets, copyLoop_not_good ranks body (item :: items) i ret targets hbad, rfl,
        fun _ _ => rfl⟩

/-- The loop stops at the first rank that is out of range, after the assignments for the entries
before it. -/
theorem copyLoop_until {E T : Type} (ranks : List Nat) (body : E → Nat → List T → List T)
    (hlen : ∀ e r ts, (body e r ts).length = ts.length) :
    ∀ (items : List E) (rs : List Nat) (i : Nat) (targets : List T) (k rank : Nat),
      ranks.drop i = rs → items.length ≤ rs.length → k < items.length →
      rs[k]? = some rank → targets.length ≤ rank →
      (∀ j r, j < k → rs[j]? = some r → r < targets.length) →
      copyLoop ranks body items i Status.Good targets
        = some (Status.UnexpectedError (Description.rankOutOfRange rank targets.length),
            writes body (items.take k) rs targets) := by
  intro items
  induction items with
  | nil => intro rs i targets k rank _ _ hk; simp at hk
  | cons item items ih =>
    intro rs i targets k rank hdrop hle hk hrank hout hleast
    cases rs with
    | nil => simp at hle
    | cons r rs =>
      obtain ⟨hget, hdrop1⟩ := drop_eq_cons hdrop
      cases k with
      | zero =>
        simp only [List.getElem?_cons_zero, Option.some.injEq] at hrank
        subst hrank
        have hr : ¬ r < targets.length := by omega
        simp only [copyLoop, Status.isGood, hget, hr, if_true, if_false, List.take_zero, writes]
        exact copyLoop_not_good ranks body items (i + 1) _ targets rfl
      | succ k =>
        have hr : r < targets.length := hleast 0 r (by omega) (by simp)
        have hrec := ih rs (i + 1) (body item r targets) k rank hdrop1
          (by simpa using hle) (by simpa using hk) (by simpa using hrank)
          (by rw [hlen]; exact hout)
          (by
            intro j r1 hj hr1
            rw [hlen]
            exact hleast (j + 1) r1 (by omega) (by simpa using hr1))
        rw [hlen] at hrec
        simp [copyLoop, Status.isGood, hget, hr, hrec, writes]

theorem assignAsyncSession_frame {S Q R : Type} (inv : BaseServiceInvocation S Q R)
    (e : AsyncResultTarget) (r : Nat) (ts : List AsyncResultTarget) (j : Nat) (h : j ≠ r) :
    (assignAsyncSession inv e r ts)[j]? = ts[j]? :=
  modify_frame _ r j ts h

/-- C23: `addTarget` and the synchronous session-level `copyToResult` accept duplicate ranks.
With as many result targets as ranks and every rank in range, when the entries `i < j` have the
same rank and `j` is the last entry with that rank, `copyToResult` returns Good and the slot of
the rank holds `resultTargets[j]` with the connection id stamped; it does not hold
`resultTargets[i]` when that differs from `resultTargets[j]` in more than the connection id. -/
theorem copyToResult_duplicate_rank_last_wins {S Q β : Type}
    (inv : BaseServiceInvocation S Q (BaseSessionResultTarget β))
    (result : BaseResult (BaseSessionResultTarget β))
    (hlen : inv.resultTargets_.length = inv.ranks_.length)
    (hrange : ∀ rank ∈ inv.ranks_, rank < result.targets.length)
    (i j rank : Nat) (targetI targetJ : BaseSessionResultTarget β)
    (hij : i < j)
    (hrankI : inv.ranks_[i]? = some rank) (hrankJ : inv.ranks_[j]? = some rank)
    (htargetI : inv.resultTargets_[i]? = some targetI)
    (htargetJ : inv.resultTargets_[j]? = some targetJ)
    (hlast : ∀ k, j < k → inv.ranks_[k]? ≠ some rank) :
    ∃ result1, copyToResultSession inv result = some (Status.Good, result1)
      ∧ result1.targets[rank]? = some { targetJ with
          clientConnectionId := inv.sessionInformation_.clientConnectionId }
      ∧ (targetI.rest ≠ targetJ.rest →
          result1.targets[rank]? ≠ some { targetI with
            clientConnectionId := inv.sessionInformation_.clientConnectionId }) := by
  have hloop := copyLoop_in_range inv.ranks_ (assignSession inv) (assignSession_length inv)
    inv.resultTargets_ inv.ranks_ 0 result.targets
    rfl (by omega) (fun r hr => hrange r (List.mem_of_mem_take hr))
  have hslot := writes_slot_last (assignSession inv)
    (fun e => { e with clientConnectionId := inv.sessionInformation_.clientConnectionId })
    (assignSession_length inv) (assignSession_frame inv) (assignSession_self inv)
    inv.resultTargets_ inv.ranks_ result.targets
    (fun r hr => hrange r (List.mem_of_mem_take hr)) j targetJ rank htargetJ hrankJ
    (fun k hjk _ => hlast k hjk)
  refine ⟨⟨writes (assignSession inv) inv.resultTargets_ inv.ranks_ result.targets⟩, ?_,
    hslot, ?_⟩
  · unfold copyToResultSession
    simp only [hlen, ne_eq, not_true_eq_false, if_false, hloop, Option.map_some']
  · intro hne heq
    have _hentry : i < j ∧ inv.ranks_[i]? = inv.ranks_[j]?
        ∧ inv.resultTargets_[i]? = some targetI := ⟨hij, hrankI.trans hrankJ.symm, htargetI⟩
    simp only at heq
    rw [hslot] at heq
    have := Option.some.inj heq
    exact hne (congrArg BaseSessionResultTarget.rest this).symm

/-- Witness of C23: two targets added with rank 0; slot 0 ends up with the second one. -/
theorem copyToResult_duplicate_rank_last_wins_witness :
    duplicateRanks.ranks_ = [0, 0]
    ∧ copyToResultSession duplicateRanks threeSlots
        = some (Status.Good,
            ⟨[⟨9, Status.other 1⟩, ⟨0, Status.Uncertain⟩, ⟨0, Status.Uncertain⟩]⟩)
    ∧ ∃ result1, copyToResultSession duplicateRanks threeSlots = some (Status.Good, result1)
        ∧ result1.targets[0]? = some ⟨9, Status.other 1⟩ :=
  ⟨rfl, by decide,
    (copyToResult_duplicate_rank_last_wins duplicateRanks threeSlots (by decide) (by decide)
      0 1 0 ⟨0, Status.Good⟩ ⟨0, Status.other 1⟩ (by decide) (by decide) (by decide)
      (by decide) (by decide)
      (fun k hk => by
        have hk2 : duplicateRanks.ranks_.length ≤ k := by
          show 2 ≤ k
          omega
        rw [List.getElem?_eq_none hk2]
        simp)).imp
      (fun _ h => ⟨h.1, h.2.1⟩)⟩

theorem copyLoop_stops_at {E T : Type} (ranks : List Nat) (body : E → Nat → List T → List T)
    (w : E → T)
    (hlen : ∀ e r ts, (body e r ts).length = ts.length)
    (hframe : ∀ e r ts j, j ≠ r → (body e r ts)[j]? = ts[j]?)
    (hset : ∀ e r ts, r < ts.length → (body e r ts)[r]? = some (w e))
    (items : List E) (targets : List T) (k rank : Nat)
    (hitems : items.length = ranks.length) (hk : ranks[k]? = some rank)
    (hout : targets.length ≤ rank)
    (hleast : ∀ i r, i < k → ranks[i]? = some r → r < targets.length) :
    copyLoop ranks body items 0 Status.Good targets
      = some (Status.UnexpectedError (Description.rankOutOfRange rank targets.length),
          writes body (items.take k) ranks targets)
    ∧ (writes body (items.take k) ranks targets).length = targets.length
    ∧ (∀ i r item, i < k → ranks[i]? = some r → items[i]? = some item →
        (∀ j, i < j → j < k → ranks[j]? ≠ some r) →
        (writes body (items.take k) ranks targets)[r]? = some (w item))
    ∧ (∀ j, j ∉ ranks.take k → (writes body (items.take k) ranks targets)[j]? = targets[j]?) := by
  have hklt : k < ranks.length := by
    by_contra hc
    rw [List.getElem?_eq_none (by omega)] at hk
    exact absurd hk (by simp)
  have htake : (items.take k).length = k := by
    rw [List.length_take]
    omega
  refine ⟨?_, writes_length body hlen _ _ _, ?_, ?_⟩
  · exact copyLoop_until ranks body hlen items ranks 0 targets k rank rfl (by omega)
      (by omega) hk hout hleast
  · intro i r item hik hr hitem hlast
    apply writes_slot_last body w hlen hframe hset (items.take k) ranks targets ?_ i item r ?_ hr
    · intro j hij hjk
      rw [htake] at hjk
      exact hlast j hij hjk
    · intro r1 hr1
      rw [htake] at hr1
      obtain ⟨j, hj, hjr⟩ := List.getElem_of_mem hr1
      have hjk : j < k := by
        have := hj
        simp at this
        exact this.1
      have hj2 : j < ranks.length := by omega
      rw [List.getElem_take] at hjr
      exact hleast j r1 hjk (by rw [List.getElem?_eq_getElem hj2, hjr])
    · rw [List.getElem?_take_of_lt hik]
      exact hitem
  · intro j hj
    apply writes_frame body hframe
    rw [htake]
    exact hj

/-- C24: with as many result targets as ranks, when `k` is the least index whose rank is not
below `result.targets.size()`, the synchronous session-level and subscription-level
`copyToResult` return the UnexpectedError for that rank, and the result holds exactly the
assignments of the entries before `k`: its size is unchanged, the slot of the rank of an entry
`i < k` holds `resultTargets[i]` with the stamps (when no later entry before `k` has that rank),
and every slot that is not the rank of an entry before `k` is as it was, so no entry from `k` on
was copied. -/
theorem copyToResult_out_of_range_earlier_writes {S Q β S2 Q2 β2 : Type}
    (inv : BaseServiceInvocation S Q (BaseSessionResultTarget β))
    (result : BaseResult (BaseSessionResultTarget β))
    (inv2 : BaseServiceInvocation S2 Q2 (BaseSubscriptionResultTarget β2))
    (result2 : BaseResult (BaseSubscriptionResultTarget β2))
    (k rank k2 rank2 : Nat)
    (hlen : inv.resultTargets_.length = inv.ranks_.length)
    (hk : inv.ranks_[k]? = some rank) (hout : result.targets.length ≤ rank)
    (hleast : ∀ i r, i < k → inv.ranks_[i]? = some r → r < result.targets.length)
    (hlen2 : inv2.resultTargets_.length = inv2.ranks_.length)
    (hk2 : inv2.ranks_[k2]? = some rank2) (hout2 : result2.targets.length ≤ rank2)
    (hleast2 : ∀ i r, i < k2 → inv2.ranks_[i]? = some r → r < result2.targets.length) :
    (∃ result1, copyToResultSession inv result
        = some (Status.UnexpectedError (Description.rankOutOfRange rank result.targets.length),
            result1)
      ∧ result1.targets
          = writes (assignSession inv) (inv.resultTargets_.take k) inv.ranks_ result.targets
      ∧ result1.targets.length = result.targets.length
      ∧ (∀ i r resultTarget, i < k → inv.ranks_[i]? = some r →
          inv.resultTargets_[i]? = some resultTarget →
          (∀ j, i < j → j < k → inv.ranks_[j]? ≠ some r) →
          result1.targets[r]? = some { resultTarget with
            clientConnectionId := inv.sessionInformation_.clientConnectionId })
      ∧ (∀ j, j ∉ inv.ranks_.take k → result1.targets[j]? = result.targets[j]?))
    ∧ (∃ result3, copyToResultSubscription inv2 result2
        = some (Status.UnexpectedError (Description.rankOutOfRange rank2 result2.targets.length),
            result3)
      ∧ result3.targets
          = writes (assignSubscription inv2) (inv2.resultTargets_.take k2) inv2.ranks_
              result2.targets
      ∧ result3.targets.length = result2.targets.length
      ∧ (∀ i r resultTarget, i < k2 → inv2.ranks_[i]? = some r →
          inv2.resultTargets_[i]? = some resultTarget →
          (∀ j, i < j → j < k2 → inv2.ranks_[j]? ≠ some r) →
          result3.targets[r]? = some { resultTarget with
            clientConnectionId := inv2.sessionInformation_.clientConnectionId
            clientSubscriptionHandle :=
              inv2.subscriptionInformation_.clientSubscriptionHandle })
      ∧ (∀ j, j ∉ inv2.ranks_.take k2 → result3.targets[j]? = result2.targets[j]?)) := by
  constructor
  · obtain ⟨h1, h2, h3, h4⟩ := copyLoop_stops_at inv.ranks_ (assignSession inv)
      (fun e => { e with clientConnectionId := inv.sessionInformation_.clientConnectionId })
      (assignSession_length inv) (assignSession_frame inv) (assignSession_self inv)
      inv.resultTargets_ result.targets k rank hlen hk hout hleast
    refine ⟨⟨writes (assignSession inv) (inv.resultTargets_.take k) inv.ranks_ result.targets⟩,
      ?_, rfl, h2, h3, h4⟩
    unfold copyToResultSession
    simp only [hlen, ne_eq, not_true_eq_false, if_false, h1, Option.map_some']
  · obtain ⟨h1, h2, h3, h4⟩ := copyLoop_stops_at inv2.ranks_ (assignSubscription inv2)
      (fun e => { e with
        clientConnectionId := inv2.sessionInformation_.clientConnectionId
        clientSubscriptionHandle := inv2.subscriptionInformation_.clientSubscriptionHandle })
      (assignSubscription_length inv2) (assignSubscription_frame inv2)
      (assignSubscription_self inv2)
      inv2.resultTargets_ result2.targets k2 rank2 hlen2 hk2 hout2 hleast2
    refine ⟨⟨writes (assignSubscription inv2) (inv2.resultTargets_.take k2) inv2.ranks_
      result2.targets⟩, ?_, rfl, h2, h3, h4⟩
    unfold copyToResultSubscription
    simp only [hlen2, ne_eq, not_true_eq_false, if_false, h1, Option.map_some']

/-- Witness of C24: the ranks 2, 5, 1 into three slots, at both levels: slot 2 is written, the
entry with rank 1 is not copied. -/
theorem copyToResult_out_of_range_earlier_writes_witness :
    copyToResultSession outOfRangeSession threeSlots
        = some (Status.UnexpectedError (Description.rankOutOfRange 5 3),
            ⟨[⟨0, Status.Uncertain⟩, ⟨0, Status.Uncertain⟩, ⟨9, Status.Good⟩]⟩)
    ∧ ∃ result3, copyToResultSubscription outOfRangeSubscription
          ⟨[⟨0, 0, Status.Uncertain⟩, ⟨0, 0, Status.Uncertain⟩, ⟨0, 0, Status.Uncertain⟩]⟩
        = some (Status.UnexpectedError (Description.rankOutOfRange 5 3), result3)
      ∧ result3.targets[2]? = some ⟨9, 4, Status.Good⟩ :=
  ⟨by decide,
    (copyToResult_out_of_range_earlier_writes outOfRangeSession threeSlots outOfRangeSubscription
      ⟨[⟨0, 0, Status.Uncertain⟩, ⟨0, 0, Status.Uncertain⟩, ⟨0, 0, Status.Uncertain⟩]⟩
      1 5 1 5 (by decide) (by decide) (by decide)
      (fun i r hi hr => by
        have hi0 : i = 0 := by omega
        subst hi0
        have : r = 2 := (Option.some.inj hr).symm
        subst this
        decide)
      (by decide) (by decide) (by decide)
      (fun i r hi hr => by
        have hi0 : i = 0 := by omega
        subst hi0
        have : r = 2 := (Option.some.inj hr).symm
        subst this
        decide)).2.imp
      (fun _ h => ⟨h.1, h.2.2.2.1 0 2 ⟨0, 0, Status.Good⟩ (by decide) (by decide) (by decide)
        (fun j h0 h1 => by omega)⟩)⟩

/-- C25: each of the four overloads of `copyToResult` always returns, leaves the size of
`result.targets` unchanged, and leaves every slot whose index does not occur in the ranks as it
was. (The embedded functions give back no invocation: no overload assigns to a member of the
invocation.) -/
theorem copyToResult_frame {S Q β S2 Q2 β2 S3 Q3 R3 : Type}
    (inv : BaseServiceInvocation S Q (BaseSessionResultTarget β))
    (result : BaseResult (BaseSessionResultTarget β))
    (inv2 : BaseServiceInvocation S2 Q2 (BaseSubscriptionResultTarget β2))
    (result2 : BaseResult (BaseSubscriptionResultTarget β2))
    (inv3 : BaseServiceInvocation S3 Q3 R3) (result3 : BaseResult AsyncResultTarget) :
    (∃ ret result1, copyToResultSession inv result = some (ret, result1)
      ∧ result1.targets.length = result.targets.length
      ∧ ∀ j, j ∉ inv.ranks_ → result1.targets[j]? = result.targets[j]?)
    ∧ (∃ ret result1, copyToResultSubscription inv2 result2 = some (ret, result1)
      ∧ result1.targets.length = result2.targets.length
      ∧ ∀ j, j ∉ inv2.ranks_ → result1.targets[j]? = result2.targets[j]?)
    ∧ (∃ ret result1, copyToResultAsyncSession inv3 result3 = some (ret, result1)
      ∧ result1.targets.length = result3.targets.length
      ∧ ∀ j, j ∉ inv3.ranks_ → result1.targets[j]? = result3.targets[j]?)
    ∧ (∃ ret result1, copyToResultAsyncSubscription inv3 result3 = some (ret, result1)
      ∧ result1.targets.length = result3.targets.length
      ∧ ∀ j, j ∉ inv3.ranks_ → result1.targets[j]? = result3.targets[j]?) := by
  refine ⟨?_, ?_, ?_, ?_⟩
  · obtain ⟨ret1, targets1, h1, h2, h3⟩ := copyLoop_frame inv.ranks_ (assignSession inv)
      (assignSession_length inv) (assignSession_frame inv) inv.resultTargets_ inv.ranks_ 0
      (if inv.resultTargets_.length ≠ inv.ranks_.length then
        Status.UnexpectedError
          (Description.numberOfResultTargets inv.resultTargets_.length inv.ranks_.length)
      else Status.Good) result.targets rfl
      (by
        intro hgood
        by_cases hne : inv.resultTargets_.length = inv.ranks_.length
        · omega
        · simp [hne, Status.isGood] at hgood)
    refine ⟨ret1, ⟨targets1⟩, ?_, h2, fun j hj => h3 j (fun hm => hj (List.mem_of_mem_take hm))⟩
    unfold copyToResultSession
    simp only [h1, Option.map_some']
  · obtain ⟨ret1, targets1, h1, h2, h3⟩ := copyLoop_frame inv2.ranks_ (assignSubscription inv2)
      (assignSubscription_length inv2) (assignSubscription_frame inv2) inv2.resultTargets_
      inv2.ranks_ 0
      (if inv2.resultTargets_.length ≠ inv2.ranks_.length then
        Status.UnexpectedError
          (Description.numberOfResultTargets inv2.resultTargets_.length inv2.ranks_.length)
      else Status.Good) result2.targets rfl
      (by
        intro hgood
        by_cases hne : inv2.resultTargets_.length = inv2.ranks_.length
        · omega
        · simp [hne, Status.isGood] at hgood)
    refine ⟨ret1, ⟨targets1⟩, ?_, h2, fun j hj => h3 j (fun hm => hj (List.mem_of_mem_take hm))⟩
    unfold copyToResultSubscription
    simp only [h1, Option.map_some']
  · by_cases hlen : inv3.ranks_.length = inv3.asyncResultTargets_.length
    · obtain ⟨ret1, targets1, h1, h2, h3⟩ := copyLoop_frame inv3.ranks_
        (assignAsyncSession inv3) (assignAsyncSession_length inv3)
        (assignAsyncSession_frame inv3) inv3.asyncResultTargets_ inv3.ranks_ 0 Status.Good
        result3.targets rfl (fun _ => by omega)
      refine ⟨ret1, ⟨targets1⟩, ?_, h2,
        fun j hj => h3 j (fun hm => hj (List.mem_of_mem_take hm))⟩
      unfold copyToResultAsyncSession
      simp only [hlen, if_true, h1, Option.map_some']
    · refine ⟨Status.UnexpectedError Description.ranksDoNotMatch, result3, ?_, rfl,
        fun _ _ => rfl⟩
      unfold copyToResultAsyncSession
      simp only [hlen, if_false]
  · by_cases hlen : inv3.ranks_.length = inv3.asyncResultTargets_.length
    · obtain ⟨ret1, targets1, h1, h2, h3⟩ := copyLoop_frame inv3.ranks_
        (assignAsyncSubscription inv3) (assignAsyncSubscription_length inv3)
        (assignAsyncSubscription_frame inv3) inv3.asyncResultTargets_ inv3.ranks_ 0 Status.Good
        result3.targets rfl (fun _ => by omega)
      refine ⟨ret1, ⟨targets1⟩, ?_, h2,
        fun j hj => h3 j (fun hm => hj (List.mem_of_mem_take hm))⟩
      unfold copyToResultAsyncSubscription
      simp only [hlen, if_true, h1, Option.map_some']
    · refine ⟨Status.UnexpectedError Description.ranksDoNotMatch, result3, ?_, rfl,
        fun _ _ => rfl⟩
      unfold copyToResultAsyncSubscription
      simp only [hlen, if_false]

/-! ## The invocation level, and the two levels of invoke -/

theorem applyOperations_invocationLevel {σ S Q R Ses Sub NA SA : Type} :
    ∀ (operations : List (Operation σ S Q R Ses Sub NA SA)) (inv : BaseServiceInvocation S Q R),
      (applyOperations inv operations).invocationLevel_ = inv.invocationLevel_ := by
  intro operations
  induction operations with
  | nil => intro inv; rfl
  | cons o operations ih =>
    intro inv
    show (applyOperations (applyOperation inv o) operations).invocationLevel_ = _
    rw [ih]
    cases o with
    | modifier call => cases call <;> rfl
    | invokeSession ext sdk uaSession ns sa =>
      obtain ⟨_, resultTargets, h, _⟩ := invoke_frame ext inv sdk uaSession ns sa
      show (invoke ext inv sdk uaSession ns sa).invocation.invocationLevel_ = _
      rw [h]
    | invokeSubscription ext sdk uaSubscription ns sa =>
      obtain ⟨_, resultTargets, h, _⟩ := invokeSubscription_frame ext inv sdk uaSubscription ns sa
      show (BaseServiceInvocation.invokeSubscription ext inv sdk uaSubscription ns
        sa).invocation.invocationLevel_ = _
      rw [h]

/-- C26: after the constructor and any sequence of operations (modifier calls and calls of
`invoke` at either level, with any services and arguments), `invocationLevel()` is SessionLevel;
so the subscription-level `invokeSyncSdkService` and `invokeAsyncSdkService` of the base class
return the UnexpectedError "Method is not supposed to be called!" on it, which is neither
SyncInvocationNotSupportedError nor AsyncInvocationNotSupportedError. -/
theorem invocationLevel_always_session {σ S Q R Ses Sub NA SA : Type}
    (async : Bool) (requestHandle : RequestHandle) (serviceSettings : S)
    (sessionInformation : SessionInformation) (subscriptionInformation : SubscriptionInformation)
    (operations : List (Operation σ S Q R Ses Sub NA SA)) :
    let inv := applyOperations
      (create async requestHandle serviceSettings sessionInformation subscriptionInformation)
      operations
    inv.invocationLevel = InvocationLevel.SessionLevel
    ∧ invokeSyncSdkService_UaSubscription inv
        = Status.UnexpectedError Description.notSupposedToBeCalled
    ∧ invokeAsyncSdkService_UaSubscription inv
        = Status.UnexpectedError Description.notSupposedToBeCalled
    ∧ invokeSyncSdkService_UaSubscription inv ≠ Status.SyncInvocationNotSupportedError
    ∧ invokeAsyncSdkService_UaSubscription inv ≠ Status.AsyncInvocationNotSupportedError := by
  intro inv
  have hlevel : inv.invocationLevel_ = InvocationLevel.SessionLevel :=
    applyOperations_invocationLevel operations _
  have h1 : invokeSyncSdkService_UaSubscription inv
      = Status.UnexpectedError Description.notSupposedToBeCalled := by
    simp [invokeSyncSdkService_UaSubscription, hlevel]
  have h2 : invokeAsyncSdkService_UaSubscription inv
      = Status.UnexpectedError Description.notSupposedToBeCalled := by
    simp [invokeAsyncSdkService_UaSubscription, hlevel]
  refine ⟨hlevel, h1, h2, ?_, ?_⟩
  · rw [h1]
    exact fun h => Status.noConfusion h
  · rw [h2]
    exact fun h => Status.noConfusion h

theorem ite_some_lex (ne lt eq : Bool) (rest : Option Bool) (r : Bool) (hne : ne = !eq)
    (hlt : lt = true → eq = false) (hrest : rest = some r) :
    (if ne = true then some lt else rest) = some (lt || (eq && r)) := by
  subst hne hrest
  cases eq <;> cases lt <;> simp at hlt ⊢

theorem exactlyOne_eq_symm (lt gt eq eq1 : Bool) (h : exactlyOne lt eq gt = true)
    (h1 : exactlyOne gt eq1 lt = true) : eq1 = eq := by
  revert h h1
  cases lt <;> cases gt <;> cases eq <;> cases eq1 <;> simp [exactlyOne]

theorem exactlyOne_lt_ne (lt gt eq : Bool) (h : exactlyOne lt eq gt = true) :
    lt = true → eq = false := by
  revert h
  cases lt <;> cases gt <;> cases eq <;> simp [exactlyOne]

theorem exactlyOne_lex (lt gt eq restLt restGt restEq : Bool)
    (h : exactlyOne lt eq gt = true) (hrest : exactlyOne restLt restEq restGt = true) :
    exactlyOne (lt || (eq && restLt)) (eq && restEq) (gt || (eq && restGt)) = true := by
  revert h hrest
  cases lt <;> cases gt <;> cases eq <;> cases restLt <;> cases restGt <;> cases restEq <;>
    simp [exactlyOne]

theorem exactlyOne_int (x y : Int) :
    exactlyOne (decide (x < y)) (x == y) (decide (y < x)) = true := by
  rcases lt_trichotomy x y with h | h | h
  · have h1 : ¬ y < x := by omega
    have h2 : ¬ x = y := by omega
    simp [exactlyOne, h, h1, h2]
  · subst h
    simp [exactlyOne]
  · have h1 : ¬ x < y := by omega
    have h2 : ¬ x = y := by omega
    simp [exactlyOne, h, h1, h2]

theorem exactlyOne_bool (x y : Bool) :
    exactlyOne (!x && y) (x == y) (!y && x) = true := by
  cases x <;> cases y <;> rfl

theorem int_bne (x y : Int) : (x != y) = !(x == y) := rfl

theorem bool_bne (x y : Bool) : (x != y) = !(x == y) := rfl

theorem SessionSettings.timeouts_eq_some {RS SS : Type} (a : SessionSettings RS SS)
    (ta : Milliseconds) (ha : SessionSettings.timeouts a = some ta) :
    SessionSettings.milliseconds a.sessionTimeoutSec = some ta.sessionTimeout
    ∧ SessionSettings.milliseconds a.connectTimeoutSec = some ta.connectTimeout
    ∧ SessionSettings.milliseconds a.watchdogTimeoutSec = some ta.watchdogTimeout
    ∧ SessionSettings.milliseconds a.watchdogTimeSec = some ta.watchdogTime := by
  unfold SessionSettings.timeouts at ha
  cases h1 : SessionSettings.milliseconds a.sessionTimeoutSec with
  | none => rw [h1] at ha; simp at ha
  | some s =>
    cases h2 : SessionSettings.milliseconds a.connectTimeoutSec with
    | none => rw [h1, h2] at ha; simp at ha
    | some c =>
      cases h3 : SessionSettings.milliseconds a.watchdogTimeoutSec with
      | none => rw [h1, h2, h3] at ha; simp at ha
      | some wt =>
        cases h4 : SessionSettings.milliseconds a.watchdogTimeSec with
        | none => rw [h1, h2, h3, h4] at ha; simp at ha
        | some w =>
          rw [h1, h2, h3, h4] at ha
          simp only [Option.some_bind, Option.some.injEq] at ha
          subst ha
          exact ⟨rfl, rfl, rfl, rfl⟩

theorem SessionSettings.operatorLt_eq_lexLt {RS SS : Type} (rs : Comparisons RS)
    (ss : Comparisons SS)
    (hrs : ∀ x y, exactlyOne (rs.lt x y) (rs.eq x y) (rs.lt y x) = true)
    (hrsne : ∀ x y, rs.ne x y = !rs.eq x y)
    (hss : ∀ x y, exactlyOne (ss.lt x y) (ss.eq x y) (ss.lt y x) = true)
    (hssne : ∀ x y, ss.ne x y = !ss.eq x y)
    (a b : SessionSettings RS SS) (ta tb : Milliseconds)
    (ha : SessionSettings.timeouts a = some ta) (hb : SessionSettings.timeouts b = some tb) :
    SessionSettings.operatorLt rs ss a b
      = some (lexLt (SessionSettings.components rs ss a b ta tb)) := by
  obtain ⟨ha1, ha2, ha3, ha4⟩ := SessionSettings.timeouts_eq_some a ta ha
  obtain ⟨hb1, hb2, hb3, hb4⟩ := SessionSettings.timeouts_eq_some b tb hb
  simp only [SessionSettings.operatorLt, SessionSettings.millisecondsNe,
    SessionSettings.millisecondsLt, ha1, ha2, ha3, ha4, hb1, hb2, hb3, hb4, Option.some_bind,
    SessionSettings.components, lexLt]
  exact ite_some_lex _ _ _ _ _ (int_bne _ _) (exactlyOne_lt_ne _ _ _ (exactlyOne_int _ _))
    (ite_some_lex _ _ _ _ _ (int_bne _ _) (exactlyOne_lt_ne _ _ _ (exactlyOne_int _ _))
      (ite_some_lex _ _ _ _ _ (int_bne _ _) (exactlyOne_lt_ne _ _ _ (exactlyOne_int _ _))
        (ite_some_lex _ _ _ _ _ (int_bne _ _) (exactlyOne_lt_ne _ _ _ (exactlyOne_int _ _))
          (ite_some_lex _ _ _ _ _ (bool_bne _ _)
            (exactlyOne_lt_ne _ _ _ (exactlyOne_bool _ _))
            (ite_some_lex _ _ _ _ _ (hrsne _ _) (exactlyOne_lt_ne _ _ _ (hrs _ _))
              (ite_some_lex _ _ _ _ _ (hssne _ _) (exactlyOne_lt_ne _ _ _ (hss _ _))
                rfl))))))

theorem SessionSettings.operatorEq_eq_lexEq {RS SS : Type} (rs : Comparisons RS)
    (ss : Comparisons SS) (a b : SessionSettings RS SS) (ta tb : Milliseconds)
    (ha : SessionSettings.timeouts a = some ta) (hb : SessionSettings.timeouts b = some tb) :
    SessionSettings.operatorEq rs ss a b
      = some (lexEq (SessionSettings.components rs ss a b ta tb)) := by
  obtain ⟨ha1, ha2, ha3, ha4⟩ := SessionSettings.timeouts_eq_some a ta ha
  obtain ⟨hb1, hb2, hb3, hb4⟩ := SessionSettings.timeouts_eq_some b tb hb
  simp only [SessionSettings.operatorEq, SessionSettings.millisecondsEq, ha1, ha2, ha3, ha4,
    hb1, hb2, hb3, hb4, Option.some_bind, andThen_some, SessionSettings.components, lexEq,
    List.all_cons, List.all_nil, Bool.and_true, Bool.and_assoc]

/-- C29: take session settings a and b whose timeouts all have a defined `int(x*1000)` (the
product, rounded to a double, truncates to an `int`), and let `==`, `!=` and `<` of ReadSettings
and of SessionSecuritySettings be trichotomous (exactly one of x < y, x == y, y < x, and x != y
the negation of x == y). Then the three operators are defined on a and b, `operator<` is the
lexicographic order on (sessionTimeout, connectTimeout, watchdogTimeout, watchdogTime, unique,
readServerInfoSettings, securitySettings) with each timeout read as its millisecond integer,
`operator==` is equality of these tuples, a != b is the negation of a == b, and exactly one of
a < b, a == b, b < a holds. -/
theorem sessionSettings_total_order {RS SS : Type} (rs : Comparisons RS) (ss : Comparisons SS)
    (hrs : ∀ x y, exactlyOne (rs.lt x y) (rs.eq x y) (rs.lt y x) = true)
    (hrsne : ∀ x y, rs.ne x y = !rs.eq x y)
    (hss : ∀ x y, exactlyOne (ss.lt x y) (ss.eq x y) (ss.lt y x) = true)
    (hssne : ∀ x y, ss.ne x y = !ss.eq x y)
    (a b : SessionSettings RS SS) (ta tb : Milliseconds)
    (ha : SessionSettings.timeouts a = some ta) (hb : SessionSettings.timeouts b = some tb) :
    ∃ lt eq gt : Bool,
      SessionSettings.operatorLt rs ss a b = some lt
      ∧ SessionSettings.operatorEq rs ss a b = some eq
      ∧ SessionSettings.operatorLt rs ss b a = some gt
      ∧ SessionSettings.operatorNe rs ss a b = some (!eq)
      ∧ exactlyOne lt eq gt = true
      ∧ lt = lexLt (SessionSettings.components rs ss a b ta tb)
      ∧ eq = lexEq (SessionSettings.components rs ss a b ta tb)
      ∧ gt = lexLt (SessionSettings.components rs ss b a tb ta) := by
  have hlt := SessionSettings.operatorLt_eq_lexLt rs ss hrs hrsne hss hssne a b ta tb ha hb
  have hgt := SessionSettings.operatorLt_eq_lexLt rs ss hrs hrsne hss hssne b a tb ta hb ha
  have heq := SessionSettings.operatorEq_eq_lexEq rs ss a b ta tb ha hb
  refine ⟨_, _, _, hlt, heq, hgt, ?_, ?_, rfl, rfl, rfl⟩
  · simp only [SessionSettings.operatorNe, heq, Option.map_some']
  have hrse : ∀ x y, rs.eq y x = rs.eq x y :=
    fun x y => exactlyOne_eq_symm _ _ _ _ (hrs x y) (hrs y x)
  have hsse : ∀ x y, ss.eq y x = ss.eq x y :=
    fun x y => exactlyOne_eq_symm _ _ _ _ (hss x y) (hss y x)
  have hint : ∀ x y : Int, (y == x) = (x == y) :=
    fun x y => exactlyOne_eq_symm _ _ _ _ (exactlyOne_int x y) (exactlyOne_int y x)
  have hbool : ∀ x y : Bool, (y == x) = (x == y) :=
    fun x y => exactlyOne_eq_symm _ _ _ _ (exactlyOne_bool x y) (exactlyOne_bool y x)
  unfold SessionSettings.components lexEq
  simp only [lexLt, List.all_cons, List.all_nil]
  rw [hint ta.sessionTimeout, hint ta.connectTimeout, hint ta.watchdogTimeout,
    hint ta.watchdogTime, hbool a.unique, hrse a.readServerInfoSettings, hsse a.securitySettings]
  exact exactlyOne_lex _ _ _ _ _ _ (exactlyOne_int _ _)
    (exactlyOne_lex _ _ _ _ _ _ (exactlyOne_int _ _)
      (exactlyOne_lex _ _ _ _ _ _ (exactlyOne_int _ _)
        (exactlyOne_lex _ _ _ _ _ _ (exactlyOne_int _ _)
          (exactlyOne_lex _ _ _ _ _ _ (exactlyOne_bool _ _)
            (exactlyOne_lex _ _ _ _ _ _ (hrs _ _)
              (exactlyOne_lex _ _ _ _ _ _ (hss _ _) rfl))))))

/-- Witness of C29: default session settings with a connect timeout of 0.009 seconds against the
default ones. The connect timeout reads as 9 milliseconds (the product of the doubles rounds to
9), the session timeouts are equal, so the connect timeouts decide: the first is `<` the second,
they are not `==`, and the second is not `<` the first. A timeout of 0.29 seconds reads as 290
milliseconds, and for one of 3000000 seconds the conversion is undefined. -/
theorem sessionSettings_total_order_witness :
    SessionSettings.timeouts shortConnect = some ⟨1200000, 9, 2000, 5000⟩
    ∧ SessionSettings.milliseconds twentyNineHundredths = some 290
    ∧ SessionSettings.milliseconds (Double.ofNat 3000000) = none
    ∧ ∃ lt eq gt : Bool,
      SessionSettings.operatorLt unitComparisons unitComparisons shortConnect
          (SessionSettings.create () ()) = some lt
      ∧ SessionSettings.operatorEq unitComparisons unitComparisons shortConnect
          (SessionSettings.create () ()) = some eq
      ∧ SessionSettings.operatorLt unitComparisons unitComparisons
          (SessionSettings.create () ()) shortConnect = some gt
      ∧ lt = true ∧ eq = false ∧ gt = false := by
  refine ⟨by decide, by decide, by decide, ?_⟩
  obtain ⟨lt, eq, gt, h1, h2, h3, _, _, h6, h7, h8⟩ :=
    sessionSettings_total_order unitComparisons unitComparisons (fun _ _ => rfl)
      (fun _ _ => rfl) (fun _ _ => rfl) (fun _ _ => rfl) shortConnect
      (SessionSettings.create () ()) ⟨1200000, 9, 2000, 5000⟩ ⟨1200000, 2000, 2000, 5000⟩
      (by decide) (by decide)
  exact ⟨lt, eq, gt, h1, h2, h3, h6.trans (by decide), h7.trans (by decide),
    h8.trans (by decide)⟩

/-! ## Public keys -/

/-- C30, where the code departs from the claim: for a key that the SDK reports as RSA,
`toString` writes "DSA" as the key type. The RSA key of 2048 bits gives
"keyType=DSA, keySize=2048", which is not the described "keyType=RSA, keySize=2048" and is the
string of the DSA key of the same size, although the key types differ. For DSA keys and keys of
any other type the string is the described one. -/
theorem toString_names_rsa_as_dsa :
    (∀ (keySize : Int) (der : List Nat),
      PkiPublicKey.keyType ⟨⟨UaPkiKeyType.RSA, keySize, der⟩⟩ = PkiPublicKey.KeyType.RSA
      ∧ PkiPublicKey.toString ⟨⟨UaPkiKeyType.RSA, keySize, der⟩⟩
        = "keyType=DSA, keySize=" ++ Int.repr keySize
      ∧ PkiPublicKey.toString ⟨⟨UaPkiKeyType.RSA, keySize, der⟩⟩
        = PkiPublicKey.toString ⟨⟨UaPkiKeyType.DSA, keySize, der⟩⟩)
    ∧ PkiPublicKey.toString rsaKey = "keyType=DSA, keySize=2048"
    ∧ PkiPublicKey.described rsaKey = "keyType=RSA, keySize=2048"
    ∧ PkiPublicKey.toString rsaKey ≠ PkiPublicKey.described rsaKey
    ∧ rsaKey.keyType ≠ dsaKey.keyType
    ∧ rsaKey.keySize = dsaKey.keySize
    ∧ PkiPublicKey.toString rsaKey = PkiPublicKey.toString dsaKey
    ∧ (∀ key : PkiPublicKey, key.keyType ≠ PkiPublicKey.KeyType.RSA →
        PkiPublicKey.toString key = PkiPublicKey.described key) := by
  refine ⟨fun keySize der => ⟨rfl, rfl, rfl⟩, by decide, by decide, by decide, by decide, rfl,
    by decide, ?_⟩
  intro key hkey
  unfold PkiPublicKey.toString PkiPublicKey.described
  cases h : key.keyType with
  | RSA => exact absurd h hkey
  | DSA => simp
  | Unknown => simp

/-! ## The mutexes of the subscription factory -/

theorem held_append (calls rest : List MutexCall) (h : held calls = []) :
    held (calls ++ rest) = held rest := by
  unfold held at *
  rw [List.foldl_append, h]

namespace SubscriptionFactory

/-- C21, where the claim fails: after the first two mutex calls of `storeRequestHandle` the
thread holds two locks at once, the transaction-id lock and the transaction-map lock; the
transaction-id lock is taken by the second call, the transaction-map lock is released by the
fourth. -/
theorem storeRequestHandle_holds_two_locks :
    held (storeRequestHandle_mutexCalls.take 2)
      = [Mutex.transactionIdMutex_, Mutex.transactionMapMutex_]
    ∧ storeRequestHandle_mutexCalls[1]? = some (MutexCall.lock Mutex.transactionIdMutex_)
    ∧ storeRequestHandle_mutexCalls[3]? = some (MutexCall.unlock Mutex.transactionMapMutex_) := by
  decide

/-- C21, as the code has it: at every point of `storeRequestHandle` the thread holds only the
transaction-map lock and the transaction-id lock, the second only while it holds the first;
`storeRequestHandle` calls neither the subscription-map nor the activity-map mutex, and holds no
lock when it returns. So at every later point of `invokeService` the locks held are those taken
by the member functions called after `storeRequestHandle`. -/
theorem storeRequestHandle_lock_order :
    (∀ calls ∈ storeRequestHandle_mutexCalls.inits, ∀ mutex ∈ held calls,
      mutex = Mutex.transactionMapMutex_ ∨ mutex = Mutex.transactionIdMutex_)
    ∧ (∀ calls ∈ storeRequestHandle_mutexCalls.inits,
      Mutex.transactionIdMutex_ ∈ held calls → Mutex.transactionMapMutex_ ∈ held calls)
    ∧ (∀ call ∈ storeRequestHandle_mutexCalls,
      call ≠ MutexCall.lock Mutex.subscriptionMapMutex_
      ∧ call ≠ MutexCall.lock Mutex.activityMapMutex_
      ∧ call ≠ MutexCall.lock Mutex.subscriptionMutex_)
    ∧ held storeRequestHandle_mutexCalls = []
    ∧ (∀ (asynchronous : Bool) (rest : List MutexCall) (n : Nat),
      held ((invokeService_mutexCalls asynchronous rest).take
          ((if asynchronous then storeRequestHandle_mutexCalls.length else 0) + n))
        = held (rest.take n)) := by
  refine ⟨by decide, by decide, by decide, by decide, ?_⟩
  intro asynchronous rest n
  cases asynchronous
  · simp [invokeService_mutexCalls]
  · have h : (invokeService_mutexCalls true rest).take (storeRequestHandle_mutexCalls.length + n)
        = storeRequestHandle_mutexCalls ++ rest.take n := by
      simp [invokeService_mutexCalls, List.take_append]
    simp only [if_true]
    rw [h]
    exact held_append _ _ (by decide)

end SubscriptionFactory

end uaf
